import Mathlib

/-! # Container-lifecycle gateway (`backend/internal/services/k8s_service.go`)

A shallow embedding of the Kubernetes service of the container platform
backend, and theorems about it; with it the parts of
`backend/internal/k8s/client.go`, `backend/internal/middleware/auth.go` and
`backend/internal/service/user_service.go` that wait for a pod, convert a pod
to a record of the platform, issue tokens and compare roles.

Conventions of the embedding

* Go strings are Lean strings; the helpers of package `strings` work on the
  list of characters of a string.
* `int`, `int32` and `time.Duration` values are integers; a conversion to a
  narrower type is written out with its wrap-around.
* `float64` values are the finite binary fractions `man * 2 ^ exp`, and every
  floating-point operation rounds its exact result to 53 significant bits,
  ties to even (the exponent range is not modelled: the magnitudes met by
  `calculateAge` lie between `2 ^ (-42)` and `2 ^ 27`).
* Calls to the cluster are answers of a `Clientset` value; each operation
  returns its result together with the list of calls it issued, in order.
* A Go panic is a result of its own, distinct from a returned error.
* Library code (quantities, kubeconfig files, token signing) is a parameter
  of the function that calls it.
-/

namespace ContainerPlatform

/-! ## Package `strings` and `strconv` -/

/-- The white space of `unicode.IsSpace`. -/
def isSpace (c : Char) : Bool :=
  c = '\t' || c = '\n' || c = '\x0b' || c = '\x0c' || c = '\r' || c = ' ' ||
  c.toNat = 0x85 || c.toNat = 0xA0 || c.toNat = 0x1680 ||
  (0x2000 ≤ c.toNat && c.toNat ≤ 0x200A) ||
  c.toNat = 0x2028 || c.toNat = 0x2029 || c.toNat = 0x202F ||
  c.toNat = 0x205F || c.toNat = 0x3000

/-- Pieces of a character list between the occurrences of `sep`
(`strings.Split` with a one-character separator): always at least one piece. -/
def splitChars (sep : Char) : List Char → List (List Char)
  | [] => [[]]
  | c :: cs =>
    if c = sep then [] :: splitChars sep cs
    else
      match splitChars sep cs with
      | [] => [[c]]
      | piece :: pieces => (c :: piece) :: pieces

/-- The call `strings.Split(s, sep)` for a separator of one character. -/
def stringsSplit (s : String) (sep : Char) : List String :=
  (splitChars sep s.data).map String.mk

/-- Cut at the first occurrence of `sep`: the text before it and the text
after it, or `none` when `sep` does not occur. -/
def cutChars (sep : Char) : List Char → Option (List Char × List Char)
  | [] => none
  | c :: cs =>
    if c = sep then some ([], cs)
    else
      match cutChars sep cs with
      | none => none
      | some (before, after) => some (c :: before, after)

/-- The call `strings.SplitN(s, sep, 2)` for a separator of one character:
one part when `sep` does not occur, two parts otherwise. -/
def stringsSplitN2 (s : String) (sep : Char) : List String :=
  match cutChars sep s.data with
  | none => [s]
  | some (before, after) => [String.mk before, String.mk after]

/-- Drop the white space at the end of a character list. -/
def trimRightChars (cs : List Char) : List Char :=
  (cs.reverse.dropWhile isSpace).reverse

/-- The call `strings.TrimSpace(s)`. -/
def stringsTrimSpace (s : String) : String :=
  String.mk (trimRightChars (s.data.dropWhile isSpace))

/-- Whether `sub` occurs in `cs` as a contiguous block. -/
def containsChars (sub : List Char) : List Char → Bool
  | [] => sub.isEmpty
  | c :: cs => sub.isPrefixOf (c :: cs) || containsChars sub cs

/-- The call `strings.Contains(s, substr)`. -/
def stringsContains (s substr : String) : Bool :=
  containsChars substr.data s.data

/-- The call `strings.TrimPrefix(s, pre)`. -/
def stringsTrimPrefix (s pre : String) : String :=
  if pre.data.isPrefixOf s.data then String.mk (s.data.drop pre.data.length) else s

/-- Value of a decimal digit. -/
def digitValue (c : Char) : Option Nat :=
  if '0' ≤ c ∧ c ≤ '9' then some (c.toNat - '0'.toNat) else none

/-- Read a run of decimal digits, most significant first, onto `acc`. -/
def readDigits : List Char → Nat → Option Nat
  | [], acc => some acc
  | c :: cs, acc =>
    match digitValue c with
    | none => none
    | some v => readDigits cs (acc * 10 + v)

/-- The call `strconv.Atoi(s)` on a 64-bit platform: an optional sign, then
one or more decimal digits, with a value in the range of `int`; `none` stands
for a returned error. -/
def strconvAtoi (s : String) : Option Int :=
  match s.data with
  | [] => none
  | c :: cs =>
    let neg := decide (c = '-')
    let digits := if c = '-' ∨ c = '+' then cs else c :: cs
    if digits.isEmpty then none
    else
      match readDigits digits 0 with
      | none => none
      | some n =>
        let v : Int := if neg then -(n : Int) else (n : Int)
        if -(2 : Int) ^ 63 ≤ v ∧ v < (2 : Int) ^ 63 then some v else none

/-- The conversion `int32(v)`: the low 32 bits, read as a signed number. -/
def toInt32 (v : Int) : Int :=
  (v + 2 ^ 31) % 2 ^ 32 - 2 ^ 31

/-! ## `float64` arithmetic -/

/-- A finite `float64`: the number `man * 2 ^ exp`. -/
structure F64 where
  man : Int
  exp : Int
deriving DecidableEq, Repr

/-- Nearest natural number to `p / q`, a tie going to the even neighbour. -/
def roundHalfEven (p q : Nat) : Nat :=
  let f := p / q
  let r := p % q
  if 2 * r < q then f
  else if q < 2 * r then f + 1
  else if f % 2 = 0 then f else f + 1

/-- Number of binary digits of `n`, with `fuel` steps. -/
def bitLenAux : Nat → Nat → Nat
  | 0, _ => 0
  | fuel + 1, n => if n = 0 then 0 else bitLenAux fuel (n / 2) + 1

/-- Number of binary digits of `n`. -/
def bitLen (n : Nat) : Nat := bitLenAux n n

/-- Binary exponent of the positive ratio `p / q`: the `e` with
`2 ^ e ≤ p / q < 2 ^ (e + 1)`. -/
def binExp (p q : Nat) : Int :=
  let e0 : Int := (bitLen p : Int) - (bitLen q : Int)
  if 0 ≤ e0 then (if q * 2 ^ e0.toNat ≤ p then e0 else e0 - 1)
  else (if q ≤ p * 2 ^ (-e0).toNat then e0 else e0 - 1)

/-- Numerator of `p / q * 2 ^ s`. -/
def scaleNum (p : Nat) (s : Int) : Nat := if 0 ≤ s then p * 2 ^ s.toNat else p

/-- Denominator of `p / q * 2 ^ s`. -/
def scaleDen (q : Nat) (s : Int) : Nat := if 0 ≤ s then q else q * 2 ^ (-s).toNat

/-- The `float64` nearest to the ratio `p / q` of natural numbers (`0 < q`):
53 significant bits, ties to even. -/
def roundPos (p q : Nat) : F64 :=
  if p = 0 then ⟨0, 0⟩
  else
    let e := binExp p q
    ⟨roundHalfEven (scaleNum p (52 - e)) (scaleDen q (52 - e)), e - 52⟩

/-- The `float64` nearest to the ratio `p / q` (`0 < q`); rounding is
symmetric in the sign. -/
def roundRatio (p : Int) (q : Nat) : F64 :=
  if p < 0 then ⟨-(roundPos p.natAbs q).man, (roundPos p.natAbs q).exp⟩
  else roundPos p.natAbs q

namespace F64

/-- Numerator of the value of `x` as a fraction. -/
def num (x : F64) : Int := if 0 ≤ x.exp then x.man * 2 ^ x.exp.toNat else x.man

/-- Denominator of the value of `x` as a fraction. -/
def den (x : F64) : Nat := if 0 ≤ x.exp then 1 else 2 ^ (-x.exp).toNat

/-- The conversion `float64(n)` of an integer. -/
def ofInt (n : Int) : F64 := roundRatio n 1

/-- Floating-point addition `a + b`. -/
def add (a b : F64) : F64 :=
  roundRatio (a.num * b.den + b.num * a.den) (a.den * b.den)

/-- Floating-point division `a / b` by a non-zero `b`. -/
def div (a b : F64) : F64 :=
  roundRatio (a.num * b.den * b.num.sign) (a.den * b.num.natAbs)

/-- The comparison `a < b`. -/
def lt (a b : F64) : Bool := decide (a.num * b.den < b.num * a.den)

/-- The verb `%.0f`: the nearest integer, ties to even, with a minus sign for
a negative value. -/
def format0 (x : F64) : String :=
  (if x.man < 0 then "-" else "") ++ toString (roundHalfEven x.num.natAbs x.den)

end F64

/-! ## Package `time` -/

/-- The constant `time.Minute`, in nanoseconds. -/
def Minute : Int := 60 * 1000000000

/-- The constant `time.Hour`, in nanoseconds. -/
def Hour : Int := 60 * Minute

/-- Largest `time.Duration`. -/
def maxDuration : Int := 2 ^ 63 - 1

/-- Smallest `time.Duration`. -/
def minDuration : Int := -(2 ^ 63)

/-- The call `time.Since(t)` at the instant `now` (both in nanoseconds): the
difference, held to the range of `time.Duration`. -/
def timeSince (now t : Int) : Int :=
  if maxDuration < now - t then maxDuration
  else if now - t < minDuration then minDuration
  else now - t

/-- The method `Duration.Minutes`:
`float64(d / Minute) + float64(d % Minute) / (60 * 1e9)`. -/
def durationMinutes (d : Int) : F64 :=
  F64.add (F64.ofInt (Int.tdiv d Minute))
    (F64.div (F64.ofInt (Int.tmod d Minute)) (F64.ofInt (60 * 1000000000)))

/-- The method `Duration.Hours`:
`float64(d / Hour) + float64(d % Hour) / (60 * 60 * 1e9)`. -/
def durationHours (d : Int) : F64 :=
  F64.add (F64.ofInt (Int.tdiv d Hour))
    (F64.div (F64.ofInt (Int.tmod d Hour)) (F64.ofInt (60 * 60 * 1000000000)))

/-- The body of `calculateAge` after `duration := time.Since(creationTime)`. -/
def renderAge (duration : Int) : String :=
  if F64.lt (durationHours duration) (F64.ofInt 1) then
    F64.format0 (durationMinutes duration) ++ "m"
  else if F64.lt (durationHours duration) (F64.ofInt 24) then
    F64.format0 (durationHours duration) ++ "h"
  else
    F64.format0 (F64.div (durationHours duration) (F64.ofInt 24)) ++ "d"

/-- The function `calculateAge(creationTime)`, run at the instant `now`. -/
def calculateAge (now creationTime : Int) : String :=
  renderAge (timeSince now creationTime)

/-! ## Errors and results -/

/-- A Go error value: a message, or a message wrapping another error with
the verb `%w`. -/
inductive GoError where
  | msg (text : String)
  | wrap (context : String) (inner : GoError)
deriving DecidableEq, Repr

/-- How a call ends: it returns a value, returns an error, or panics. -/
inductive Outcome (α : Type) where
  | ok (value : α)
  | error (err : GoError)
  | panic (reason : String)
deriving DecidableEq, Repr

/-! ## Objects of the cluster API -/

/-- The type `corev1.EnvVar`. -/
structure EnvVar where
  Name : String
  Value : String
deriving DecidableEq, Repr

/-- The type `corev1.ContainerPort`. -/
structure ContainerPort where
  ContainerPort : Int
deriving DecidableEq, Repr

/-- A parsed `resource.Quantity`, named by the text it was parsed from. -/
structure Quantity where
  text : String
deriving DecidableEq, Repr

/-- The type `corev1.ResourceList`: resource name to quantity. -/
abbrev ResourceList := List (String × Quantity)

/-- The type `corev1.ResourceRequirements`. -/
structure ResourceRequirements where
  Limits : ResourceList
  Requests : ResourceList
deriving DecidableEq, Repr

/-- The type `corev1.Container`. -/
structure Container where
  Name : String
  Image : String
  Command : List String
  Env : List EnvVar
  Ports : List ContainerPort
  Resources : ResourceRequirements
deriving DecidableEq, Repr

/-- The type `corev1.ContainerStateWaiting`. -/
structure ContainerStateWaiting where
  Reason : String
deriving DecidableEq, Repr

/-- The type `corev1.ContainerStateRunning`. -/
structure ContainerStateRunning where
  StartedAt : Int
deriving DecidableEq, Repr

/-- The type `corev1.ContainerStateTerminated`. -/
structure ContainerStateTerminated where
  ExitCode : Int
deriving DecidableEq, Repr

/-- The type `corev1.ContainerState`: three optional sub-states. -/
structure ContainerState where
  Waiting : Option ContainerStateWaiting
  Running : Option ContainerStateRunning
  Terminated : Option ContainerStateTerminated
deriving DecidableEq, Repr

/-- The type `corev1.ContainerStatus`. -/
structure ContainerStatus where
  Name : String
  State : ContainerState
  Ready : Bool
  RestartCount : Int
  ContainerID : String
deriving DecidableEq, Repr

/-- The type `metav1.ObjectMeta`; the creation timestamp is in nanoseconds. -/
structure ObjectMeta where
  Name : String
  Namespace : String
  Labels : List (String × String)
  CreationTimestamp : Int
deriving DecidableEq, Repr

/-- The type `corev1.PodSpec`. -/
structure PodSpec where
  Containers : List Container
  RestartPolicy : String
  NodeName : String
deriving DecidableEq, Repr

/-- The type `corev1.PodStatus`; the start time is in nanoseconds. -/
structure PodStatus where
  Phase : String
  ContainerStatuses : List ContainerStatus
  PodIP : String
  StartTime : Option Int
deriving DecidableEq, Repr

/-- The type `corev1.Pod`. -/
structure Pod where
  ObjectMeta : ObjectMeta
  Spec : PodSpec
  Status : PodStatus
deriving DecidableEq, Repr

/-- The type `metav1.DeleteOptions`. -/
structure DeleteOptions where
  PropagationPolicy : Option String
deriving DecidableEq, Repr

/-- A request sent to the cluster. -/
inductive ApiCall where
  | listPods (ns : String)
  | createPod (ns : String) (pod : Pod)
  | deletePod (ns : String) (name : String) (options : DeleteOptions)
deriving DecidableEq, Repr

/-- The type `rest.Config`, with the fields the service sets. -/
structure RestConfig where
  Host : String
  BearerToken : String
  Insecure : Bool
  ImpersonateUserName : String
deriving DecidableEq, Repr

/-- The type `kubernetes.Clientset`: how the cluster answers each request. -/
structure Clientset where
  listPods : String → Except GoError (List Pod)
  createPod : String → Pod → Except GoError Unit
  deletePod : String → String → DeleteOptions → Except GoError Unit
  serverVersion : Except GoError String

/-! ## The service -/

/-- The type `K8sService`; `none` is a nil pointer. -/
structure K8sService where
  clientSet : Option Clientset
  config : Option RestConfig

/-- The type `ContainerInfo`. -/
structure ContainerInfo where
  Name : String
  Namespace : String
  Image : String
  Status : String
  PodName : String
  RestartCount : Int
  Age : String
  Node : String
  Labels : List (String × String)
  ContainerID : String
deriving DecidableEq, Repr

/-- The type `CreateContainerRequest`. -/
structure CreateContainerRequest where
  Name : String
  Namespace : String
  Image : String
  Command : String
  Ports : String
  Env : String
  Resources : String
deriving DecidableEq, Repr

/-- The constructor `NewK8sService`. -/
def NewK8sService : K8sService := ⟨none, none⟩

/-- The local variables `status`, `restartCount`, `containerID` of the loop
of `ListContainers`. -/
structure StatusVars where
  status : String
  restartCount : Int
  containerID : String
deriving DecidableEq, Repr

/-- The chain of tests on the sub-states of a matching status record; `status`
keeps its value when no sub-state is set. -/
def statusOfState (state : ContainerState) (status : String) : String :=
  if state.Running.isSome then "Running"
  else if state.Waiting.isSome then "Pending"
  else
    match state.Terminated with
    | some terminated => if terminated.ExitCode = 0 then "Succeeded" else "Failed"
    | none => status

/-- The inner loop of `ListContainers` over `pod.Status.ContainerStatuses`,
which stops at the first record whose name is the container name. -/
def scanStatuses (name : String) : List ContainerStatus → StatusVars → StatusVars
  | [], vars => vars
  | containerStatus :: rest, vars =>
    if containerStatus.Name = name then
      ⟨statusOfState containerStatus.State vars.status,
        containerStatus.RestartCount, containerStatus.ContainerID⟩
    else scanStatuses name rest vars

/-- One turn of the loop over `pod.Spec.Containers`: the record appended. -/
def containerInfoOf (now : Int) (pod : Pod) (container : Container) : ContainerInfo :=
  let vars := scanStatuses container.Name pod.Status.ContainerStatuses ⟨"Unknown", 0, ""⟩
  let age := calculateAge now pod.ObjectMeta.CreationTimestamp
  { Name := container.Name
    Namespace := pod.ObjectMeta.Namespace
    Image := container.Image
    Status := vars.status
    PodName := pod.ObjectMeta.Name
    RestartCount := vars.restartCount
    Age := age
    Node := pod.Spec.NodeName
    Labels := pod.ObjectMeta.Labels
    ContainerID := vars.containerID }

/-- The loop over `pod.Spec.Containers`, appending to `containers`. -/
def appendContainers (now : Int) (pod : Pod) :
    List Container → List ContainerInfo → List ContainerInfo
  | [], containers => containers
  | container :: rest, containers =>
    appendContainers now pod rest (containers ++ [containerInfoOf now pod container])

/-- The loop over `pods.Items`. -/
def appendPods (now : Int) : List Pod → List ContainerInfo → List ContainerInfo
  | [], containers => containers
  | pod :: rest, containers =>
    appendPods now rest (appendContainers now pod pod.Spec.Containers containers)

/-- The method `ListContainers(namespace)`, run at the instant `now`. -/
def ListContainers (s : K8sService) (now : Int) (ns : String) :
    Outcome (List ContainerInfo) × List ApiCall :=
  match s.clientSet with
  | none => (Outcome.error (GoError.msg "kubernetes client not initialized"), [])
  | some clientSet =>
    match clientSet.listPods ns with
    | Except.error err =>
      (Outcome.error (GoError.wrap "failed to list pods: " err), [ApiCall.listPods ns])
    | Except.ok pods =>
      (Outcome.ok (appendPods now pods []), [ApiCall.listPods ns])

/-! ## Parsing of a creation request -/

/-- A Go `map[string]string`: its entries, one per key. The order of the
list is the order in which the keys were first set; Go leaves the order of a
`range` over a map open. -/
abbrev GoMap := List (String × String)

/-- The assignment `m[k] = v`. -/
def GoMap.set : GoMap → String → String → GoMap
  | [], k, v => [(k, v)]
  | (k', v') :: rest, k, v =>
    if k' = k then (k, v) :: rest else (k', v') :: GoMap.set rest k v

/-- The lookup `m[k]`, `none` for an absent key. -/
def GoMap.get? : GoMap → String → Option String
  | [], _ => none
  | (k', v') :: rest, k => if k' = k then some v' else GoMap.get? rest k

/-- One `range` over a Go map: the entries in the order in which the runtime
yields them in this loop, each entry once. The order is not fixed by the
language and may differ from one loop to the next. -/
structure MapRange where
  order : GoMap → GoMap
  perm : ∀ m : GoMap, (order m).Perm m

/-- The loop of `parseEnvVars` over the lines. -/
def parseEnvLines : List String → GoMap → GoMap
  | [], envMap => envMap
  | line :: rest, envMap =>
    match stringsSplitN2 line '=' with
    | [key, value] =>
      parseEnvLines rest (envMap.set (stringsTrimSpace key) (stringsTrimSpace value))
    | _ => parseEnvLines rest envMap

/-- The function `parseEnvVars(envStr)`. -/
def parseEnvVars (envStr : String) : GoMap :=
  parseEnvLines (stringsSplit envStr '\n') []

/-- The loop of `parsePortMappings` over the parts. -/
def parsePortParts : List String → List Int → List Int
  | [], ports => ports
  | part :: rest, ports =>
    let portStr := stringsTrimSpace part
    if portStr ≠ "" then
      match strconvAtoi portStr with
      | some port => parsePortParts rest (ports ++ [toInt32 port])
      | none => parsePortParts rest ports
    else parsePortParts rest ports

/-- The function `parsePortMappings(portsStr)`. -/
def parsePortMappings (portsStr : String) : List Int :=
  parsePortParts (stringsSplit portsStr ',') []

/-- The call `resource.MustParse(str)`: the quantity, or a panic when the
text is not a quantity. Which texts are quantities is decided by the
library; `validQuantity` stands for that test. -/
def MustParse (validQuantity : String → Bool) (str : String) : Outcome Quantity :=
  if validQuantity str then Outcome.ok ⟨str⟩
  else Outcome.panic ("resource.MustParse: cannot parse " ++ str)

/-- The assignment `list[name] = quantity` on a `ResourceList`. -/
def ResourceList.set : ResourceList → String → Quantity → ResourceList
  | [], k, v => [(k, v)]
  | (k', v') :: rest, k, v =>
    if k' = k then (k, v) :: rest else (k', v') :: ResourceList.set rest k v

/-- The loop of `parseResources` over the parts. -/
def parseResourceParts (validQuantity : String → Bool) :
    List String → ResourceRequirements → Outcome ResourceRequirements
  | [], requirements => Outcome.ok requirements
  | part :: rest, requirements =>
    let part := stringsTrimSpace part
    if stringsContains part "cpu:" then
      let cpuValue := stringsTrimSpace (stringsTrimPrefix part "cpu:")
      match MustParse validQuantity cpuValue with
      | Outcome.ok quantity =>
        parseResourceParts validQuantity rest
          { requirements with Requests := ResourceList.set requirements.Requests "cpu" quantity }
      | Outcome.error err => Outcome.error err
      | Outcome.panic reason => Outcome.panic reason
    else if stringsContains part "memory:" then
      let memValue := stringsTrimSpace (stringsTrimPrefix part "memory:")
      match MustParse validQuantity memValue with
      | Outcome.ok quantity =>
        parseResourceParts validQuantity rest
          { requirements with Requests := ResourceList.set requirements.Requests "memory" quantity }
      | Outcome.error err => Outcome.error err
      | Outcome.panic reason => Outcome.panic reason
    else parseResourceParts validQuantity rest requirements

/-- The function `parseResources(resourcesStr)`. -/
def parseResources (validQuantity : String → Bool) (resourcesStr : String) :
    Outcome ResourceRequirements :=
  parseResourceParts validQuantity (stringsSplit resourcesStr ',') ⟨[], []⟩

/-- The pod that `CreateContainer` builds from a request and its parsed
parts. -/
def podOfRequest (req : CreateContainerRequest) (envVars : List EnvVar)
    (ports : List ContainerPort) (resources : ResourceRequirements) : Pod :=
  { ObjectMeta :=
      { Name := req.Name ++ "-pod"
        Namespace := req.Namespace
        Labels := [("app", req.Name), ("managed", "container-platform")]
        CreationTimestamp := 0 }
    Spec :=
      { Containers :=
          [{ Name := req.Name
             Image := req.Image
             Command := []
             Env := envVars
             Ports := ports
             Resources := resources }]
        RestartPolicy := "Always"
        NodeName := "" }
    Status := { Phase := "", ContainerStatuses := [], PodIP := "", StartTime := none } }

/-- The method `CreateContainer(req)`; `range` is the loop
`for k, v := range envMap` of this call. -/
def CreateContainer (validQuantity : String → Bool) (range : MapRange) (s : K8sService)
    (req : CreateContainerRequest) : Outcome Unit × List ApiCall :=
  match s.clientSet with
  | none => (Outcome.error (GoError.msg "kubernetes client not initialized"), [])
  | some clientSet =>
    let envVars : List EnvVar :=
      if req.Env ≠ "" then (range.order (parseEnvVars req.Env)).map (fun kv => ⟨kv.1, kv.2⟩)
      else []
    let ports : List ContainerPort :=
      if req.Ports ≠ "" then (parsePortMappings req.Ports).map (fun port => ⟨port⟩) else []
    let resources : Outcome ResourceRequirements :=
      if req.Resources ≠ "" then parseResources validQuantity req.Resources
      else Outcome.ok ⟨[], []⟩
    match resources with
    | Outcome.panic reason => (Outcome.panic reason, [])
    | Outcome.error err => (Outcome.error err, [])
    | Outcome.ok resources =>
      let pod := podOfRequest req envVars ports resources
      match clientSet.createPod req.Namespace pod with
      | Except.error err =>
        (Outcome.error (GoError.wrap "failed to create pod: " err),
          [ApiCall.createPod req.Namespace pod])
      | Except.ok _ => (Outcome.ok (), [ApiCall.createPod req.Namespace pod])

/-- The method `StopContainer(namespace, podName)`. -/
def StopContainer (s : K8sService) (ns podName : String) :
    Outcome Unit × List ApiCall :=
  match s.clientSet with
  | none => (Outcome.error (GoError.msg "kubernetes client not initialized"), [])
  | some clientSet =>
    let options : DeleteOptions := ⟨some "Foreground"⟩
    match clientSet.deletePod ns podName options with
    | Except.error err =>
      (Outcome.error (GoError.wrap "failed to delete pod: " err),
        [ApiCall.deletePod ns podName options])
    | Except.ok _ => (Outcome.ok (), [ApiCall.deletePod ns podName options])

/-- The method `RestartContainer(namespace, podName)`. -/
def RestartContainer (s : K8sService) (ns podName : String) :
    Outcome Unit × List ApiCall :=
  match s.clientSet with
  | none => (Outcome.error (GoError.msg "kubernetes client not initialized"), [])
  | some clientSet =>
    let options : DeleteOptions := ⟨none⟩
    match clientSet.deletePod ns podName options with
    | Except.error err =>
      (Outcome.error (GoError.wrap "failed to delete pod for restart: " err),
        [ApiCall.deletePod ns podName options])
    | Except.ok _ => (Outcome.ok (), [ApiCall.deletePod ns podName options])

/-- The method `StartContainer(namespace, podName)`. -/
def StartContainer (s : K8sService) (ns podName : String) :
    Outcome Unit × List ApiCall :=
  RestartContainer s ns podName

/-- The method `DeleteContainer(namespace, podName)`. -/
def DeleteContainer (s : K8sService) (ns podName : String) :
    Outcome Unit × List ApiCall :=
  StopContainer s ns podName


/-! ## Notions used in the statements about `ListContainers` and the parsers -/

/-- The records of one pod list: for each pod in turn, one record for each
declared container in turn. -/
def recordsOf (now : Int) (pods : List Pod) : List ContainerInfo :=
  (pods.map (fun pod => pod.Spec.Containers.map (containerInfoOf now pod))).flatten

/-- The first status record of the pod with the name of the container. -/
def matchingStatus (pod : Pod) (container : Container) : Option ContainerStatus :=
  pod.Status.ContainerStatuses.find? (fun cs => decide (cs.Name = container.Name))

/-- Whether a line of an environment text contains the sign `=`. -/
def lineHasEq (line : String) : Bool := line.data.contains '='

/-- Key of a line: the text before its first `=`, white space trimmed. -/
def envKeyOfLine (line : String) : String :=
  stringsTrimSpace (String.mk (line.data.takeWhile (fun c => !decide (c = '='))))

/-- Value of a line: the text after its first `=`, white space trimmed. -/
def envValueOfLine (line : String) : String :=
  stringsTrimSpace (String.mk ((line.data.dropWhile (fun c => !decide (c = '='))).drop 1))

/-- The lines of an environment text that contain `=`. -/
def envValidLines (envStr : String) : List String :=
  (stringsSplit envStr '\n').filter lineHasEq

/-- The port of one token of a port list, if the trimmed token is an
integer. -/
def portOfToken (token : String) : Option Int :=
  (strconvAtoi (stringsTrimSpace token)).map toInt32

/-! ## Sample objects -/

/-- A container `web` running `nginx`. -/
def sampleContainer : Container := ⟨"web", "nginx", [], [], [], ⟨[], []⟩⟩

/-- A status record for `web` with a running and a terminated sub-state. -/
def sampleStatus : ContainerStatus :=
  ⟨"web", ⟨none, some ⟨0⟩, some ⟨1⟩⟩, true, 2, "containerd://abc"⟩

/-- A pod `p` declaring `web`, with the status record of `web`. -/
def samplePod : Pod :=
  ⟨⟨"p", "default", [("app", "web")], 0⟩, ⟨[sampleContainer], "Always", "node-1"⟩,
    ⟨"Running", [sampleStatus], "10.1.0.7", some 0⟩⟩

/-- A pod `q` declaring `web`, with no status record yet. -/
def samplePendingPod : Pod :=
  ⟨⟨"q", "default", [], 0⟩, ⟨[sampleContainer], "Always", ""⟩, ⟨"Pending", [], "", none⟩⟩

/-- A cluster that lists the given pods and accepts every request. -/
def sampleClientset (pods : List Pod) : Clientset :=
  ⟨fun _ => Except.ok pods, fun _ _ => Except.ok (), fun _ _ _ => Except.ok (),
    Except.ok "v1.29.0"⟩

/-- A service connected to `sampleClientset pods`. -/
def sampleService (pods : List Pod) : K8sService := ⟨some (sampleClientset pods), none⟩

/-! ## Meaning of the `float64` model in the rational numbers -/

/-- The rational number that a `float64` stands for. -/
def F64.toRat (x : F64) : ℚ := (x.man : ℚ) * (2 : ℚ) ^ x.exp

/-- Nearest integer to a rational number, a tie going to the even
neighbour. -/
def nearestEven (x : ℚ) : ℤ :=
  if Int.fract x < 1 / 2 then ⌊x⌋
  else if 1 / 2 < Int.fract x then ⌊x⌋ + 1
  else if ⌊x⌋ % 2 = 0 then ⌊x⌋ else ⌊x⌋ + 1

/-- Rounding of a non-negative rational number to 53 significant bits, ties
to even. -/
def round53 (x : ℚ) : ℚ :=
  if x = 0 then 0
  else (nearestEven (x * (2 : ℚ) ^ (52 - Int.log 2 x)) : ℚ) * (2 : ℚ) ^ (Int.log 2 x - 52)

/-- Value of `Duration.Hours` on a duration of `D` nanoseconds: the float sum
of the whole hours and the rounded fraction of an hour. -/
def hoursValue (D : Nat) : ℚ :=
  round53 (((D / 3600000000000 : Nat) : ℚ) +
    round53 (((D % 3600000000000 : Nat) : ℚ) / ((3600000000000 : Nat) : ℚ)))

/-- Value of `Duration.Minutes` on a duration of `D` nanoseconds. -/
def minutesValue (D : Nat) : ℚ :=
  round53 (((D / 60000000000 : Nat) : ℚ) +
    round53 (((D % 60000000000 : Nat) : ℚ) / ((60000000000 : Nat) : ℚ)))

/-- Value of the quotient `duration.Hours() / 24`. -/
def daysValue (D : Nat) : ℚ := round53 (hoursValue D / 24)

/-! ## Order of rendered ages -/

/-- Rank of the unit of a rendered age: minutes before hours before days. -/
def ageUnitRank (age : String) : Nat :=
  match age.data.getLast? with
  | some 'm' => 0
  | some 'h' => 1
  | some 'd' => 2
  | _ => 3

/-- Numeric part of a rendered age: the decimal number before the unit. -/
def ageNumber (age : String) : Nat :=
  (readDigits age.data.dropLast 0).getD 0

/-- Order of rendered ages: first by unit, then by numeric part. -/
def ageLe (a b : String) : Bool :=
  decide (ageUnitRank a < ageUnitRank b ∨
    (ageUnitRank a = ageUnitRank b ∧ ageNumber a ≤ ageNumber b))

/-! ## `ConnectToCluster` -/

/-- The type `model.K8sConnection`, with the fields that `ConnectToCluster`
reads; `ID` is the field of the embedded `BaseModel`. -/
structure K8sConnection where
  ID : Nat
  Name : String
  Endpoint : String
  ConfigType : String
  Config : String
  Token : String
  Namespace : String
deriving DecidableEq, Repr

/-- A deserialized `api.Config`, named by the document it was read from. -/
structure KubeConfig where
  document : String
deriving DecidableEq, Repr

/-- The answers of the libraries that `ConnectToCluster` calls:
`json.Unmarshal` into an `api.Config`, `clientcmd.WriteToFile`,
`clientcmd.BuildConfigFromFlags` on the file at a path (which holds the given
configuration), and `kubernetes.NewForConfig`. -/
structure ConnectEnv where
  unmarshalConfig : String → Except GoError KubeConfig
  writeToFile : KubeConfig → String → Except GoError Unit
  buildConfigFromFlags : String → KubeConfig → Except GoError RestConfig
  newForConfig : RestConfig → Except GoError Clientset

/-- What `ConnectToCluster` does to the outside: it writes a file, reads a
file, or asks the cluster for its version. -/
inductive ConnectEffect where
  | writeFile (path : String) (config : KubeConfig)
  | readFile (path : String)
  | serverVersion (config : RestConfig)
deriving DecidableEq, Repr

/-- The outcome of `ConnectToCluster`: the returned error (or none), the
fields of the service after the call, and the effects in order. -/
structure ConnectResult where
  result : Outcome Unit
  service : K8sService
  effects : List ConnectEffect

/-- The first part of `ConnectToCluster`: the `rest.Config` built from the
connection, by way of a temporary file for the kind `kubeconfig`, directly
from endpoint and token otherwise. -/
def buildRestConfig (env : ConnectEnv) (connection : K8sConnection) :
    Except GoError RestConfig × List ConnectEffect :=
  if connection.ConfigType = "kubeconfig" then
    match env.unmarshalConfig connection.Config with
    | Except.error err => (Except.error (GoError.wrap "failed to parse kubeconfig: " err), [])
    | Except.ok clusterConfig =>
      let tmpFile := "/tmp/kubeconfig-" ++ toString connection.ID
      match env.writeToFile clusterConfig tmpFile with
      | Except.error err =>
        (Except.error (GoError.wrap "failed to write kubeconfig file: " err),
          [ConnectEffect.writeFile tmpFile clusterConfig])
      | Except.ok _ =>
        match env.buildConfigFromFlags tmpFile clusterConfig with
        | Except.error err =>
          (Except.error (GoError.wrap "failed to build config from kubeconfig: " err),
            [ConnectEffect.writeFile tmpFile clusterConfig, ConnectEffect.readFile tmpFile])
        | Except.ok config =>
          (Except.ok config,
            [ConnectEffect.writeFile tmpFile clusterConfig, ConnectEffect.readFile tmpFile])
  else
    (Except.ok
      { Host := connection.Endpoint
        BearerToken := connection.Token
        Insecure := true
        ImpersonateUserName := "" }, [])

/-- The step "set the default namespace" of `ConnectToCluster`. -/
def withImpersonation (connection : K8sConnection) (config : RestConfig) : RestConfig :=
  if connection.Namespace ≠ "" then
    { config with
      ImpersonateUserName := "system:serviceaccount:" ++ connection.Namespace ++ ":default" }
  else config

/-- The method `ConnectToCluster(connection)`. -/
def ConnectToCluster (env : ConnectEnv) (s : K8sService) (connection : K8sConnection) :
    ConnectResult :=
  match buildRestConfig env connection with
  | (Except.error err, effects) => ⟨Outcome.error err, s, effects⟩
  | (Except.ok built, effects) =>
    let config := withImpersonation connection built
    match env.newForConfig config with
    | Except.error err =>
      ⟨Outcome.error (GoError.wrap "failed to create kubernetes client: " err), s, effects⟩
    | Except.ok clientSet =>
      -- `s.clientSet = clientSet; s.config = config`, then the probe
      match clientSet.serverVersion with
      | Except.error err =>
        ⟨Outcome.error (GoError.wrap "failed to connect to cluster: " err),
          ⟨some clientSet, some config⟩, effects ++ [ConnectEffect.serverVersion config]⟩
      | Except.ok _ =>
        ⟨Outcome.ok (), ⟨some clientSet, some config⟩,
          effects ++ [ConnectEffect.serverVersion config]⟩

/-- The method `TestConnection(connection)`. -/
def TestConnection (env : ConnectEnv) (s : K8sService) (connection : K8sConnection) :
    ConnectResult :=
  ConnectToCluster env s connection

/-! ## `WaitForPodReady` (`backend/internal/k8s/client.go`) -/

/-- One answer of the cluster to a `Get` on a pod: the time the request
takes, in nanoseconds, and what it returns. -/
structure PodFetch where
  latency : Nat
  answer : Except GoError Pod

/-- The type `k8s.Client`; `getPod i ns name` is the answer of the cluster to
the `i`-th `Get`, counted from 0; `ns` is the field `namespace`. -/
structure Client where
  getPod : Nat → String → String → PodFetch
  ns : String

/-- The loop of `WaitForPodReady` over `pod.Status.ContainerStatuses`, which
sets `allReady` to false at the first record that is not ready. -/
def allStatusesReady : List ContainerStatus → Bool
  | [] => true
  | containerStatus :: rest =>
    if !containerStatus.Ready then false else allStatusesReady rest

/-- How the races at the deadline of the context end in one call. The timer
of `context.WithTimeout` closes `ctx.Done()` at the deadline; what happens at
that very instant is open: a `select` reached exactly at the deadline takes
the case `ctx.Done()` or the case `default`, and a request that would end
exactly at the deadline is cancelled or answered. -/
structure DeadlineRace where
  selectDone : Bool
  requestCut : Bool
deriving DecidableEq, Repr

/-- Whether a `select` at the time `t` finds the context of
`context.WithTimeout(ctx, timeout)` done: after the deadline always, before
it never, at the deadline as the race goes; a context whose timeout is not
positive is done from its creation. -/
def contextDone (race : DeadlineRace) (timeout : Int) (t : Nat) : Bool :=
  decide (timeout < (t : Int)) ||
    (decide (timeout = (t : Int)) && (decide (timeout ≤ 0) || race.selectDone))

/-- The method `GetPod(ctx, name)` as the `i`-th request, started at the time
`t` under a context with the deadline `deadline`: the answer and the time at
which it arrives. A request still open when the context is done is
cancelled. -/
def Client.GetPod (c : Client) (race : DeadlineRace) (i : Nat) (t : Nat) (deadline : Int)
    (name : String) : Except GoError Pod × Nat :=
  let fetch := c.getPod i c.ns name
  if decide (((t + fetch.latency : Nat) : Int) < deadline) ||
      (decide (((t + fetch.latency : Nat) : Int) = deadline) && !race.requestCut) then
    match fetch.answer with
    | Except.error err =>
      (Except.error (GoError.wrap ("获取Pod " ++ name ++ " 失败: ") err), t + fetch.latency)
    | Except.ok pod => (Except.ok pod, t + fetch.latency)
  else
    (Except.error (GoError.wrap ("获取Pod " ++ name ++ " 失败: ")
      (GoError.msg "context deadline exceeded")), deadline.toNat)

/-- What one turn of the loop of `WaitForPodReady` does with the answer of
`GetPod`: it returns (`some`), or it sleeps and goes on (`none`). -/
def pollOutcome (fetched : Except GoError Pod) : Option (Outcome Unit) :=
  match fetched with
  | Except.error err => some (Outcome.error (GoError.wrap "获取Pod状态失败: " err))
  | Except.ok pod =>
    if pod.Status.Phase = "Running" then
      if allStatusesReady pod.Status.ContainerStatuses then some (Outcome.ok ())
      else none
    else none

/-- How `WaitForPodReady` ends: its result, the time of the return counted
from the call in nanoseconds, and the number of `GetPod` requests made. -/
structure WaitResult where
  result : Outcome Unit
  returnedAt : Nat
  requests : Nat
deriving DecidableEq, Repr

/-- The loop of `WaitForPodReady`, with `fuel` turns; `i` requests were made
so far and the time is `t`. The `select` takes the case `ctx.Done()` when the
context is done and the case `default` otherwise; `time.Sleep` lasts two
seconds whatever the context. -/
def waitLoop (c : Client) (race : DeadlineRace) (podName : String) (timeout : Int) :
    Nat → Nat → Nat → Option WaitResult
  | 0, _, _ => none
  | fuel + 1, i, t =>
    if contextDone race timeout t then
      some ⟨Outcome.error (GoError.msg ("等待Pod " ++ podName ++ " 就绪超时")), t, i⟩
    else
      match pollOutcome (c.GetPod race i t timeout podName).1 with
      | some result => some ⟨result, (c.GetPod race i t timeout podName).2, i + 1⟩
      | none => waitLoop c race podName timeout fuel (i + 1)
          ((c.GetPod race i t timeout podName).2 + 2000000000)

/-- The method `WaitForPodReady(ctx, podName, timeout)` under a context `ctx`
with no deadline of its own; `none` would mean that the loop has not returned
after `timeout / 2s + 2` turns. -/
def WaitForPodReady (c : Client) (race : DeadlineRace) (podName : String) (timeout : Int) :
    Option WaitResult :=
  waitLoop c race podName timeout ((timeout / 2000000000).toNat + 2) 0 0

/-! ## Notions used in the statements about the lifecycle operations -/

/-- The lookup `list[name]` on a `ResourceList`, `none` for an absent name. -/
def ResourceList.get? : ResourceList → String → Option Quantity
  | [], _ => none
  | (k', v') :: rest, k => if k' = k then some v' else ResourceList.get? rest k

/-- The trimmed tokens of a resources text. -/
def resourceTokens (resourcesStr : String) : List String :=
  (stringsSplit resourcesStr ',').map stringsTrimSpace

/-- A token that `parseResources` handles as a CPU request. -/
def isCpuToken (token : String) : Bool := stringsContains token "cpu:"

/-- A token that `parseResources` handles as a memory request. -/
def isMemoryToken (token : String) : Bool :=
  !stringsContains token "cpu:" && stringsContains token "memory:"

/-- The quantity that a CPU token asks for. -/
def cpuQuantityOf (token : String) : Quantity :=
  ⟨stringsTrimSpace (stringsTrimPrefix token "cpu:")⟩

/-- The quantity that a memory token asks for. -/
def memoryQuantityOf (token : String) : Quantity :=
  ⟨stringsTrimSpace (stringsTrimPrefix token "memory:")⟩

/-- Whether the text begins with the literal `pre`. -/
def beginsWith (s pre : String) : Bool := pre.data.isPrefixOf s.data

/-- The environment variables that `CreateContainer` derives from a request. -/
def requestEnvVars (range : MapRange) (req : CreateContainerRequest) : List EnvVar :=
  if req.Env ≠ "" then (range.order (parseEnvVars req.Env)).map (fun kv => ⟨kv.1, kv.2⟩)
  else []

/-- The ports that `CreateContainer` derives from a request. -/
def requestPorts (req : CreateContainerRequest) : List ContainerPort :=
  if req.Ports ≠ "" then (parsePortMappings req.Ports).map (fun port => ⟨port⟩) else []

/-- The resources that `CreateContainer` derives from a request. -/
def requestResources (validQuantity : String → Bool) (req : CreateContainerRequest) :
    Outcome ResourceRequirements :=
  if req.Resources ≠ "" then parseResources validQuantity req.Resources
  else Outcome.ok ⟨[], []⟩

/-- Whether every container declared in the spec of the pod has a status
record that reports it ready. -/
def declaredContainersReady (pod : Pod) : Bool :=
  pod.Spec.Containers.all (fun container =>
    pod.Status.ContainerStatuses.any (fun cs => cs.Name = container.Name && cs.Ready))

/-! ## More sample objects -/

/-- A sample of the quantity test of the library: decimal digits, then one
of the suffixes `m`, `k`, `M`, `G`, `Ki`, `Mi`, `Gi` or none. -/
def sampleValidQuantity (str : String) : Bool :=
  let digits := str.data.takeWhile Char.isDigit
  let suffix := String.mk (str.data.dropWhile Char.isDigit)
  !digits.isEmpty && ["", "m", "k", "M", "G", "Ki", "Mi", "Gi"].contains suffix

/-- A cluster that cannot be reached: every request fails. -/
def unreachableClientset : Clientset :=
  ⟨fun _ => Except.error (GoError.msg "connection refused"),
    fun _ _ => Except.error (GoError.msg "connection refused"),
    fun _ _ _ => Except.error (GoError.msg "connection refused"),
    Except.error (GoError.msg "connection refused")⟩

/-- The kubeconfig document, in JSON, of the cluster `alpha`: one cluster,
one context and one user with a token. -/
def sampleAlphaDocument : String :=
  "\x7b\"clusters\":\x7b\"alpha\":\x7b\"server\":\"https://alpha.example:6443\"\x7d\x7d,\"contexts\":\x7b\"alpha\":\x7b\"cluster\":\"alpha\",\"user\":\"alpha\"\x7d\x7d,\"current-context\":\"alpha\",\"users\":\x7b\"alpha\":\x7b\"token\":\"alpha-token\"\x7d\x7d\x7d"

/-- The kubeconfig document, in JSON, of the cluster `beta`. -/
def sampleBetaDocument : String :=
  "\x7b\"clusters\":\x7b\"beta\":\x7b\"server\":\"https://beta.example:6443\"\x7d\x7d,\"contexts\":\x7b\"beta\":\x7b\"cluster\":\"beta\",\"user\":\"beta\"\x7d\x7d,\"current-context\":\"beta\",\"users\":\x7b\"beta\":\x7b\"token\":\"beta-token\"\x7d\x7d\x7d"

/-- The kubeconfig document, in JSON, of the cluster `gamma`, whose user acts
as `system:admin` (the key `act-as` of a user). -/
def sampleGammaDocument : String :=
  "\x7b\"clusters\":\x7b\"gamma\":\x7b\"server\":\"https://gamma.example:6443\"\x7d\x7d,\"contexts\":\x7b\"gamma\":\x7b\"cluster\":\"gamma\",\"user\":\"gamma\"\x7d\x7d,\"current-context\":\"gamma\",\"users\":\x7b\"gamma\":\x7b\"token\":\"gamma-token\",\"act-as\":\"system:admin\"\x7d\x7d\x7d"

/-- The documents that the sample libraries read, each with the client
configuration that `BuildConfigFromFlags` makes of it: the server as host,
the token of the user, TLS verification on, and the user it acts as. -/
def sampleDocuments : List (String × RestConfig) :=
  [(sampleAlphaDocument, ⟨"https://alpha.example:6443", "alpha-token", false, ""⟩),
    (sampleBetaDocument, ⟨"https://beta.example:6443", "beta-token", false, ""⟩),
    (sampleGammaDocument, ⟨"https://gamma.example:6443", "gamma-token", false, "system:admin"⟩)]

/-- Libraries in front of a cluster that cannot be reached, as far as the
samples need them: the empty document is not JSON, the three sample documents
are read as the configurations they describe and every other document is
refused; files can be written and read, and a client is built for every
configuration. -/
def unreachableEnv : ConnectEnv :=
  { unmarshalConfig := fun document =>
      if document = "" then Except.error (GoError.msg "unexpected end of JSON input")
      else if (sampleDocuments.lookup document).isSome then Except.ok ⟨document⟩
      else Except.error (GoError.msg "invalid character")
    writeToFile := fun _ _ => Except.ok ()
    buildConfigFromFlags := fun _ config =>
      match sampleDocuments.lookup config.document with
      | some built => Except.ok built
      | none => Except.error (GoError.msg "invalid configuration")
    newForConfig := fun _ => Except.ok unreachableClientset }

/-- A connection by bearer token. -/
def sampleTokenConnection : K8sConnection :=
  ⟨7, "staging", "https://10.0.0.1:6443", "token", "", "secret", "team-a"⟩

/-- A connection of the kind `kubeconfig` with an empty document. -/
def sampleBrokenConnection : K8sConnection :=
  ⟨8, "broken", "https://10.0.0.1:6443", "kubeconfig", "", "", "team-a"⟩

/-- A request for the container `web`. -/
def sampleRequest : CreateContainerRequest :=
  ⟨"web", "default", "nginx", "", "80", "A=1", "cpu:1,memory:2Gi"⟩

/-- A running pod that declares `web` and has no status record. -/
def sampleBarePod : Pod :=
  ⟨⟨"p", "default", [], 0⟩, ⟨[sampleContainer], "Always", "node-1"⟩, ⟨"Running", [], "10.1.0.8", some 0⟩⟩

/-- A cluster that answers every `Get` at once with the given pod. -/
def sampleClient (pod : Pod) : Client :=
  ⟨fun _ _ _ => ⟨0, Except.ok pod⟩, "default"⟩

/-! ## Error texts -/

/-- The method `Error()` of an error value; `fmt.Errorf` with the verb `%w`
at the end of its format puts the text of the wrapped error after the
context. -/
def GoError.Error : GoError → String
  | GoError.msg text => text
  | GoError.wrap context inner => context ++ GoError.Error inner

/-- The function `errors.Unwrap`. -/
def GoError.Unwrap : GoError → Option GoError
  | GoError.msg _ => none
  | GoError.wrap _ inner => some inner

/-- A service connected to the cluster that cannot be reached. -/
def unreachableService : K8sService := ⟨some unreachableClientset, none⟩

/-! ## Notions used in the statements about `WaitForPodReady` -/

/-- The time at which the turn `i` of the loop of `WaitForPodReady` starts,
counted from the call in nanoseconds, when no earlier turn has returned:
each turn lasts as long as its `GetPod` request and is followed by a sleep of
two seconds. -/
def pollStart (c : Client) (race : DeadlineRace) (podName : String) (timeout : Int) :
    Nat → Nat
  | 0 => 0
  | i + 1 =>
    (c.GetPod race i (pollStart c race podName timeout i) timeout podName).2 + 2000000000

/-- Whether the turn `i` of the loop makes its `GetPod` request: its `select`
does not find the context done. -/
def polls (c : Client) (race : DeadlineRace) (podName : String) (timeout : Int) (i : Nat) :
    Bool :=
  !contextDone race timeout (pollStart c race podName timeout i)

/-- What the `GetPod` request of the turn `i` of the loop returns. -/
def pollFetch (c : Client) (race : DeadlineRace) (podName : String) (timeout : Int)
    (i : Nat) : Except GoError Pod :=
  (c.GetPod race i (pollStart c race podName timeout i) timeout podName).1

/-- The test of a turn of the loop of `WaitForPodReady` on the fetched pod:
its phase is `Running` and every record of its container statuses is
ready. -/
def podReady (pod : Pod) : Bool :=
  decide (pod.Status.Phase = "Running") && allStatusesReady pod.Status.ContainerStatuses

/-- The error that `WaitForPodReady` returns when its context is done. -/
def readinessTimeout (podName : String) : GoError :=
  GoError.msg ("等待Pod " ++ podName ++ " 就绪超时")

/-- A cluster that answers the `Get` number `i` at once with `pods i`. -/
def scriptedClient (pods : Nat → Pod) : Client :=
  ⟨fun i _ _ => ⟨0, Except.ok (pods i)⟩, "default"⟩

/-! ## `ConvertToContainerModel` (`backend/internal/k8s/client.go`) -/

/-- The type `model.Container`, with the fields that
`ConvertToContainerModel` sets; the other fields keep their zero value. -/
structure model.Container where
  Name : String
  K8sName : String
  PodName : String
  Status : String
  Phase : String
  CPURequest : String
  CPULimit : String
  MemoryRequest : String
  MemoryLimit : String
  RestartCount : Int
  PodIP : String
  NodeName : String
  StartedAt : Option Int
deriving DecidableEq, Repr

/-- The methods of `resource.Quantity` that `ConvertToContainerModel` calls
on a quantity held in a resource list; the library answers them. -/
structure QuantityLib where
  IsZero : Quantity → Bool
  String : Quantity → String

/-- The methods `Cpu()` and `Memory()` of a `ResourceList`, by way of
`Name(name, format)`: the quantity held for the name; for an absent name the
library returns the zero value of `Quantity` with the default format, here
`none`. -/
def ResourceList.Name (list : ResourceList) (name : String) : Option Quantity :=
  ResourceList.get? list name

/-- One of the four steps `if q := list.Name(); !q.IsZero() then field =
q.String()` of `ConvertToContainerModel`: the new text of the field. The
zero value of `Quantity` is zero. -/
def quantityField (lib : QuantityLib) (quantity : Option Quantity) (field : String) : String :=
  match quantity with
  | none => field
  | some q => if !lib.IsZero q then lib.String q else field

/-- The block `if c.Resources.Requests != nil` of `ConvertToContainerModel`.
A `ResourceList` is held as the list of its entries, a nil map as the empty
list; on an empty map that is not nil both steps leave the fields as they
are. -/
def setRequests (lib : QuantityLib) (c : Container) (container : model.Container) :
    model.Container :=
  if c.Resources.Requests ≠ [] then
    let container :=
      { container with CPURequest := quantityField lib (ResourceList.Name c.Resources.Requests "cpu") container.CPURequest }
    { container with MemoryRequest := quantityField lib (ResourceList.Name c.Resources.Requests "memory") container.MemoryRequest }
  else container

/-- The block `if c.Resources.Limits != nil` of `ConvertToContainerModel`. -/
def setLimits (lib : QuantityLib) (c : Container) (container : model.Container) :
    model.Container :=
  if c.Resources.Limits ≠ [] then
    let container :=
      { container with CPULimit := quantityField lib (ResourceList.Name c.Resources.Limits "cpu") container.CPULimit }
    { container with MemoryLimit := quantityField lib (ResourceList.Name c.Resources.Limits "memory") container.MemoryLimit }
  else container

/-- The function `ConvertToContainerModel(pod)`. -/
def ConvertToContainerModel (lib : QuantityLib) (pod : Pod) : model.Container :=
  let container : model.Container :=
    { Name := pod.ObjectMeta.Name
      K8sName := pod.ObjectMeta.Name
      PodName := pod.ObjectMeta.Name
      Status := pod.Status.Phase
      Phase := pod.Status.Phase
      CPURequest := ""
      CPULimit := ""
      MemoryRequest := ""
      MemoryLimit := ""
      RestartCount := 0
      PodIP := pod.Status.PodIP
      NodeName := pod.Spec.NodeName
      StartedAt := none }
  let container :=
    match pod.Spec.Containers with
    | [] => container
    | c :: _ => setLimits lib c (setRequests lib c container)
  match pod.Status.StartTime with
  | some startedAt => { container with StartedAt := some startedAt }
  | none => container

/-- The text that a resource field of the model gets from a resource list:
the quantity held for the name when it is not zero, the empty text
otherwise. -/
def shownQuantity (lib : QuantityLib) (list : ResourceList) (name : String) : String :=
  match ResourceList.get? list name with
  | some q => if lib.IsZero q then "" else lib.String q
  | none => ""

/-- A sample of the quantity methods: a quantity whose text has no digit
other than `0` is zero, and a quantity is printed as its text. -/
def sampleQuantityLib : QuantityLib :=
  ⟨fun q => q.text.data.all (fun ch => !(ch.isDigit && ch ≠ '0')), fun q => q.text⟩

/-- A container `side` with requests and limits of its own. -/
def sampleSidecar : Container :=
  ⟨"side", "envoy", [], [], [],
    ⟨[("cpu", ⟨"2"⟩), ("memory", ⟨"1Gi"⟩)], [("cpu", ⟨"1"⟩), ("memory", ⟨"512Mi"⟩)]⟩⟩

/-- A container `app` that requests half a CPU and no memory. -/
def sampleAppContainer : Container :=
  ⟨"app", "nginx", [], [], [], ⟨[("memory", ⟨"256Mi"⟩)], [("cpu", ⟨"500m"⟩), ("memory", ⟨"0"⟩)]⟩⟩

/-! ## Temporary files of `ConnectToCluster` -/

/-- The paths of the files that a call wrote, in order. -/
def writtenPaths : List ConnectEffect → List String
  | [] => []
  | ConnectEffect.writeFile path _ :: rest => path :: writtenPaths rest
  | _ :: rest => writtenPaths rest

/-- The connection that the handlers `GetContainers`, `CreateContainer`,
`StartContainer`, `StopContainer`, `RestartContainer` and `DeleteContainer`
of `K8sController` build for a namespace; the fields they leave out have
their zero value. -/
def controllerConnection (ns : String) : K8sConnection :=
  { ID := 0
    Name := "default-cluster"
    Endpoint := "https://kubernetes.default.svc:443"
    ConfigType := "kubeconfig"
    Config := ""
    Token := ""
    Namespace := ns }

/-- A connection of the kind `kubeconfig` to the cluster `alpha`, as a
request to `TestConnection` that gives no `id` describes it. -/
def sampleAlphaConnection : K8sConnection :=
  ⟨0, "alpha", "https://alpha.example:6443", "kubeconfig", sampleAlphaDocument, "", ""⟩

/-- A connection of the kind `kubeconfig` to the cluster `beta`, as a request
to `TestConnection` that gives no `id` describes it. -/
def sampleBetaConnection : K8sConnection :=
  ⟨0, "beta", "https://beta.example:6443", "kubeconfig", sampleBetaDocument, "", ""⟩

/-- A connection of the kind `kubeconfig` to the cluster `gamma`, with an
empty namespace. -/
def sampleGammaConnection : K8sConnection :=
  ⟨9, "gamma", "https://gamma.example:6443", "kubeconfig", sampleGammaDocument, "", ""⟩

/-! ## Orders of a `range` over a map -/

/-- The range that yields the entries in the order in which the keys were
first set. -/
def insertionOrder : MapRange := ⟨fun m => m, fun m => List.Perm.refl m⟩

/-- The range that yields the entries in the opposite order. -/
def reverseOrder : MapRange := ⟨fun m => m.reverse, fun m => List.reverse_perm m⟩

/-- The request with another command and all else the same. -/
def withCommand (req : CreateContainerRequest) (command : String) : CreateContainerRequest :=
  ⟨req.Name, req.Namespace, req.Image, command, req.Ports, req.Env, req.Resources⟩

/-- A request without a command, with two environment variables. -/
def sampleQuietRequest : CreateContainerRequest :=
  ⟨"web", "default", "nginx", "", "80", "A=1\nB=2", ""⟩

/-- The request `sampleQuietRequest` with a command. -/
def sampleLoudRequest : CreateContainerRequest :=
  ⟨"web", "default", "nginx", "sleep 1", "80", "A=1\nB=2", ""⟩

/-! ## Tokens (`backend/internal/middleware/auth.go`) -/

/-- The type `model.Role`, with the field that the token code reads. -/
structure model.Role where
  Name : String
deriving DecidableEq, Repr

/-- The type `model.User`, with the fields that the token code and
`toUserResponse` read; `ID` is the field of the embedded `BaseModel`. -/
structure model.User where
  ID : Nat
  Username : String
  Email : String
  FullName : String
  Status : String
  Roles : List model.Role
deriving DecidableEq, Repr

/-- The type `jwt.RegisteredClaims`, with the fields that are set; times are
in nanoseconds. -/
structure RegisteredClaims where
  ExpiresAt : Int
  IssuedAt : Int
  NotBefore : Int
  Issuer : String
  Subject : String
deriving DecidableEq, Repr

/-- The type `JWTClaims`. -/
structure JWTClaims where
  UserID : Nat
  Username : String
  Role : String
  RegisteredClaims : RegisteredClaims
deriving DecidableEq, Repr

/-- The type `JWTConfig`; durations are in nanoseconds. -/
structure JWTConfig where
  SecretKey : String
  ExpiresIn : Int
  RefreshExpire : Int
deriving DecidableEq, Repr

/-- The type `JWTAuth`. -/
structure JWTAuth where
  config : JWTConfig
deriving DecidableEq, Repr

/-- The answers of the libraries that the token code calls: signing of
claims with a key (`jwt.NewWithClaims` and `SignedString`), parsing of a
token text against a key (`jwt.ParseWithClaims` with the key function of
`ValidateToken`), which gives the claims and the field `Valid`, and the
binding of a request body to the field `refreshToken`
(`ShouldBindJSON`). -/
structure JWTLib where
  SignedString : JWTClaims → String → Except GoError String
  ParseWithClaims : String → String → Except GoError (JWTClaims × Bool)
  bindRefreshToken : String → Except GoError String

/-- The call `jwt.NewNumericDate(t)`: the time cut to whole seconds. -/
def NewNumericDate (t : Int) : Int := t - t % 1000000000

/-- The function `getUserRole(user)`. -/
def getUserRole (user : model.User) : String :=
  match user.Roles with
  | role :: _ => role.Name
  | [] => "operator"

/-- The claims that `GenerateToken` builds; `now k` is the reading number
`k` of the clock in the call. -/
def accessClaims (j : JWTAuth) (now : Nat → Int) (user : model.User) : JWTClaims :=
  { UserID := user.ID
    Username := user.Username
    Role := getUserRole user
    RegisteredClaims :=
      { ExpiresAt := NewNumericDate (now 0 + j.config.ExpiresIn)
        IssuedAt := NewNumericDate (now 1)
        NotBefore := NewNumericDate (now 2)
        Issuer := "container-platform"
        Subject := "user-auth" } }

/-- The method `GenerateToken(user)`. -/
def JWTAuth.GenerateToken (lib : JWTLib) (j : JWTAuth) (now : Nat → Int) (user : model.User) :
    Except GoError String :=
  lib.SignedString (accessClaims j now user) j.config.SecretKey

/-- The claims that `GenerateRefreshToken` builds. -/
def refreshClaims (j : JWTAuth) (now : Nat → Int) (user : model.User) : JWTClaims :=
  { UserID := user.ID
    Username := user.Username
    Role := getUserRole user
    RegisteredClaims :=
      { ExpiresAt := NewNumericDate (now 0 + j.config.RefreshExpire)
        IssuedAt := NewNumericDate (now 1)
        NotBefore := NewNumericDate (now 2)
        Issuer := "container-platform"
        Subject := "refresh-token" } }

/-- The method `GenerateRefreshToken(user)`. -/
def JWTAuth.GenerateRefreshToken (lib : JWTLib) (j : JWTAuth) (now : Nat → Int)
    (user : model.User) : Except GoError String :=
  lib.SignedString (refreshClaims j now user) j.config.SecretKey

/-- The method `ValidateToken(tokenString)`. -/
def JWTAuth.ValidateToken (lib : JWTLib) (j : JWTAuth) (tokenString : String) :
    Except GoError JWTClaims :=
  match lib.ParseWithClaims tokenString j.config.SecretKey with
  | Except.error err => Except.error err
  | Except.ok (claims, valid) =>
    if valid then Except.ok claims
    else Except.error (GoError.msg "key is invalid")

/-- The user that `RefreshTokenMiddleware` builds from the claims of the
refresh token: `model.User` with `ID` and `Username` set, every other field
with its zero value. -/
def refreshUser (claims : JWTClaims) : model.User :=
  { ID := claims.UserID
    Username := claims.Username
    Email := ""
    FullName := ""
    Status := ""
    Roles := [] }

/-- The answer of the handler of `RefreshTokenMiddleware`: the HTTP status,
the error code (empty on success), and on success the new token with the
claims it was signed from; the fields `success`, `message`, `details` and
`expiresIn` of the body are left out. -/
structure RefreshAnswer where
  status : Nat
  code : String
  token : Option String
  claims : Option JWTClaims
deriving DecidableEq, Repr

/-- The handler that `RefreshTokenMiddleware()` returns, on a request
body. -/
def JWTAuth.RefreshTokenMiddleware (lib : JWTLib) (j : JWTAuth) (now : Nat → Int)
    (body : String) : RefreshAnswer :=
  match lib.bindRefreshToken body with
  | Except.error _ => ⟨400, "INVALID_REQUEST", none, none⟩
  | Except.ok refreshToken =>
    match j.ValidateToken lib refreshToken with
    | Except.error _ => ⟨401, "INVALID_REFRESH_TOKEN", none, none⟩
    | Except.ok claims =>
      let user := refreshUser claims
      match j.GenerateToken lib now user with
      | Except.error _ => ⟨500, "TOKEN_GENERATION_FAILED", none, none⟩
      | Except.ok newToken => ⟨200, "", some newToken, some (accessClaims j now user)⟩

/-- The function `hasRolePermission(userRole, requiredRole)`; the map
`permissions` is looked up by key, and the allowed roles are gone through in
order. -/
def hasRolePermission (userRole requiredRole : String) : Bool :=
  let permissions : List (String × List String) :=
    [("admin", ["admin", "operator", "viewer"]),
      ("operator", ["operator", "viewer"]),
      ("viewer", ["viewer"])]
  match permissions.lookup userRole with
  | some allowedRoles => allowedRoles.any (fun role => decide (role = requiredRole))
  | none => false

/-- The rank of a role in the order admin, operator, viewer; `none` for any
other text. -/
def roleRank (role : String) : Option Nat :=
  if role = "admin" then some 3
  else if role = "operator" then some 2
  else if role = "viewer" then some 1
  else none

/-! ## User responses (`backend/internal/service/user_service.go`) -/

/-- The type `UserResp`. -/
structure UserResp where
  ID : Nat
  Username : String
  Email : String
  FullName : String
  Role : String
  Status : String
deriving DecidableEq, Repr

/-- The method `toUserResponse(user)`. -/
def toUserResponse (user : model.User) : UserResp :=
  let role := match user.Roles with
    | first :: _ => first.Name
    | [] => "viewer"
  { ID := user.ID
    Username := user.Username
    Email := user.Email
    FullName := user.FullName
    Role := role
    Status := user.Status }

/-- A signing library for samples: the token text of claims is
`<subject>/<user id>/<username>/<role>`, and only the texts made so are
parsed; the key is not looked at. -/
def sampleJWTLib (known : List JWTClaims) : JWTLib :=
  { SignedString := fun claims _ =>
      Except.ok (claims.RegisteredClaims.Subject ++ "/" ++ toString claims.UserID ++ "/" ++ claims.Username ++ "/" ++ claims.Role)
    ParseWithClaims := fun text _ =>
      match known.find? (fun claims => decide (claims.RegisteredClaims.Subject ++ "/" ++ toString claims.UserID ++ "/" ++ claims.Username ++ "/" ++ claims.Role = text)) with
      | some claims => Except.ok (claims, true)
      | none => Except.error (GoError.msg "token is malformed")
    bindRefreshToken := fun body =>
      if body = "" then Except.error (GoError.msg "EOF") else Except.ok body }

/-- The user `root` with the role `admin`. -/
def sampleAdmin : model.User :=
  ⟨1, "root", "root@example.org", "Root", "active", [⟨"admin"⟩]⟩

/-- The user `guest`, who has no role. -/
def sampleGuest : model.User :=
  ⟨2, "guest", "guest@example.org", "Guest", "active", []⟩

/-- A token configuration: access for one day, refresh for seven. -/
def sampleJWTAuth : JWTAuth :=
  ⟨⟨"your-secret-key-change-in-production", 86400000000000, 604800000000000⟩⟩

/-! # Theorems -/

/-! ## `ListContainers` -/

theorem appendContainers_eq (now : Int) (pod : Pod) (cs : List Container)
    (acc : List ContainerInfo) :
    appendContainers now pod cs acc = acc ++ cs.map (containerInfoOf now pod) := by
  induction cs generalizing acc with
  | nil => simp [appendContainers]
  | cons c rest ih => simp [appendContainers, ih]

theorem appendPods_eq (now : Int) (pods : List Pod) (acc : List ContainerInfo) :
    appendPods now pods acc = acc ++ recordsOf now pods := by
  induction pods generalizing acc with
  | nil => simp [appendPods, recordsOf]
  | cons p rest ih =>
    simp only [appendPods, ih, appendContainers_eq]
    simp [recordsOf]

theorem ListContainers_ok (s : K8sService) (client : Clientset) (now : Int) (ns : String)
    (pods : List Pod) (hs : s.clientSet = some client)
    (hl : client.listPods ns = Except.ok pods) :
    ListContainers s now ns = (Outcome.ok (recordsOf now pods), [ApiCall.listPods ns]) := by
  simp [ListContainers, hs, hl, appendPods_eq]

theorem scanStatuses_eq (name : String) (l : List ContainerStatus) (vars : StatusVars) :
    scanStatuses name l vars =
      match l.find? (fun cs => decide (cs.Name = name)) with
      | some cs => ⟨statusOfState cs.State vars.status, cs.RestartCount, cs.ContainerID⟩
      | none => vars := by
  induction l with
  | nil => simp [scanStatuses]
  | cons c rest ih =>
    by_cases h : c.Name = name
    · simp [scanStatuses, h]
    · simp [scanStatuses, h, ih]

theorem statusOfState_cases (state : ContainerState) :
    (state.Running ≠ none → statusOfState state "Unknown" = "Running") ∧
    (state.Running = none → state.Waiting ≠ none →
      statusOfState state "Unknown" = "Pending") ∧
    (∀ t, state.Running = none → state.Waiting = none → state.Terminated = some t →
      t.ExitCode = 0 → statusOfState state "Unknown" = "Succeeded") ∧
    (∀ t, state.Running = none → state.Waiting = none → state.Terminated = some t →
      t.ExitCode ≠ 0 → statusOfState state "Unknown" = "Failed") ∧
    (state.Running = none → state.Waiting = none → state.Terminated = none →
      statusOfState state "Unknown" = "Unknown") := by
  obtain ⟨w, r, t⟩ := state
  refine ⟨?_, ?_, ?_, ?_, ?_⟩
  · intro h
    cases r with
    | none => exact absurd rfl h
    | some _ => simp [statusOfState]
  · intro hr hw
    cases w with
    | none => exact absurd rfl hw
    | some _ =>
      simp only at hr
      subst hr
      simp [statusOfState]
  · intro t' hr hw ht h0
    simp only at hr hw ht
    subst hr hw ht
    simp [statusOfState, h0]
  · intro t' hr hw ht h0
    simp only at hr hw ht
    subst hr hw ht
    simp [statusOfState, h0]
  · intro hr hw ht
    simp only at hr hw ht
    subst hr hw ht
    simp [statusOfState]

theorem statusOfState_mem (state : ContainerState) :
    statusOfState state "Unknown" ∈
      ["Running", "Pending", "Succeeded", "Failed", "Unknown"] := by
  obtain ⟨w, r, t⟩ := state
  cases r with
  | some _ => simp [statusOfState]
  | none =>
    cases w with
    | some _ => simp [statusOfState]
    | none =>
      cases t with
      | none => simp [statusOfState]
      | some t' =>
        by_cases h0 : t'.ExitCode = 0
        · simp [statusOfState, h0]
        · simp [statusOfState, h0]

theorem containerInfoOf_matching (now : Int) (pod : Pod) (container : Container)
    (cs : ContainerStatus) (hm : matchingStatus pod container = some cs) :
    (containerInfoOf now pod container).Status = statusOfState cs.State "Unknown" ∧
    (containerInfoOf now pod container).RestartCount = cs.RestartCount ∧
    (containerInfoOf now pod container).ContainerID = cs.ContainerID := by
  unfold matchingStatus at hm
  simp [containerInfoOf, scanStatuses_eq, hm]

theorem containerInfoOf_unmatched (now : Int) (pod : Pod) (container : Container)
    (hm : matchingStatus pod container = none) :
    (containerInfoOf now pod container).Status = "Unknown" ∧
    (containerInfoOf now pod container).RestartCount = 0 ∧
    (containerInfoOf now pod container).ContainerID = "" := by
  unfold matchingStatus at hm
  simp [containerInfoOf, scanStatuses_eq, hm]

theorem recordsOf_cons (now : Int) (p : Pod) (rest : List Pod) :
    recordsOf now (p :: rest) =
      p.Spec.Containers.map (containerInfoOf now p) ++ recordsOf now rest := by
  simp [recordsOf]

theorem recordsOf_length (now : Int) (pods : List Pod) :
    (recordsOf now pods).length = (pods.map (fun pod => pod.Spec.Containers.length)).sum := by
  induction pods with
  | nil => simp [recordsOf]
  | cons p rest ih => simp [recordsOf_cons, ih]

theorem recordsOf_fields (now : Int) (pods : List Pod) :
    (recordsOf now pods).map (fun info =>
        (info.Name, info.Image, info.PodName, info.Namespace, info.Node, info.Labels)) =
      (pods.map (fun pod => pod.Spec.Containers.map (fun container =>
        (container.Name, container.Image, pod.ObjectMeta.Name, pod.ObjectMeta.Namespace,
          pod.Spec.NodeName, pod.ObjectMeta.Labels)))).flatten := by
  induction pods with
  | nil => simp [recordsOf]
  | cons p rest ih =>
    rw [recordsOf_cons, List.map_append, ih]
    simp [containerInfoOf, Function.comp_def]

/-- C1: on a connected service whose pod list succeeds, `ListContainers`
returns the records of the declared containers, and for a declared container
whose name matches a status record (the first such record `cs`) the reported
status is `Running` if `cs` has a running sub-state; otherwise `Pending` if it
has a waiting sub-state; otherwise `Succeeded` or `Failed` if it has a
terminated sub-state with exit code zero or non-zero; otherwise `Unknown`; it
is always one of these five values. -/
theorem C1_status_classification (s : K8sService) (client : Clientset) (now : Int)
    (ns : String) (pods : List Pod) (pod : Pod) (container : Container)
    (cs : ContainerStatus)
    (hs : s.clientSet = some client) (hl : client.listPods ns = Except.ok pods)
    (hp : pod ∈ pods) (hc : container ∈ pod.Spec.Containers)
    (hm : matchingStatus pod container = some cs) :
    (ListContainers s now ns).1 = Outcome.ok (recordsOf now pods) ∧
    containerInfoOf now pod container ∈ recordsOf now pods ∧
    (cs.State.Running ≠ none →
      (containerInfoOf now pod container).Status = "Running") ∧
    (cs.State.Running = none → cs.State.Waiting ≠ none →
      (containerInfoOf now pod container).Status = "Pending") ∧
    (∀ t, cs.State.Running = none → cs.State.Waiting = none →
      cs.State.Terminated = some t → t.ExitCode = 0 →
      (containerInfoOf now pod container).Status = "Succeeded") ∧
    (∀ t, cs.State.Running = none → cs.State.Waiting = none →
      cs.State.Terminated = some t → t.ExitCode ≠ 0 →
      (containerInfoOf now pod container).Status = "Failed") ∧
    (cs.State.Running = none → cs.State.Waiting = none → cs.State.Terminated = none →
      (containerInfoOf now pod container).Status = "Unknown") ∧
    (containerInfoOf now pod container).Status ∈
      ["Running", "Pending", "Succeeded", "Failed", "Unknown"] := by
  have hst := (containerInfoOf_matching now pod container cs hm).1
  have hmem : containerInfoOf now pod container ∈ recordsOf now pods := by
    unfold recordsOf
    simp only [List.mem_flatten, List.mem_map]
    exact ⟨_, ⟨pod, hp, rfl⟩, List.mem_map.mpr ⟨container, hc, rfl⟩⟩
  rw [hst]
  obtain ⟨h1, h2, h3, h4, h5⟩ := statusOfState_cases cs.State
  exact ⟨by rw [ListContainers_ok s client now ns pods hs hl], hmem, h1, h2, h3, h4, h5,
    statusOfState_mem cs.State⟩

/-- C1 at a pod whose container has a status record with both a running and
a terminated sub-state: the status is `Running`. -/
theorem C1_status_classification_witness :
    (ListContainers (sampleService [samplePod]) 0 "default").1 =
      Outcome.ok (recordsOf 0 [samplePod]) ∧
    (containerInfoOf 0 samplePod sampleContainer).Status = "Running" :=
  have h := C1_status_classification (sampleService [samplePod])
    (sampleClientset [samplePod]) 0 "default" [samplePod] samplePod sampleContainer
    sampleStatus rfl rfl (by simp) (by simp [samplePod]) (by decide)
  ⟨h.1, h.2.2.1 (by simp [sampleStatus])⟩

/-- C2: when the pod list succeeds, `ListContainers` returns one record for
each declared container of each pod, pods in order and containers in order
within a pod; the number of records is the sum over the pods of the number of
declared containers; each record carries the name and image of its container
and the name, namespace, node and labels of its pod. -/
theorem C2_one_record_per_container (s : K8sService) (client : Clientset) (now : Int)
    (ns : String) (pods : List Pod)
    (hs : s.clientSet = some client) (hl : client.listPods ns = Except.ok pods) :
    ∃ infos : List ContainerInfo,
      (ListContainers s now ns).1 = Outcome.ok infos ∧
      infos.length = (pods.map (fun pod => pod.Spec.Containers.length)).sum ∧
      infos.map (fun info =>
          (info.Name, info.Image, info.PodName, info.Namespace, info.Node, info.Labels)) =
        (pods.map (fun pod => pod.Spec.Containers.map (fun container =>
          (container.Name, container.Image, pod.ObjectMeta.Name, pod.ObjectMeta.Namespace,
            pod.Spec.NodeName, pod.ObjectMeta.Labels)))).flatten :=
  ⟨recordsOf now pods, by rw [ListContainers_ok s client now ns pods hs hl],
    recordsOf_length now pods, recordsOf_fields now pods⟩

/-- C2 on a list of two pods with one declared container each: two records. -/
theorem C2_one_record_per_container_witness :
    ∃ infos : List ContainerInfo,
      (ListContainers (sampleService [samplePod, samplePendingPod]) 0 "default").1 =
        Outcome.ok infos ∧
      infos.length = 2 ∧
      infos.map (fun info =>
          (info.Name, info.Image, info.PodName, info.Namespace, info.Node, info.Labels)) =
        [("web", "nginx", "p", "default", "node-1", [("app", "web")]),
          ("web", "nginx", "q", "default", "", [])] :=
  C2_one_record_per_container (sampleService [samplePod, samplePendingPod])
    (sampleClientset [samplePod, samplePendingPod]) 0 "default"
    [samplePod, samplePendingPod] rfl rfl

/-- C3: for every pod and declared container of a successful pod list,
`ListContainers` (which returns the records, not an error) takes the restart
count and the container ID from the first status record of the pod with the
name of the container; when no record has that name the restart count is 0,
the container ID is empty and the status is `Unknown`. -/
theorem C3_restart_count_and_id (s : K8sService) (client : Clientset) (now : Int)
    (ns : String) (pods : List Pod) (pod : Pod) (container : Container)
    (hs : s.clientSet = some client) (hl : client.listPods ns = Except.ok pods)
    (hp : pod ∈ pods) (hc : container ∈ pod.Spec.Containers) :
    (ListContainers s now ns).1 = Outcome.ok (recordsOf now pods) ∧
    containerInfoOf now pod container ∈ recordsOf now pods ∧
    (∀ cs, matchingStatus pod container = some cs →
      (containerInfoOf now pod container).RestartCount = cs.RestartCount ∧
      (containerInfoOf now pod container).ContainerID = cs.ContainerID) ∧
    (matchingStatus pod container = none →
      (containerInfoOf now pod container).RestartCount = 0 ∧
      (containerInfoOf now pod container).ContainerID = "" ∧
      (containerInfoOf now pod container).Status = "Unknown") := by
  refine ⟨by rw [ListContainers_ok s client now ns pods hs hl], ?_, ?_, ?_⟩
  · unfold recordsOf
    simp only [List.mem_flatten, List.mem_map]
    exact ⟨_, ⟨pod, hp, rfl⟩, List.mem_map.mpr ⟨container, hc, rfl⟩⟩
  · intro cs hm
    exact (containerInfoOf_matching now pod container cs hm).2
  · intro hm
    obtain ⟨h1, h2, h3⟩ := containerInfoOf_unmatched now pod container hm
    exact ⟨h2, h3, h1⟩

/-- C3 on a pod with a status record and a pod without one. -/
theorem C3_restart_count_and_id_witness :
    ((containerInfoOf 0 samplePod sampleContainer).RestartCount = 2 ∧
      (containerInfoOf 0 samplePod sampleContainer).ContainerID = "containerd://abc") ∧
    ((containerInfoOf 0 samplePendingPod sampleContainer).RestartCount = 0 ∧
      (containerInfoOf 0 samplePendingPod sampleContainer).ContainerID = "" ∧
      (containerInfoOf 0 samplePendingPod sampleContainer).Status = "Unknown") :=
  ⟨(C3_restart_count_and_id (sampleService [samplePod, samplePendingPod])
      (sampleClientset [samplePod, samplePendingPod]) 0 "default"
      [samplePod, samplePendingPod] samplePod sampleContainer rfl rfl
      (by simp) (by simp [samplePod])).2.2.1 sampleStatus (by decide),
    (C3_restart_count_and_id (sampleService [samplePod, samplePendingPod])
      (sampleClientset [samplePod, samplePendingPod]) 0 "default"
      [samplePod, samplePendingPod] samplePendingPod sampleContainer rfl rfl
      (by simp) (by simp [samplePendingPod])).2.2.2 (by decide)⟩

/-! ## `parseEnvVars` -/

theorem cutChars_eq (sep : Char) (l : List Char) :
    cutChars sep l =
      if l.contains sep then
        some (l.takeWhile (fun c => !decide (c = sep)),
          (l.dropWhile (fun c => !decide (c = sep))).drop 1)
      else none := by
  induction l with
  | nil => simp [cutChars]
  | cons c cs ih =>
    by_cases h : c = sep
    · subst h
      simp [cutChars]
    · have h' : ¬ sep = c := fun e => h e.symm
      by_cases hc : sep ∈ cs
      · simp [cutChars, h, h', ih, hc]
      · simp [cutChars, h, h', ih, hc]

theorem stringsSplitN2_of_eq (line : String) (h : lineHasEq line = true) :
    stringsSplitN2 line '=' =
      [String.mk (line.data.takeWhile (fun c => !decide (c = '='))),
        String.mk ((line.data.dropWhile (fun c => !decide (c = '='))).drop 1)] := by
  have h' : '=' ∈ line.data := by simpa [lineHasEq] using h
  simp [stringsSplitN2, cutChars_eq, h']

theorem stringsSplitN2_of_no_eq (line : String) (h : lineHasEq line = false) :
    stringsSplitN2 line '=' = [line] := by
  have h' : '=' ∉ line.data := by simpa [lineHasEq] using h
  simp [stringsSplitN2, cutChars_eq, h']

theorem parseEnvLines_cons (line : String) (rest : List String) (m : GoMap) :
    parseEnvLines (line :: rest) m =
      parseEnvLines rest
        (if lineHasEq line then m.set (envKeyOfLine line) (envValueOfLine line) else m) := by
  cases h : lineHasEq line with
  | true =>
    rw [parseEnvLines, stringsSplitN2_of_eq line h]
    simp [envKeyOfLine, envValueOfLine]
  | false =>
    rw [parseEnvLines, stringsSplitN2_of_no_eq line h]
    simp

theorem GoMap.get?_set (m : GoMap) (k v k' : String) :
    (m.set k v).get? k' = if k = k' then some v else m.get? k' := by
  induction m with
  | nil => simp [GoMap.set, GoMap.get?]
  | cons kv rest ih =>
    obtain ⟨a, b⟩ := kv
    by_cases h : a = k
    · subst h
      by_cases h2 : a = k'
      · simp [GoMap.set, GoMap.get?, h2]
      · simp [GoMap.set, GoMap.get?, h2]
    · by_cases h2 : a = k'
      · subst h2
        have h3 : ¬ k = a := fun e => h e.symm
        simp [GoMap.set, GoMap.get?, h, h3]
      · simp [GoMap.set, GoMap.get?, h, h2, ih]

theorem parseEnvLines_get? (lines : List String) (m : GoMap) (k : String) :
    (parseEnvLines lines m).get? k =
      ((((lines.filter lineHasEq).reverse.find? (fun l => decide (envKeyOfLine l = k))).map
        envValueOfLine).or (m.get? k)) := by
  induction lines generalizing m with
  | nil => simp [parseEnvLines]
  | cons line rest ih =>
    rw [parseEnvLines_cons, ih]
    cases h : lineHasEq line with
    | false => simp [List.filter_cons, h]
    | true =>
      simp only [List.filter_cons, h, if_true, List.reverse_cons, List.find?_append,
        GoMap.get?_set]
      cases hf : List.find? (fun l => decide (envKeyOfLine l = k)) (List.filter lineHasEq rest).reverse with
      | some l => simp
      | none =>
        by_cases hk : envKeyOfLine line = k
        · simp [hk]
        · simp [hk]

theorem GoMap.keys_set (m : GoMap) (k v : String) :
    (m.set k v).map Prod.fst =
      if k ∈ m.map Prod.fst then m.map Prod.fst else m.map Prod.fst ++ [k] := by
  induction m with
  | nil => simp [GoMap.set]
  | cons kv rest ih =>
    obtain ⟨a, b⟩ := kv
    by_cases h : a = k
    · subst h
      simp [GoMap.set]
    · have h3 : ¬ k = a := fun e => h e.symm
      by_cases hk : k ∈ rest.map Prod.fst
      · rw [if_pos hk] at ih
        have hk' : k ∈ ((a, b) :: rest).map Prod.fst := by
          simp only [List.map_cons, List.mem_cons]
          exact Or.inr hk
        rw [if_pos hk']
        simp [GoMap.set, h, ih]
      · rw [if_neg hk] at ih
        have hk' : k ∉ ((a, b) :: rest).map Prod.fst := by
          simp only [List.map_cons, List.mem_cons, not_or]
          exact ⟨h3, hk⟩
        rw [if_neg hk']
        simp [GoMap.set, h, ih]

theorem GoMap.nodup_set (m : GoMap) (k v : String) (h : (m.map Prod.fst).Nodup) :
    ((m.set k v).map Prod.fst).Nodup := by
  rw [GoMap.keys_set]
  by_cases hk : k ∈ m.map Prod.fst
  · rw [if_pos hk]
    exact h
  · rw [if_neg hk]
    exact List.Nodup.append h (List.nodup_singleton k) (by
      intro a ha hb
      rw [List.mem_singleton] at hb
      subst hb
      exact hk ha)

theorem GoMap.toFinset_set (m : GoMap) (k v : String) :
    ((m.set k v).map Prod.fst).toFinset = insert k (m.map Prod.fst).toFinset := by
  rw [GoMap.keys_set]
  by_cases hk : k ∈ m.map Prod.fst
  · rw [if_pos hk]
    ext x
    simp only [List.mem_toFinset, Finset.mem_insert]
    constructor
    · exact fun hx => Or.inr hx
    · rintro (rfl | hx)
      · exact hk
      · exact hx
  · rw [if_neg hk]
    ext x
    simp only [List.mem_toFinset, Finset.mem_insert, List.mem_append, List.mem_singleton]
    tauto

theorem parseEnvLines_nodup (lines : List String) (m : GoMap)
    (h : (m.map Prod.fst).Nodup) : ((parseEnvLines lines m).map Prod.fst).Nodup := by
  induction lines generalizing m with
  | nil => simpa [parseEnvLines] using h
  | cons line rest ih =>
    rw [parseEnvLines_cons]
    apply ih
    cases lineHasEq line with
    | false => simpa using h
    | true => simpa using GoMap.nodup_set m _ _ h

theorem parseEnvLines_keys (lines : List String) (m : GoMap) :
    ((parseEnvLines lines m).map Prod.fst).toFinset =
      (m.map Prod.fst).toFinset ∪ ((lines.filter lineHasEq).map envKeyOfLine).toFinset := by
  induction lines generalizing m with
  | nil => simp [parseEnvLines]
  | cons line rest ih =>
    rw [parseEnvLines_cons, ih]
    cases h : lineHasEq line with
    | false => simp [List.filter_cons, h]
    | true =>
      simp only [if_true, GoMap.toFinset_set, List.filter_cons, h, List.map_cons,
        List.toFinset_cons]
      ext x
      simp only [Finset.mem_union, Finset.mem_insert]
      tauto

theorem parseEnvVars_length (envStr : String) :
    (parseEnvVars envStr).length =
      ((envValidLines envStr).map envKeyOfLine).toFinset.card := by
  have hn := parseEnvLines_nodup (stringsSplit envStr '\n') [] (by simp)
  have hk := parseEnvLines_keys (stringsSplit envStr '\n') []
  have hc := List.toFinset_card_of_nodup hn
  rw [hk] at hc
  simp only [List.map_nil, List.toFinset_nil, Finset.empty_union, List.length_map] at hc
  exact hc.symm

/-- C7: for every environment text and key, the value that `parseEnvVars`
holds for the key is the trimmed text after the first `=` of the last line
that contains `=` and whose trimmed text before the first `=` is the key, and
the key is absent when there is no such line (so a line without `=` gives no
entry and a later line replaces an earlier one); the keys of the map are
distinct; and the text `A=1`, `BAD`, `B = 2` (one per line) gives the map
with `A` at `1` and `B` at `2`. -/
theorem C7_parseEnvVars_lookup (envStr k : String) :
    (parseEnvVars envStr).get? k =
      (((envValidLines envStr).reverse.find? (fun l => decide (envKeyOfLine l = k))).map
        envValueOfLine) ∧
    ((parseEnvVars envStr).map Prod.fst).Nodup ∧
    parseEnvVars "A=1\nBAD\nB = 2" = [("A", "1"), ("B", "2")] := by
  refine ⟨?_, parseEnvLines_nodup _ _ (by simp), by decide⟩
  unfold parseEnvVars envValidLines
  rw [parseEnvLines_get?]
  simp [GoMap.get?]

/-- C8 fails as stated: the text with the lines `A=1` and `A=2` has two lines
that contain `=`, and `parseEnvVars` returns one entry. -/
theorem C8_counterexample :
    (envValidLines "A=1\nA=2").length = 2 ∧ (parseEnvVars "A=1\nA=2").length = 1 ∧
    ¬ ((parseEnvVars "A=1\nA=2").length = (envValidLines "A=1\nA=2").length) := by
  decide

/-- C8, amended: the number of entries of the map returned by `parseEnvVars`
is the number of distinct keys among the lines that contain `=`, which is at
most the number of those lines. -/
theorem C8_entries_distinct_keys (envStr : String) :
    (parseEnvVars envStr).length =
      ((envValidLines envStr).map envKeyOfLine).toFinset.card ∧
    (parseEnvVars envStr).length ≤ (envValidLines envStr).length := by
  refine ⟨parseEnvVars_length envStr, ?_⟩
  rw [parseEnvVars_length]
  calc ((envValidLines envStr).map envKeyOfLine).toFinset.card
      ≤ ((envValidLines envStr).map envKeyOfLine).length := List.toFinset_card_le _
    _ = (envValidLines envStr).length := List.length_map _ _

/-! ## `parsePortMappings` -/

theorem strconvAtoi_empty (s : String) (h : s = "") : strconvAtoi s = none := by
  subst h
  rfl

theorem parsePortParts_eq (parts : List String) (ports : List Int) :
    parsePortParts parts ports = ports ++ parts.filterMap portOfToken := by
  induction parts generalizing ports with
  | nil => simp [parsePortParts]
  | cons part rest ih =>
    by_cases he : stringsTrimSpace part = ""
    · have hn : portOfToken part = none := by
        simp [portOfToken, strconvAtoi_empty _ he]
      simp [parsePortParts, he, ih, List.filterMap_cons, hn]
    · cases ha : strconvAtoi (stringsTrimSpace part) with
      | none =>
        have hn : portOfToken part = none := by simp [portOfToken, ha]
        simp [parsePortParts, he, ih, List.filterMap_cons, hn, ha]
      | some v =>
        have hn : portOfToken part = some (toInt32 v) := by simp [portOfToken, ha]
        simp [parsePortParts, he, ih, List.filterMap_cons, hn, ha]

theorem toInt32_of_fits (v : Int) (hlo : -(2 : Int) ^ 31 ≤ v) (hhi : v < (2 : Int) ^ 31) :
    toInt32 v = v := by
  unfold toInt32
  have h1 : (0 : Int) ≤ v + 2 ^ 31 := by linarith
  have h2 : v + 2 ^ 31 < (2 : Int) ^ 32 := by
    have : (2 : Int) ^ 32 = 2 ^ 31 + 2 ^ 31 := by norm_num
    linarith
  rw [Int.emod_eq_of_lt h1 h2]
  ring

/-- C9: for every port-list text, `parsePortMappings` returns, in the order
of the comma-separated tokens, one element for each token that parses as an
integer after trimming (`strconv.Atoi` succeeds) and none for the others; an
empty token and a non-numeric token give no element; for a token whose value
fits in 32 bits the element is that value; and the text `80, foo, 443` gives
`[80, 443]`. -/
theorem C9_parsePortMappings (portsStr : String) :
    parsePortMappings portsStr = (stringsSplit portsStr ',').filterMap portOfToken ∧
    (∀ token, stringsTrimSpace token = "" → portOfToken token = none) ∧
    (∀ token, strconvAtoi (stringsTrimSpace token) = none → portOfToken token = none) ∧
    (∀ token v, strconvAtoi (stringsTrimSpace token) = some v →
      -(2 : Int) ^ 31 ≤ v → v < (2 : Int) ^ 31 → portOfToken token = some v) ∧
    portOfToken " foo" = none ∧
    parsePortMappings "80, foo, 443" = [80, 443] := by
  refine ⟨?_, ?_, ?_, ?_, by decide, by decide⟩
  · simp [parsePortMappings, parsePortParts_eq]
  · intro token he
    simp [portOfToken, strconvAtoi_empty _ he]
  · intro token hn
    simp [portOfToken, hn]
  · intro token v hv hlo hhi
    simp [portOfToken, hv, toInt32_of_fits v hlo hhi]

/-! ## `parseResources` within `CreateContainer` -/

/-- C10, what the code does at the resources text `cpu:bogus`: whenever
`bogus` is not a quantity, `CreateContainer` on a connected service panics in
`resource.MustParse`; it returns no error value, and it sends no request. -/
theorem C10_cpu_bogus_panics (validQuantity : String → Bool) (range : MapRange)
    (client : Clientset)
    (req : CreateContainerRequest) (hv : validQuantity "bogus" = false)
    (hr : req.Resources = "cpu:bogus") :
    CreateContainer validQuantity range ⟨some client, none⟩ req =
      (Outcome.panic "resource.MustParse: cannot parse bogus", []) ∧
    ∀ err, (CreateContainer validQuantity range ⟨some client, none⟩ req).1 ≠ Outcome.error err := by
  have hp : parseResources validQuantity "cpu:bogus" =
      Outcome.panic "resource.MustParse: cannot parse bogus" := by
    have h1 : stringsSplit "cpu:bogus" ',' = ["cpu:bogus"] := by decide
    have h2 : stringsTrimSpace "cpu:bogus" = "cpu:bogus" := by decide
    have h3 : stringsContains "cpu:bogus" "cpu:" = true := by decide
    have h4 : stringsTrimSpace (stringsTrimPrefix "cpu:bogus" "cpu:") = "bogus" := by decide
    simp [parseResources, h1, parseResourceParts, h2, h3, h4, MustParse, hv]
  have hc : CreateContainer validQuantity range ⟨some client, none⟩ req =
      (Outcome.panic "resource.MustParse: cannot parse bogus", []) := by
    have hne : req.Resources ≠ "" := by rw [hr]; decide
    simp only [CreateContainer, hne]
    simp [hr, hp]
  refine ⟨hc, ?_⟩
  intro err
  rw [hc]
  simp

/-- C10 at the request `web` with resources `cpu:bogus`, no text being a
quantity. -/
theorem C10_cpu_bogus_panics_witness :
    CreateContainer (fun _ => false) insertionOrder ⟨some (sampleClientset []), none⟩
        ⟨"web", "default", "nginx", "", "", "", "cpu:bogus"⟩ =
      (Outcome.panic "resource.MustParse: cannot parse bogus", []) :=
  (C10_cpu_bogus_panics (fun _ => false) insertionOrder (sampleClientset [])
    ⟨"web", "default", "nginx", "", "", "", "cpu:bogus"⟩ rfl rfl).1

/-! ## The `float64` model computes correctly rounded results -/

theorem floor_natCast_div (P Q : Nat) (hQ : 0 < Q) :
    ⌊(P : ℚ) / (Q : ℚ)⌋ = ((P / Q : Nat) : Int) := by
  rw [Int.floor_eq_iff]
  have hQ' : (0 : ℚ) < (Q : ℚ) := by exact_mod_cast hQ
  have hdm : (P : ℚ) = (Q : ℚ) * ((P / Q : Nat) : ℚ) + ((P % Q : Nat) : ℚ) := by
    exact_mod_cast (Nat.div_add_mod P Q).symm
  have hlt : ((P % Q : Nat) : ℚ) < (Q : ℚ) := by exact_mod_cast Nat.mod_lt P hQ
  have hge : (0 : ℚ) ≤ ((P % Q : Nat) : ℚ) := by positivity
  constructor
  · rw [le_div_iff₀ hQ', Int.cast_natCast]
    nlinarith
  · rw [div_lt_iff₀ hQ', Int.cast_natCast]
    nlinarith

theorem fract_natCast_div (P Q : Nat) (hQ : 0 < Q) :
    Int.fract ((P : ℚ) / (Q : ℚ)) = ((P % Q : Nat) : ℚ) / (Q : ℚ) := by
  have hQ' : (0 : ℚ) < (Q : ℚ) := by exact_mod_cast hQ
  have hdm : (P : ℚ) = (Q : ℚ) * ((P / Q : Nat) : ℚ) + ((P % Q : Nat) : ℚ) := by
    exact_mod_cast (Nat.div_add_mod P Q).symm
  unfold Int.fract
  rw [floor_natCast_div P Q hQ, Int.cast_natCast]
  field_simp
  linarith

theorem roundHalfEven_eq (P Q : Nat) (hQ : 0 < Q) :
    ((roundHalfEven P Q : Nat) : Int) = nearestEven ((P : ℚ) / (Q : ℚ)) := by
  have hQ' : (0 : ℚ) < (Q : ℚ) := by exact_mod_cast hQ
  unfold roundHalfEven nearestEven
  rw [fract_natCast_div P Q hQ, floor_natCast_div P Q hQ]
  have e1 : ((P % Q : Nat) : ℚ) / (Q : ℚ) < 1 / 2 ↔ 2 * (P % Q) < Q := by
    rw [div_lt_iff₀ hQ']
    constructor
    · intro h
      have : (2 : ℚ) * ((P % Q : Nat) : ℚ) < (Q : ℚ) := by linarith
      exact_mod_cast this
    · intro h
      have : (2 : ℚ) * ((P % Q : Nat) : ℚ) < (Q : ℚ) := by exact_mod_cast h
      linarith
  have e2 : 1 / 2 < ((P % Q : Nat) : ℚ) / (Q : ℚ) ↔ Q < 2 * (P % Q) := by
    rw [lt_div_iff₀ hQ']
    constructor
    · intro h
      have : (Q : ℚ) < (2 : ℚ) * ((P % Q : Nat) : ℚ) := by linarith
      exact_mod_cast this
    · intro h
      have : (Q : ℚ) < (2 : ℚ) * ((P % Q : Nat) : ℚ) := by exact_mod_cast h
      linarith
  have e3 : ((P / Q : Nat) : Int) % 2 = 0 ↔ (P / Q) % 2 = 0 := by omega
  simp only [e1, e2, e3]
  split_ifs <;> simp

theorem nearestEven_intCast (n : Int) : nearestEven (n : ℚ) = n := by
  simp [nearestEven]

theorem floor_le_nearestEven (x : ℚ) : ⌊x⌋ ≤ nearestEven x := by
  unfold nearestEven
  split_ifs <;> omega

theorem nearestEven_le_floor_add_one (x : ℚ) : nearestEven x ≤ ⌊x⌋ + 1 := by
  unfold nearestEven
  split_ifs <;> omega

theorem nearestEven_mono {x y : ℚ} (h : x ≤ y) : nearestEven x ≤ nearestEven y := by
  have hf : ⌊x⌋ ≤ ⌊y⌋ := Int.floor_le_floor h
  rcases lt_or_eq_of_le hf with hlt | heq
  · calc nearestEven x ≤ ⌊x⌋ + 1 := nearestEven_le_floor_add_one x
      _ ≤ ⌊y⌋ := hlt
      _ ≤ nearestEven y := floor_le_nearestEven y
  · have hfr : Int.fract x ≤ Int.fract y := by
      unfold Int.fract
      rw [heq]
      linarith
    unfold nearestEven
    rw [heq]
    split_ifs <;> first | omega | (exfalso; linarith)

theorem nearestEven_le_of_le {x : ℚ} {n : Int} (h : x ≤ (n : ℚ)) : nearestEven x ≤ n := by
  have := nearestEven_mono h
  rwa [nearestEven_intCast] at this

theorem le_nearestEven_of_le {x : ℚ} {n : Int} (h : (n : ℚ) ≤ x) : n ≤ nearestEven x := by
  have := nearestEven_mono h
  rwa [nearestEven_intCast] at this

theorem nearestEven_sub_le (x : ℚ) : |(nearestEven x : ℚ) - x| ≤ 1 / 2 := by
  have h1 : x = (⌊x⌋ : ℚ) + Int.fract x := (Int.floor_add_fract x).symm
  have h2 := Int.fract_nonneg x
  have h3 := Int.fract_lt_one x
  unfold nearestEven
  rw [abs_le]
  split_ifs <;> push_cast <;> constructor <;> linarith

theorem nearestEven_nonneg {x : ℚ} (h : 0 ≤ x) : 0 ≤ nearestEven x := by
  have : ((0 : Int) : ℚ) ≤ x := by simpa using h
  exact le_nearestEven_of_le this


theorem two_zpow_log_le {x : ℚ} (hx : 0 < x) : (2 : ℚ) ^ Int.log 2 x ≤ x := by
  have := Int.zpow_log_le_self (b := 2) (r := x) (by norm_num) hx
  simpa using this

theorem lt_two_zpow_log (x : ℚ) : x < (2 : ℚ) ^ (Int.log 2 x + 1) := by
  have := Int.lt_zpow_succ_log_self (b := 2) (by norm_num) x
  simpa using this

theorem log_eq_of_bounds {x : ℚ} {e : Int} (hx : 0 < x) (h1 : (2 : ℚ) ^ e ≤ x)
    (h2 : x < (2 : ℚ) ^ (e + 1)) : Int.log 2 x = e := by
  have a1 : e ≤ Int.log 2 x := by
    rw [← Int.zpow_le_iff_le_log (by norm_num) hx]
    simpa using h1
  have a2 : Int.log 2 x < e + 1 := by
    rw [← Int.lt_zpow_iff_log_lt (by norm_num) hx]
    simpa using h2
  omega

theorem two_zpow_pos (e : Int) : (0 : ℚ) < (2 : ℚ) ^ e := zpow_pos (by norm_num) e

theorem round53_zero : round53 0 = 0 := by simp [round53]

theorem round53_of_pos {x : ℚ} (hx : 0 < x) :
    round53 x =
      (nearestEven (x * (2 : ℚ) ^ (52 - Int.log 2 x)) : ℚ) * (2 : ℚ) ^ (Int.log 2 x - 52) := by
  simp [round53, ne_of_gt hx]

theorem scaled_bounds {x : ℚ} (hx : 0 < x) :
    ((2 ^ 52 : Int) : ℚ) ≤ x * (2 : ℚ) ^ (52 - Int.log 2 x) ∧
    x * (2 : ℚ) ^ (52 - Int.log 2 x) ≤ ((2 ^ 53 : Int) : ℚ) := by
  have h1 := two_zpow_log_le hx
  have h2 := le_of_lt (lt_two_zpow_log x)
  have hp := two_zpow_pos (52 - Int.log 2 x)
  have e1 : (2 : ℚ) ^ Int.log 2 x * (2 : ℚ) ^ (52 - Int.log 2 x) = ((2 ^ 52 : Int) : ℚ) := by
    rw [← zpow_add₀ (by norm_num : (2 : ℚ) ≠ 0)]
    have : Int.log 2 x + (52 - Int.log 2 x) = ((52 : Nat) : Int) := by omega
    rw [this, zpow_natCast]
    norm_num
  have e2 : (2 : ℚ) ^ (Int.log 2 x + 1) * (2 : ℚ) ^ (52 - Int.log 2 x) =
      ((2 ^ 53 : Int) : ℚ) := by
    rw [← zpow_add₀ (by norm_num : (2 : ℚ) ≠ 0)]
    have : Int.log 2 x + 1 + (52 - Int.log 2 x) = ((53 : Nat) : Int) := by omega
    rw [this, zpow_natCast]
    norm_num
  constructor
  · rw [← e1]
    exact mul_le_mul_of_nonneg_right h1 (le_of_lt hp)
  · rw [← e2]
    exact mul_le_mul_of_nonneg_right h2 (le_of_lt hp)

theorem round53_bounds {x : ℚ} (hx : 0 < x) :
    (2 : ℚ) ^ Int.log 2 x ≤ round53 x ∧ round53 x ≤ (2 : ℚ) ^ (Int.log 2 x + 1) := by
  obtain ⟨h1, h2⟩ := scaled_bounds hx
  have n1 := le_nearestEven_of_le h1
  have n2 := nearestEven_le_of_le h2
  have hp := two_zpow_pos (Int.log 2 x - 52)
  rw [round53_of_pos hx]
  have e1 : (2 : ℚ) ^ Int.log 2 x = ((2 ^ 52 : Int) : ℚ) * (2 : ℚ) ^ (Int.log 2 x - 52) := by
    have : ((2 ^ 52 : Int) : ℚ) = (2 : ℚ) ^ ((52 : Nat) : Int) := by
      rw [zpow_natCast]; norm_num
    rw [this, ← zpow_add₀ (by norm_num : (2 : ℚ) ≠ 0)]
    congr 1
    omega
  have e2 : (2 : ℚ) ^ (Int.log 2 x + 1) =
      ((2 ^ 53 : Int) : ℚ) * (2 : ℚ) ^ (Int.log 2 x - 52) := by
    have : ((2 ^ 53 : Int) : ℚ) = (2 : ℚ) ^ ((53 : Nat) : Int) := by
      rw [zpow_natCast]; norm_num
    rw [this, ← zpow_add₀ (by norm_num : (2 : ℚ) ≠ 0)]
    congr 1
    omega
  constructor
  · rw [e1]
    exact mul_le_mul_of_nonneg_right (by exact_mod_cast n1) (le_of_lt hp)
  · rw [e2]
    exact mul_le_mul_of_nonneg_right (by exact_mod_cast n2) (le_of_lt hp)

theorem round53_nonneg {x : ℚ} (hx : 0 ≤ x) : 0 ≤ round53 x := by
  rcases eq_or_lt_of_le hx with h0 | hpos
  · rw [← h0, round53_zero]
  · exact le_trans (le_of_lt (two_zpow_pos _)) (round53_bounds hpos).1

theorem round53_mono {x y : ℚ} (hx : 0 ≤ x) (h : x ≤ y) : round53 x ≤ round53 y := by
  rcases eq_or_lt_of_le hx with h0 | hpos
  · rw [← h0, round53_zero]
    exact round53_nonneg (le_trans hx h)
  · have hy : 0 < y := lt_of_lt_of_le hpos h
    have hl := Int.log_mono_right (b := 2) hpos h
    rcases lt_or_eq_of_le hl with hlt | heq
    · calc round53 x ≤ (2 : ℚ) ^ (Int.log 2 x + 1) := (round53_bounds hpos).2
        _ ≤ (2 : ℚ) ^ Int.log 2 y := zpow_le_zpow_right₀ (by norm_num) hlt
        _ ≤ round53 y := (round53_bounds hy).1
    · rw [round53_of_pos hpos, round53_of_pos hy, heq]
      have hp := two_zpow_pos (Int.log 2 y - 52)
      have hq := two_zpow_pos (52 - Int.log 2 y)
      have hm : x * (2 : ℚ) ^ (52 - Int.log 2 y) ≤ y * (2 : ℚ) ^ (52 - Int.log 2 y) :=
        mul_le_mul_of_nonneg_right h (le_of_lt hq)
      have := nearestEven_mono hm
      exact mul_le_mul_of_nonneg_right (by exact_mod_cast this) (le_of_lt hp)

/-- A number `n * 2 ^ k` with `n < 2 ^ 53` is a `float64`: rounding keeps it. -/
theorem round53_fix (n : Nat) (k : Int) (hn : n < 2 ^ 53) :
    round53 ((n : ℚ) * (2 : ℚ) ^ k) = (n : ℚ) * (2 : ℚ) ^ k := by
  rcases Nat.eq_zero_or_pos n with h0 | hpos
  · subst h0
    simp [round53_zero]
  · have hk := two_zpow_pos k
    have hnq : (0 : ℚ) < (n : ℚ) := by exact_mod_cast hpos
    have hx : (0 : ℚ) < (n : ℚ) * (2 : ℚ) ^ k := mul_pos hnq hk
    have hlog : Int.log 2 ((n : ℚ) * (2 : ℚ) ^ k) < 53 + k := by
      rw [← Int.lt_zpow_iff_log_lt (by norm_num) hx]
      have h53 : (n : ℚ) < (2 : ℚ) ^ (53 : Int) := by
        have : (n : ℚ) < ((2 ^ 53 : Nat) : ℚ) := by exact_mod_cast hn
        have e : (2 : ℚ) ^ (53 : Int) = ((2 ^ 53 : Nat) : ℚ) := by norm_num
        rw [e]; exact this
      have : (n : ℚ) * (2 : ℚ) ^ k < (2 : ℚ) ^ (53 : Int) * (2 : ℚ) ^ k :=
        mul_lt_mul_of_pos_right h53 hk
      rw [← zpow_add₀ (by norm_num : (2 : ℚ) ≠ 0)] at this
      simpa using this
    rw [round53_of_pos hx]
    set e := Int.log 2 ((n : ℚ) * (2 : ℚ) ^ k) with he
    obtain ⟨j, hj⟩ : ∃ j : Nat, (j : Int) = k + 52 - e := ⟨(k + 52 - e).toNat, by omega⟩
    have hM : (n : ℚ) * (2 : ℚ) ^ k * (2 : ℚ) ^ (52 - e) = (((n * 2 ^ j : Nat) : Int) : ℚ) := by
      rw [mul_assoc, ← zpow_add₀ (by norm_num : (2 : ℚ) ≠ 0)]
      have : k + (52 - e) = (j : Int) := by omega
      rw [this, zpow_natCast]
      push_cast
      ring
    rw [hM, nearestEven_intCast]
    push_cast
    rw [mul_assoc, ← zpow_natCast, ← zpow_add₀ (by norm_num : (2 : ℚ) ≠ 0)]
    congr 2
    omega


theorem bitLenAux_spec (fuel n : Nat) (h : n ≤ fuel) (hn : 0 < n) :
    2 ^ (bitLenAux fuel n - 1) ≤ n ∧ n < 2 ^ bitLenAux fuel n ∧ 0 < bitLenAux fuel n := by
  induction fuel generalizing n with
  | zero => omega
  | succ f ih =>
    have hn0 : n ≠ 0 := by omega
    simp only [bitLenAux, hn0, if_false]
    rcases Nat.eq_zero_or_pos (n / 2) with h2 | h2
    · have hn1 : n = 1 := by omega
      subst hn1
      cases f with
      | zero => simp [bitLenAux]
      | succ g => simp [bitLenAux]
    · have hle : n / 2 ≤ f := by omega
      obtain ⟨a, b, c⟩ := ih (n / 2) hle h2
      refine ⟨?_, ?_, by omega⟩
      · have : bitLenAux f (n / 2) + 1 - 1 = (bitLenAux f (n / 2) - 1) + 1 := by omega
        rw [this, pow_succ]
        omega
      · rw [pow_succ]
        omega

theorem bitLen_spec (n : Nat) (hn : 0 < n) :
    2 ^ (bitLen n - 1) ≤ n ∧ n < 2 ^ bitLen n ∧ 0 < bitLen n :=
  bitLenAux_spec n n (le_refl n) hn


theorem bitLen_rat (n : Nat) (hn : 0 < n) :
    (2 : ℚ) ^ ((bitLen n : Int) - 1) ≤ (n : ℚ) ∧ (n : ℚ) < (2 : ℚ) ^ (bitLen n : Int) := by
  obtain ⟨a, b, c⟩ := bitLen_spec n hn
  constructor
  · have : ((bitLen n : Int) - 1) = ((bitLen n - 1 : Nat) : Int) := by omega
    rw [this, zpow_natCast]
    exact_mod_cast a
  · rw [zpow_natCast]
    exact_mod_cast b

theorem binExp_bounds (p q : Nat) (hp : 0 < p) (hq : 0 < q) :
    (2 : ℚ) ^ binExp p q ≤ (p : ℚ) / (q : ℚ) ∧
    (p : ℚ) / (q : ℚ) < (2 : ℚ) ^ (binExp p q + 1) := by
  have hpq : (0 : ℚ) < (p : ℚ) := by exact_mod_cast hp
  have hqq : (0 : ℚ) < (q : ℚ) := by exact_mod_cast hq
  obtain ⟨p1, p2⟩ := bitLen_rat p hp
  obtain ⟨q1, q2⟩ := bitLen_rat q hq
  have two_ne : (2 : ℚ) ≠ 0 := by norm_num
  -- the ratio lies strictly between `2 ^ (e0 - 1)` and `2 ^ (e0 + 1)`
  have hup : (p : ℚ) / (q : ℚ) < (2 : ℚ) ^ ((bitLen p : Int) - (bitLen q : Int) + 1) := by
    rw [div_lt_iff₀ hqq]
    have e : (2 : ℚ) ^ ((bitLen p : Int) - (bitLen q : Int) + 1) =
        (2 : ℚ) ^ (bitLen p : Int) / (2 : ℚ) ^ ((bitLen q : Int) - 1) := by
      rw [← zpow_sub₀ two_ne]
      congr 1
      omega
    rw [e, div_mul_eq_mul_div, lt_div_iff₀ (two_zpow_pos _)]
    calc (p : ℚ) * (2 : ℚ) ^ ((bitLen q : Int) - 1)
        < (2 : ℚ) ^ (bitLen p : Int) * (2 : ℚ) ^ ((bitLen q : Int) - 1) :=
          mul_lt_mul_of_pos_right p2 (two_zpow_pos _)
      _ ≤ (2 : ℚ) ^ (bitLen p : Int) * (q : ℚ) :=
          mul_le_mul_of_nonneg_left q1 (le_of_lt (two_zpow_pos _))
  have hlo : (2 : ℚ) ^ ((bitLen p : Int) - (bitLen q : Int) - 1) ≤ (p : ℚ) / (q : ℚ) := by
    rw [le_div_iff₀ hqq]
    have e : (2 : ℚ) ^ ((bitLen p : Int) - (bitLen q : Int) - 1) =
        (2 : ℚ) ^ ((bitLen p : Int) - 1) / (2 : ℚ) ^ (bitLen q : Int) := by
      rw [← zpow_sub₀ two_ne]
      congr 1
      omega
    rw [e, div_mul_eq_mul_div, div_le_iff₀ (two_zpow_pos _)]
    calc (2 : ℚ) ^ ((bitLen p : Int) - 1) * (q : ℚ)
        ≤ (2 : ℚ) ^ ((bitLen p : Int) - 1) * (2 : ℚ) ^ (bitLen q : Int) :=
          mul_le_mul_of_nonneg_left (le_of_lt q2) (le_of_lt (two_zpow_pos _))
      _ ≤ (p : ℚ) * (2 : ℚ) ^ (bitLen q : Int) :=
          mul_le_mul_of_nonneg_right p1 (le_of_lt (two_zpow_pos _))
  -- the test of `binExp` compares the ratio with `2 ^ e0`
  have htest : binExp p q =
      if (2 : ℚ) ^ ((bitLen p : Int) - (bitLen q : Int)) ≤ (p : ℚ) / (q : ℚ)
      then (bitLen p : Int) - (bitLen q : Int)
      else (bitLen p : Int) - (bitLen q : Int) - 1 := by
    unfold binExp
    by_cases h0 : (0 : Int) ≤ (bitLen p : Int) - (bitLen q : Int)
    · simp only [h0, if_true]
      have hc : q * 2 ^ ((bitLen p : Int) - (bitLen q : Int)).toNat ≤ p ↔
          (2 : ℚ) ^ ((bitLen p : Int) - (bitLen q : Int)) ≤ (p : ℚ) / (q : ℚ) := by
        rw [le_div_iff₀ hqq]
        have e : (2 : ℚ) ^ ((bitLen p : Int) - (bitLen q : Int)) =
            (((2 : Nat) ^ ((bitLen p : Int) - (bitLen q : Int)).toNat : Nat) : ℚ) := by
          rw [← Int.toNat_of_nonneg h0, zpow_natCast]
          simp
        rw [e]
        constructor
        · intro h
          have : ((q * 2 ^ ((bitLen p : Int) - (bitLen q : Int)).toNat : Nat) : ℚ) ≤ (p : ℚ) := by
            exact_mod_cast h
          rw [mul_comm]
          exact_mod_cast this
        · intro h
          rw [mul_comm] at h
          exact_mod_cast h
      simp only [hc]
    · simp only [h0, if_false]
      have hneg : (0 : Int) ≤ -((bitLen p : Int) - (bitLen q : Int)) := by omega
      have hc : q ≤ p * 2 ^ (-((bitLen p : Int) - (bitLen q : Int))).toNat ↔
          (2 : ℚ) ^ ((bitLen p : Int) - (bitLen q : Int)) ≤ (p : ℚ) / (q : ℚ) := by
        rw [le_div_iff₀ hqq]
        have e : (2 : ℚ) ^ ((bitLen p : Int) - (bitLen q : Int)) =
            ((((2 : Nat) ^ (-((bitLen p : Int) - (bitLen q : Int))).toNat : Nat) : ℚ))⁻¹ := by
          have : (bitLen p : Int) - (bitLen q : Int) =
              -(((-((bitLen p : Int) - (bitLen q : Int))).toNat : Nat) : Int) := by
            rw [Int.toNat_of_nonneg hneg]; ring
          rw [this, zpow_neg, zpow_natCast]
          simp
        rw [e, inv_mul_le_iff₀ (by positivity)]
        constructor
        · intro h
          have : (q : ℚ) ≤ ((p * 2 ^ (-((bitLen p : Int) - (bitLen q : Int))).toNat : Nat) : ℚ) := by
            exact_mod_cast h
          rw [mul_comm]
          exact_mod_cast this
        · intro h
          rw [mul_comm] at h
          exact_mod_cast h
      simp only [hc]
  rw [htest]
  split_ifs with hc
  · exact ⟨hc, hup⟩
  · refine ⟨hlo, ?_⟩
    have : (bitLen p : Int) - (bitLen q : Int) - 1 + 1 = (bitLen p : Int) - (bitLen q : Int) := by
      ring
    rw [this]
    exact lt_of_not_ge hc

theorem binExp_eq_log (p q : Nat) (hp : 0 < p) (hq : 0 < q) :
    binExp p q = Int.log 2 ((p : ℚ) / (q : ℚ)) := by
  have hpq : (0 : ℚ) < (p : ℚ) := by exact_mod_cast hp
  have hqq : (0 : ℚ) < (q : ℚ) := by exact_mod_cast hq
  obtain ⟨h1, h2⟩ := binExp_bounds p q hp hq
  exact (log_eq_of_bounds (div_pos hpq hqq) h1 h2).symm


theorem natAbs_cast_rat (p : Int) (hp : 0 ≤ p) : ((p.natAbs : Nat) : ℚ) = (p : ℚ) := by
  have h : ((p.natAbs : Nat) : Int) = p := Int.natAbs_of_nonneg hp
  calc ((p.natAbs : Nat) : ℚ) = (((p.natAbs : Nat) : Int) : ℚ) := (Int.cast_natCast _).symm
    _ = (p : ℚ) := by rw [h]

theorem scaleDen_pos (q : Nat) (s : Int) (hq : 0 < q) : 0 < scaleDen q s := by
  unfold scaleDen
  split_ifs
  · exact hq
  · positivity

theorem scale_ratio (p q : Nat) (s : Int) (hq : 0 < q) :
    ((scaleNum p s : Nat) : ℚ) / ((scaleDen q s : Nat) : ℚ) =
      (p : ℚ) / (q : ℚ) * (2 : ℚ) ^ s := by
  have hqq : (0 : ℚ) < (q : ℚ) := by exact_mod_cast hq
  unfold scaleNum scaleDen
  by_cases h : 0 ≤ s
  · simp only [h, if_true]
    have e : (2 : ℚ) ^ s = (2 : ℚ) ^ s.toNat := by
      rw [← zpow_natCast, Int.toNat_of_nonneg h]
    rw [e]
    push_cast
    ring
  · simp only [h, if_false]
    have hneg : (0 : Int) ≤ -s := by omega
    have e : (2 : ℚ) ^ s = ((2 : ℚ) ^ (-s).toNat)⁻¹ := by
      rw [← zpow_natCast, Int.toNat_of_nonneg hneg, zpow_neg, inv_inv]
    rw [e]
    push_cast
    field_simp

theorem roundPos_toRat (p q : Nat) (hq : 0 < q) :
    (roundPos p q).toRat = round53 ((p : ℚ) / (q : ℚ)) := by
  rcases Nat.eq_zero_or_pos p with h0 | hp
  · subst h0
    simp [roundPos, F64.toRat, round53_zero]
  · have hpq : (0 : ℚ) < (p : ℚ) := by exact_mod_cast hp
    have hqq : (0 : ℚ) < (q : ℚ) := by exact_mod_cast hq
    have hne : p ≠ 0 := by omega
    rw [round53_of_pos (div_pos hpq hqq), ← binExp_eq_log p q hp hq]
    simp only [roundPos, hne, if_false, F64.toRat]
    have h1 := roundHalfEven_eq (scaleNum p (52 - binExp p q)) (scaleDen q (52 - binExp p q))
      (scaleDen_pos q _ hq)
    rw [scale_ratio p q _ hq] at h1
    rw [← h1]

theorem roundPos_man_nonneg (p q : Nat) : 0 ≤ (roundPos p q).man := by
  unfold roundPos
  split_ifs
  · simp
  · simp

theorem roundRatio_toRat (p : Int) (q : Nat) (hp : 0 ≤ p) (hq : 0 < q) :
    (roundRatio p q).toRat = round53 ((p : ℚ) / (q : ℚ)) := by
  have hlt : ¬ p < 0 := by omega
  simp only [roundRatio, hlt, if_false]
  rw [roundPos_toRat p.natAbs q hq]
  rw [natAbs_cast_rat p hp]

theorem roundRatio_man_nonneg (p : Int) (q : Nat) (hp : 0 ≤ p) : 0 ≤ (roundRatio p q).man := by
  have hlt : ¬ p < 0 := by omega
  simp only [roundRatio, hlt, if_false]
  exact roundPos_man_nonneg _ _

namespace F64

theorem den_pos (x : F64) : 0 < x.den := by
  unfold den
  split_ifs
  · exact Nat.one_pos
  · positivity

theorem toRat_eq (x : F64) : x.toRat = (x.num : ℚ) / (x.den : ℚ) := by
  unfold toRat num den
  by_cases h : 0 ≤ x.exp
  · simp only [h, if_true]
    have e : (2 : ℚ) ^ x.exp = (2 : ℚ) ^ x.exp.toNat := by
      rw [← zpow_natCast, Int.toNat_of_nonneg h]
    rw [e]
    push_cast
    ring
  · simp only [h, if_false]
    have hneg : (0 : Int) ≤ -x.exp := by omega
    have e : (2 : ℚ) ^ x.exp = ((2 : ℚ) ^ (-x.exp).toNat)⁻¹ := by
      rw [← zpow_natCast, Int.toNat_of_nonneg hneg, zpow_neg, inv_inv]
    rw [e]
    push_cast
    ring

theorem num_nonneg (x : F64) (h : 0 ≤ x.man) : 0 ≤ x.num := by
  unfold num
  split_ifs
  · positivity
  · exact h

theorem toRat_nonneg (x : F64) (h : 0 ≤ x.man) : 0 ≤ x.toRat := by
  unfold toRat
  have : (0 : ℚ) ≤ (x.man : ℚ) := by exact_mod_cast h
  exact mul_nonneg this (le_of_lt (two_zpow_pos _))

theorem ofInt_toRat (n : Int) (hn : 0 ≤ n) : (ofInt n).toRat = round53 (n : ℚ) := by
  unfold ofInt
  rw [roundRatio_toRat n 1 hn Nat.one_pos]
  simp

theorem ofInt_man_nonneg (n : Int) (hn : 0 ≤ n) : 0 ≤ (ofInt n).man :=
  roundRatio_man_nonneg n 1 hn

theorem add_toRat (a b : F64) (ha : 0 ≤ a.man) (hb : 0 ≤ b.man) :
    (add a b).toRat = round53 (a.toRat + b.toRat) := by
  unfold add
  have hda := den_pos a
  have hdb := den_pos b
  have hna := num_nonneg a ha
  have hnb := num_nonneg b hb
  have hnum : 0 ≤ a.num * (b.den : Int) + b.num * (a.den : Int) := by positivity
  rw [roundRatio_toRat _ _ hnum (Nat.mul_pos hda hdb), toRat_eq a, toRat_eq b]
  have h1 : (0 : ℚ) < (a.den : ℚ) := by exact_mod_cast hda
  have h2 : (0 : ℚ) < (b.den : ℚ) := by exact_mod_cast hdb
  congr 1
  push_cast
  field_simp

theorem add_man_nonneg (a b : F64) (ha : 0 ≤ a.man) (hb : 0 ≤ b.man) :
    0 ≤ (add a b).man := by
  unfold add
  apply roundRatio_man_nonneg
  have hna := num_nonneg a ha
  have hnb := num_nonneg b hb
  positivity

theorem div_toRat (a b : F64) (ha : 0 ≤ a.man) (hb : 0 < b.num) :
    (div a b).toRat = round53 (a.toRat / b.toRat) := by
  unfold div
  have hda := den_pos a
  have hdb := den_pos b
  have hna := num_nonneg a ha
  have hs : b.num.sign = 1 := Int.sign_eq_one_of_pos hb
  have hnat : 0 < b.num.natAbs := Int.natAbs_pos.mpr (ne_of_gt hb)
  have hnum : 0 ≤ a.num * (b.den : Int) * b.num.sign := by
    rw [hs]; positivity
  rw [roundRatio_toRat _ _ hnum (Nat.mul_pos hda hnat), toRat_eq a, toRat_eq b, hs]
  have h1 : (0 : ℚ) < (a.den : ℚ) := by exact_mod_cast hda
  have h2 : (0 : ℚ) < (b.den : ℚ) := by exact_mod_cast hdb
  have h3 : (0 : ℚ) < (b.num : ℚ) := by exact_mod_cast hb
  have h4 : ((b.num.natAbs : Nat) : ℚ) = (b.num : ℚ) := natAbs_cast_rat _ (le_of_lt hb)
  congr 1
  push_cast
  rw [h4]
  field_simp

theorem div_man_nonneg (a b : F64) (ha : 0 ≤ a.man) (hb : 0 < b.num) :
    0 ≤ (div a b).man := by
  unfold div
  apply roundRatio_man_nonneg
  have hna := num_nonneg a ha
  rw [Int.sign_eq_one_of_pos hb]
  positivity

theorem lt_iff (a b : F64) : lt a b = true ↔ a.toRat < b.toRat := by
  unfold lt
  rw [decide_eq_true_iff, toRat_eq a, toRat_eq b]
  have h1 : (0 : ℚ) < (a.den : ℚ) := by exact_mod_cast den_pos a
  have h2 : (0 : ℚ) < (b.den : ℚ) := by exact_mod_cast den_pos b
  rw [div_lt_div_iff₀ h1 h2]
  constructor
  · intro h
    exact_mod_cast h
  · intro h
    exact_mod_cast h

theorem format0_eq (x : F64) (h : 0 ≤ x.man) :
    format0 x = toString (nearestEven x.toRat).toNat := by
  have hlt : ¬ x.man < 0 := by omega
  have hn := num_nonneg x h
  unfold format0
  simp only [hlt, if_false]
  have e := roundHalfEven_eq x.num.natAbs x.den (den_pos x)
  have h4 : ((x.num.natAbs : Nat) : ℚ) = (x.num : ℚ) := natAbs_cast_rat _ hn
  rw [h4, ← toRat_eq] at e
  rw [← e]
  simp

end F64


theorem round53_le_of_le {x : ℚ} (n : Nat) (k : Int) (hn : n < 2 ^ 53) (hx : 0 ≤ x)
    (h : x ≤ (n : ℚ) * (2 : ℚ) ^ k) : round53 x ≤ (n : ℚ) * (2 : ℚ) ^ k := by
  have := round53_mono hx h
  rwa [round53_fix n k hn] at this

theorem le_round53_of_le {x : ℚ} (n : Nat) (k : Int) (hn : n < 2 ^ 53)
    (h : (n : ℚ) * (2 : ℚ) ^ k ≤ x) : (n : ℚ) * (2 : ℚ) ^ k ≤ round53 x := by
  have h0 : (0 : ℚ) ≤ (n : ℚ) * (2 : ℚ) ^ k :=
    mul_nonneg (by positivity) (le_of_lt (two_zpow_pos k))
  have := round53_mono h0 h
  rwa [round53_fix n k hn] at this

theorem round53_natCast (n : Nat) (hn : n < 2 ^ 53) : round53 (n : ℚ) = (n : ℚ) := by
  have := round53_fix n 0 hn
  simpa using this

theorem nearestEven_of_lt_half {y : ℚ} (k : Int) (h1 : (k : ℚ) ≤ y) (h2 : y < (k : ℚ) + 1 / 2) :
    nearestEven y = k := by
  have hf : ⌊y⌋ = k := by
    rw [Int.floor_eq_iff]
    constructor
    · exact h1
    · linarith
  have hfr : Int.fract y < 1 / 2 := by
    unfold Int.fract
    rw [hf]
    linarith
  unfold nearestEven
  rw [if_pos hfr, hf]

theorem nearestEven_of_gt_half {y : ℚ} (k : Int) (h1 : (k : ℚ) + 1 / 2 < y)
    (h2 : y ≤ (k : ℚ) + 1) : nearestEven y = k + 1 := by
  rcases eq_or_lt_of_le h2 with heq | hlt
  · rw [heq]
    have : (k : ℚ) + 1 = ((k + 1 : Int) : ℚ) := by push_cast; ring
    rw [this, nearestEven_intCast]
  · have hf : ⌊y⌋ = k := by
      rw [Int.floor_eq_iff]
      constructor
      · linarith
      · exact hlt
    have hfr : 1 / 2 < Int.fract y := by
      unfold Int.fract
      rw [hf]
      linarith
    have hfr' : ¬ Int.fract y < 1 / 2 := by linarith
    unfold nearestEven
    rw [if_neg hfr', if_pos hfr, hf]

/-- Bounds on the float sum `a + s / U` of a whole part and a fraction. -/
theorem floatSum_bounds (a s U t : Nat) (hU : 0 < U) (hs : s + 1 ≤ U) (hUt : U ≤ 2 ^ t)
    (hrep : (a + 1) * 2 ^ t ≤ 2 ^ 53) :
    (a : ℚ) ≤ round53 ((a : ℚ) + round53 ((s : ℚ) / (U : ℚ))) ∧
    round53 ((a : ℚ) + round53 ((s : ℚ) / (U : ℚ))) ≤
      (a : ℚ) + 1 - (2 : ℚ) ^ (-(t : Int)) := by
  have hUq : (0 : ℚ) < (U : ℚ) := by exact_mod_cast hU
  have htpos : (0 : ℚ) < (2 : ℚ) ^ (t : Int) := two_zpow_pos _
  have ht1 : (1 : Nat) ≤ 2 ^ t := Nat.one_le_two_pow
  have hinv : (2 : ℚ) ^ (-(t : Int)) * (2 : ℚ) ^ (t : Int) = 1 := by
    rw [← zpow_add₀ (by norm_num : (2 : ℚ) ≠ 0)]
    simp
  have hsq : (s : ℚ) + 1 ≤ (U : ℚ) := by exact_mod_cast hs
  have hUtq : (U : ℚ) ≤ (2 : ℚ) ^ (t : Int) := by
    rw [zpow_natCast]
    exact_mod_cast hUt
  have hfrac0 : (0 : ℚ) ≤ (s : ℚ) / (U : ℚ) := by positivity
  -- the fraction is at most `1 - 2 ^ (-t)`
  have hfrac : (s : ℚ) / (U : ℚ) ≤ ((2 ^ t - 1 : Nat) : ℚ) * (2 : ℚ) ^ (-(t : Int)) := by
    have e : ((2 ^ t - 1 : Nat) : ℚ) = (2 : ℚ) ^ (t : Int) - 1 := by
      rw [Nat.cast_sub ht1, zpow_natCast]
      push_cast
      ring
    rw [e, sub_mul, mul_comm ((2 : ℚ) ^ (t : Int)), hinv, one_mul, div_le_iff₀ hUq]
    have hle : (2 : ℚ) ^ (-(t : Int)) * (U : ℚ) ≤ 1 := by
      calc (2 : ℚ) ^ (-(t : Int)) * (U : ℚ)
          ≤ (2 : ℚ) ^ (-(t : Int)) * (2 : ℚ) ^ (t : Int) :=
            mul_le_mul_of_nonneg_left hUtq (le_of_lt (two_zpow_pos _))
        _ = 1 := hinv
    have hge : (1 : ℚ) ≤ (2 : ℚ) ^ (-(t : Int)) * (2 : ℚ) ^ (t : Int) := le_of_eq hinv.symm
    nlinarith [two_zpow_pos (-(t : Int))]
  have hn1 : 2 ^ t - 1 < 2 ^ 53 := by
    have : 2 ^ t ≤ (a + 1) * 2 ^ t := Nat.le_mul_of_pos_left _ (by omega)
    omega
  have hg := round53_le_of_le (2 ^ t - 1) (-(t : Int)) hn1 hfrac0 hfrac
  have hg0 := round53_nonneg hfrac0
  have ha : a < 2 ^ 53 := by
    have : a * 2 ^ t + 2 ^ t ≤ 2 ^ 53 := by
      have := hrep
      rw [Nat.add_mul, one_mul] at this
      exact this
    have : a ≤ a * 2 ^ t := Nat.le_mul_of_pos_right _ (by omega)
    omega
  constructor
  · have := le_round53_of_le (x := (a : ℚ) + round53 ((s : ℚ) / (U : ℚ))) a 0 ha
      (by simp only [zpow_zero, mul_one]; linarith)
    simpa using this
  · have hn2 : (a + 1) * 2 ^ t - 1 < 2 ^ 53 := by
      have : 0 < (a + 1) * 2 ^ t := Nat.mul_pos (by omega) (by omega)
      omega
    have e2 : (((a + 1) * 2 ^ t - 1 : Nat) : ℚ) * (2 : ℚ) ^ (-(t : Int)) =
        (a : ℚ) + 1 - (2 : ℚ) ^ (-(t : Int)) := by
      have hpos : 1 ≤ (a + 1) * 2 ^ t := Nat.mul_pos (by omega) (by omega)
      rw [Nat.cast_sub hpos]
      push_cast
      rw [sub_mul, mul_assoc, ← zpow_natCast, mul_comm ((2 : ℚ) ^ (t : Int)), hinv]
      ring
    have e1 : ((2 ^ t - 1 : Nat) : ℚ) * (2 : ℚ) ^ (-(t : Int)) = 1 - (2 : ℚ) ^ (-(t : Int)) := by
      rw [Nat.cast_sub ht1]
      push_cast
      rw [sub_mul, ← zpow_natCast, mul_comm ((2 : ℚ) ^ (t : Int)), hinv]
      ring
    rw [e1] at hg
    have hsum0 : (0 : ℚ) ≤ (a : ℚ) + round53 ((s : ℚ) / (U : ℚ)) := by positivity
    have := round53_le_of_le (x := (a : ℚ) + round53 ((s : ℚ) / (U : ℚ)))
      ((a + 1) * 2 ^ t - 1) (-(t : Int)) hn2 hsum0 (by rw [e2]; linarith)
    rwa [e2] at this


/-- The float sum `a + s / (2 * V)` rounds to the same integer as the exact
sum: the fraction is either one half or at least `2 ^ (-t)` away from it. -/
theorem floatSum_nearest (a s V u : Nat) (hV : 0 < V) (hs : s + 1 ≤ 2 * V)
    (hUt : 2 * V ≤ 2 ^ (u + 1)) (hrep : (a + 1) * 2 ^ (u + 1) ≤ 2 ^ 53) :
    nearestEven (round53 ((a : ℚ) + round53 ((s : ℚ) / ((2 * V : Nat) : ℚ)))) =
      nearestEven ((a : ℚ) + (s : ℚ) / ((2 * V : Nat) : ℚ)) := by
  obtain ⟨hlo, hhi⟩ := floatSum_bounds a s (2 * V) (u + 1) (by omega) hs hUt hrep
  set U : ℚ := ((2 * V : Nat) : ℚ) with hUdef
  have hVq : (0 : ℚ) < (V : ℚ) := by exact_mod_cast hV
  have hUq : (0 : ℚ) < U := by rw [hUdef]; push_cast; linarith
  have hU2 : U = 2 * (V : ℚ) := by rw [hUdef]; push_cast; ring
  have hinv : (2 : ℚ) ^ (-((u + 1 : Nat) : Int)) * (2 : ℚ) ^ ((u + 1 : Nat) : Int) = 1 := by
    rw [← zpow_add₀ (by norm_num : (2 : ℚ) ≠ 0)]
    have : -((u + 1 : Nat) : Int) + ((u + 1 : Nat) : Int) = 0 := by omega
    rw [this, zpow_zero]
  have hpow : (2 : ℚ) ^ ((u + 1 : Nat) : Int) = 2 * (2 : ℚ) ^ u := by
    rw [zpow_natCast, pow_succ]; ring
  set ε : ℚ := (2 : ℚ) ^ (-((u + 1 : Nat) : Int)) with hε
  have hεpos : 0 < ε := two_zpow_pos _
  have hupos : (0 : ℚ) < (2 : ℚ) ^ u := by positivity
  have hεu : ε * (2 : ℚ) ^ u = 1 / 2 := by
    have : ε * (2 * (2 : ℚ) ^ u) = 1 := by rw [← hpow]; exact hinv
    linarith
  have hUle : U ≤ 2 * (2 : ℚ) ^ u := by
    rw [← hpow, zpow_natCast, hUdef]
    exact_mod_cast hUt
  -- `1 / U` is at least `ε`
  have hεU : ε * U ≤ 1 := by
    calc ε * U ≤ ε * (2 * (2 : ℚ) ^ u) := mul_le_mul_of_nonneg_left hUle (le_of_lt hεpos)
      _ = 1 := by rw [← hpow]; exact hinv
  have hpu : 1 ≤ 2 ^ u := Nat.one_le_two_pow
  have hrep' : a * 2 ^ (u + 1) + 2 ^ (u + 1) ≤ 2 ^ 53 := by
    have := hrep
    rw [Nat.add_mul, one_mul] at this
    exact this
  have hp1 : 2 ^ (u + 1) = 2 * 2 ^ u := by rw [pow_succ]; ring
  have hfrac0 : (0 : ℚ) ≤ (s : ℚ) / U := by positivity
  have ha0 : (0 : ℚ) ≤ (a : ℚ) := by positivity
  rcases Nat.lt_trichotomy s V with hlt | heq | hgt
  · -- below one half
    have hsq : (s : ℚ) + 1 ≤ (V : ℚ) := by exact_mod_cast hlt
    have hfrac : (s : ℚ) / U ≤ ((2 ^ u - 1 : Nat) : ℚ) * ε := by
      rw [Nat.cast_sub hpu]
      push_cast
      rw [sub_mul, mul_comm ((2 : ℚ) ^ u), hεu, div_le_iff₀ hUq]
      nlinarith
    have hn1 : 2 ^ u - 1 < 2 ^ 53 := by omega
    have hg := round53_le_of_le (2 ^ u - 1) _ hn1 hfrac0 hfrac
    have hg0 := round53_nonneg hfrac0
    have e1 : ((2 ^ u - 1 : Nat) : ℚ) * ε = 1 / 2 - ε := by
      rw [Nat.cast_sub hpu]
      push_cast
      rw [sub_mul, mul_comm ((2 : ℚ) ^ u), hεu]
      ring
    have hn2 : a * 2 ^ (u + 1) + 2 ^ u - 1 < 2 ^ 53 := by omega
    have e2 : ((a * 2 ^ (u + 1) + 2 ^ u - 1 : Nat) : ℚ) * ε = (a : ℚ) + 1 / 2 - ε := by
      have : 1 ≤ a * 2 ^ (u + 1) + 2 ^ u := by omega
      rw [Nat.cast_sub this]
      push_cast
      rw [sub_mul, add_mul, mul_comm ((2 : ℚ) ^ u) ε, hεu, mul_assoc, mul_comm _ ε]
      have : ε * (2 : ℚ) ^ (u + 1) = 1 := by
        rw [← zpow_natCast]; exact hinv
      rw [this]
      ring
    have hsum0 : (0 : ℚ) ≤ (a : ℚ) + round53 ((s : ℚ) / U) := by positivity
    have hF := round53_le_of_le (x := (a : ℚ) + round53 ((s : ℚ) / U))
      (a * 2 ^ (u + 1) + 2 ^ u - 1) _ hn2 hsum0 (by rw [e2]; rw [e1] at hg; linarith)
    rw [e2] at hF
    have r1 := nearestEven_of_lt_half (y := round53 ((a : ℚ) + round53 ((s : ℚ) / U)))
      (a : Int) (by exact_mod_cast hlo) (by push_cast; linarith)
    have hx : (s : ℚ) / U < 1 / 2 := by
      rw [div_lt_iff₀ hUq]
      linarith
    have r2 := nearestEven_of_lt_half (y := (a : ℚ) + (s : ℚ) / U)
      (a : Int) (by push_cast; linarith) (by push_cast; linarith)
    rw [r1, r2]
  · -- exactly one half
    subst heq
    have hhalf : (s : ℚ) / U = 1 / 2 := by
      rw [hU2]
      field_simp
      ring
    have hr : round53 ((1 : ℚ) / 2) = 1 / 2 := by
      have := round53_fix 1 (-1) (by norm_num)
      simpa using this
    have hn3 : 2 * a + 1 < 2 ^ 53 := by
      have h1 : a * 2 ^ (u + 1) = 2 * (a * 2 ^ u) := by rw [hp1]; ring
      have h2 : a ≤ a * 2 ^ u := Nat.le_mul_of_pos_right _ (by omega)
      omega
    have hr2 : round53 ((a : ℚ) + 1 / 2) = (a : ℚ) + 1 / 2 := by
      have := round53_fix (2 * a + 1) (-1) hn3
      have e : ((2 * a + 1 : Nat) : ℚ) * (2 : ℚ) ^ (-1 : Int) = (a : ℚ) + 1 / 2 := by
        push_cast
        rw [zpow_neg_one]
        ring
      rwa [e] at this
    rw [hhalf, hr, hr2]
  · -- above one half
    have hsq : (V : ℚ) + 1 ≤ (s : ℚ) := by exact_mod_cast hgt
    have e1 : ((2 ^ u + 1 : Nat) : ℚ) * ε = 1 / 2 + ε := by
      push_cast
      rw [add_mul, mul_comm ((2 : ℚ) ^ u), hεu]
      ring
    have hfrac : ((2 ^ u + 1 : Nat) : ℚ) * ε ≤ (s : ℚ) / U := by
      rw [e1, le_div_iff₀ hUq]
      nlinarith
    have hn1 : 2 ^ u + 1 < 2 ^ 53 := by omega
    have hg := le_round53_of_le (2 ^ u + 1) _ hn1 hfrac
    rw [e1] at hg
    have hn2 : a * 2 ^ (u + 1) + 2 ^ u + 1 < 2 ^ 53 := by omega
    have e2 : ((a * 2 ^ (u + 1) + 2 ^ u + 1 : Nat) : ℚ) * ε = (a : ℚ) + 1 / 2 + ε := by
      push_cast
      rw [add_mul, add_mul, mul_comm ((2 : ℚ) ^ u) ε, hεu, mul_assoc, mul_comm _ ε]
      have : ε * (2 : ℚ) ^ (u + 1) = 1 := by
        rw [← zpow_natCast]; exact hinv
      rw [this]
      ring
    have hF := le_round53_of_le (x := (a : ℚ) + round53 ((s : ℚ) / U))
      (a * 2 ^ (u + 1) + 2 ^ u + 1) _ hn2 (by rw [e2]; linarith)
    rw [e2] at hF
    have r1 := nearestEven_of_gt_half (y := round53 ((a : ℚ) + round53 ((s : ℚ) / U)))
      (a : Int) (by push_cast; linarith) (by push_cast; linarith)
    have hx : 1 / 2 < (s : ℚ) / U := by
      rw [lt_div_iff₀ hUq]
      linarith
    have hx1 : (s : ℚ) / U ≤ 1 := by
      rw [div_le_iff₀ hUq, hUdef]
      have : s ≤ 2 * V := by omega
      have : (s : ℚ) ≤ ((2 * V : Nat) : ℚ) := by exact_mod_cast this
      linarith
    have r2 := nearestEven_of_gt_half (y := (a : ℚ) + (s : ℚ) / U)
      (a : Int) (by push_cast; linarith) (by push_cast; linarith)
    rw [r1, r2]


theorem F64.num_pos_of_toRat_pos (x : F64) (h : 0 < x.toRat) : 0 < x.num := by
  rw [F64.toRat_eq] at h
  have hd : (0 : ℚ) < (x.den : ℚ) := by exact_mod_cast F64.den_pos x
  have : (0 : ℚ) < (x.num : ℚ) := by
    by_contra hc
    have hle : (x.num : ℚ) ≤ 0 := le_of_not_lt hc
    have := div_nonpos_of_nonpos_of_nonneg hle (le_of_lt hd)
    linarith
  exact_mod_cast this

theorem F64.ofNat_toRat (n : Nat) (hn : n < 2 ^ 53) :
    (F64.ofInt (n : Int)).toRat = (n : ℚ) := by
  rw [F64.ofInt_toRat _ (Int.natCast_nonneg n)]
  have := round53_natCast n hn
  simpa using this

theorem tdiv_natCast (D U : Nat) : Int.tdiv (D : Int) (U : Int) = ((D / U : Nat) : Int) := by
  rw [Int.tdiv_eq_ediv (Int.natCast_nonneg D) (Int.natCast_nonneg U)]
  exact (Int.natCast_div D U).symm

theorem tmod_natCast (D U : Nat) : Int.tmod (D : Int) (U : Int) = ((D % U : Nat) : Int) := by
  rw [Int.tmod_eq_emod (Int.natCast_nonneg D) (Int.natCast_nonneg U)]
  exact (Int.natCast_mod D U).symm

/-- Value of `float64(d / U) + float64(d % U) / float64(U)`. -/
theorem floatParts_toRat (U D : Nat) (hU : 0 < U) (hU53 : U < 2 ^ 53)
    (hq : D / U < 2 ^ 53) :
    (F64.add (F64.ofInt (Int.tdiv (D : Int) (U : Int)))
        (F64.div (F64.ofInt (Int.tmod (D : Int) (U : Int))) (F64.ofInt (U : Int)))).toRat =
      round53 (((D / U : Nat) : ℚ) + round53 (((D % U : Nat) : ℚ) / (U : ℚ))) ∧
    0 ≤ (F64.add (F64.ofInt (Int.tdiv (D : Int) (U : Int)))
        (F64.div (F64.ofInt (Int.tmod (D : Int) (U : Int))) (F64.ofInt (U : Int)))).man := by
  rw [tdiv_natCast, tmod_natCast]
  have hm : D % U < 2 ^ 53 := lt_trans (Nat.mod_lt D hU) hU53
  have h1 := F64.ofInt_man_nonneg ((D / U : Nat) : Int) (Int.natCast_nonneg _)
  have h2 := F64.ofInt_man_nonneg ((D % U : Nat) : Int) (Int.natCast_nonneg _)
  have hUr : (F64.ofInt (U : Int)).toRat = (U : ℚ) := F64.ofNat_toRat U hU53
  have hUpos : 0 < (F64.ofInt (U : Int)).num := by
    apply F64.num_pos_of_toRat_pos
    rw [hUr]
    exact_mod_cast hU
  have h3 := F64.div_man_nonneg _ _ h2 hUpos
  refine ⟨?_, F64.add_man_nonneg _ _ h1 h3⟩
  rw [F64.add_toRat _ _ h1 h3, F64.div_toRat _ _ h2 hUpos, hUr,
    F64.ofNat_toRat _ hq, F64.ofNat_toRat _ hm]

theorem floatSum_lower (a : Nat) (g : ℚ) (ha : a < 2 ^ 53) (hg : 0 ≤ g) :
    (a : ℚ) ≤ round53 ((a : ℚ) + g) := by
  have := le_round53_of_le (x := (a : ℚ) + g) a 0 ha
    (by simp only [zpow_zero, mul_one]; linarith)
  simpa using this

theorem round53_frac_le_one (s U : Nat) (hU : 0 < U) (hs : s ≤ U) :
    round53 ((s : ℚ) / (U : ℚ)) ≤ 1 := by
  have hUq : (0 : ℚ) < (U : ℚ) := by exact_mod_cast hU
  have h0 : (0 : ℚ) ≤ (s : ℚ) / (U : ℚ) := by positivity
  have h1 : (s : ℚ) / (U : ℚ) ≤ ((1 : Nat) : ℚ) * (2 : ℚ) ^ (0 : Int) := by
    rw [div_le_iff₀ hUq]
    have : (s : ℚ) ≤ (U : ℚ) := by exact_mod_cast hs
    simpa using this
  have := round53_le_of_le 1 0 (by norm_num) h0 h1
  simpa using this

theorem floatSum_upper (a s U : Nat) (ha : a + 1 < 2 ^ 53) (hU : 0 < U) (hs : s ≤ U) :
    round53 ((a : ℚ) + round53 ((s : ℚ) / (U : ℚ))) ≤ (a : ℚ) + 1 := by
  have hg := round53_frac_le_one s U hU hs
  have hUq : (0 : ℚ) < (U : ℚ) := by exact_mod_cast hU
  have hg0 : (0 : ℚ) ≤ round53 ((s : ℚ) / (U : ℚ)) := round53_nonneg (by positivity)
  have h0 : (0 : ℚ) ≤ (a : ℚ) + round53 ((s : ℚ) / (U : ℚ)) := by positivity
  have := round53_le_of_le (x := (a : ℚ) + round53 ((s : ℚ) / (U : ℚ))) (a + 1) 0 ha h0
    (by push_cast; simp only [zpow_zero, mul_one]; linarith)
  simpa using this

/-- The float sum of the parts of `D` grows with `D`. -/
theorem floatSum_mono (U D1 D2 : Nat) (hU : 0 < U) (h : D1 ≤ D2) :
    round53 (((D1 / U : Nat) : ℚ) + round53 (((D1 % U : Nat) : ℚ) / (U : ℚ))) ≤
      round53 (((D2 / U : Nat) : ℚ) + round53 (((D2 % U : Nat) : ℚ) / (U : ℚ))) := by
  have hUq : (0 : ℚ) < (U : ℚ) := by exact_mod_cast hU
  have hg1 : (0 : ℚ) ≤ round53 (((D1 % U : Nat) : ℚ) / (U : ℚ)) :=
    round53_nonneg (by positivity)
  have hg2 : (0 : ℚ) ≤ round53 (((D2 % U : Nat) : ℚ) / (U : ℚ)) :=
    round53_nonneg (by positivity)
  apply round53_mono (by positivity)
  have hdiv : D1 / U ≤ D2 / U := Nat.div_le_div_right h
  rcases lt_or_eq_of_le hdiv with hlt | heq
  · have h1 := round53_frac_le_one (D1 % U) U hU (le_of_lt (Nat.mod_lt D1 hU))
    have : ((D1 / U : Nat) : ℚ) + 1 ≤ ((D2 / U : Nat) : ℚ) := by exact_mod_cast hlt
    linarith
  · have hmod : D1 % U ≤ D2 % U := by
      have e1 := Nat.div_add_mod D1 U
      have e2 := Nat.div_add_mod D2 U
      rw [heq] at e1
      omega
    have : ((D1 % U : Nat) : ℚ) / (U : ℚ) ≤ ((D2 % U : Nat) : ℚ) / (U : ℚ) := by
      apply div_le_div_of_nonneg_right _ (le_of_lt hUq)
      exact_mod_cast hmod
    have := round53_mono (by positivity) this
    rw [heq]
    linarith


theorem durationHours_toRat (D : Nat) (hD : D < 2 ^ 63) :
    (durationHours (D : Int)).toRat = hoursValue D ∧ 0 ≤ (durationHours (D : Int)).man := by
  have e : (60 * 60 * 1000000000 : Int) = ((3600000000000 : Nat) : Int) := by norm_num
  have e2 : Hour = ((3600000000000 : Nat) : Int) := by
    unfold Hour Minute
    norm_num
  unfold durationHours hoursValue
  rw [e, e2]
  exact floatParts_toRat 3600000000000 D (by norm_num) (by norm_num) (by omega)

theorem durationMinutes_toRat (D : Nat) (hD : D < 2 ^ 63) :
    (durationMinutes (D : Int)).toRat = minutesValue D ∧
    0 ≤ (durationMinutes (D : Int)).man := by
  have e : (60 * 1000000000 : Int) = ((60000000000 : Nat) : Int) := by norm_num
  have e2 : Minute = ((60000000000 : Nat) : Int) := by
    unfold Minute
    norm_num
  unfold durationMinutes minutesValue
  rw [e, e2]
  exact floatParts_toRat 60000000000 D (by norm_num) (by norm_num) (by omega)

theorem hoursValue_lt_one_iff (D : Nat) (hD : D < 2 ^ 63) :
    hoursValue D < 1 ↔ D < 3600000000000 := by
  constructor
  · intro h
    by_contra hc
    have h1 : 1 ≤ D / 3600000000000 := by omega
    have hg : (0 : ℚ) ≤ round53 (((D % 3600000000000 : Nat) : ℚ) / ((3600000000000 : Nat) : ℚ)) :=
      round53_nonneg (by positivity)
    have := floatSum_lower (D / 3600000000000) _ (by omega) hg
    have h2 : (1 : ℚ) ≤ ((D / 3600000000000 : Nat) : ℚ) := by exact_mod_cast h1
    unfold hoursValue at h
    linarith
  · intro h
    have hb := (floatSum_bounds (D / 3600000000000) (D % 3600000000000) 3600000000000 42
      (by norm_num) (by omega) (by norm_num) (by
        have : D / 3600000000000 = 0 := by omega
        rw [this]; norm_num)).2
    have h0 : D / 3600000000000 = 0 := by omega
    unfold hoursValue
    rw [h0] at hb ⊢
    have hp := two_zpow_pos (-((42 : Nat) : Int))
    push_cast at hb ⊢
    linarith

theorem hoursValue_lt_24_iff (D : Nat) (hD : D < 2 ^ 63) :
    hoursValue D < 24 ↔ D < 86400000000000 := by
  constructor
  · intro h
    by_contra hc
    have h1 : 24 ≤ D / 3600000000000 := by omega
    have hg : (0 : ℚ) ≤ round53 (((D % 3600000000000 : Nat) : ℚ) / ((3600000000000 : Nat) : ℚ)) :=
      round53_nonneg (by positivity)
    have := floatSum_lower (D / 3600000000000) _ (by omega) hg
    have h2 : (24 : ℚ) ≤ ((D / 3600000000000 : Nat) : ℚ) := by exact_mod_cast h1
    unfold hoursValue at h
    linarith
  · intro h
    have h0 : D / 3600000000000 + 1 ≤ 24 := by omega
    have hb := (floatSum_bounds (D / 3600000000000) (D % 3600000000000) 3600000000000 42
      (by norm_num) (by omega) (by norm_num) (by
        calc (D / 3600000000000 + 1) * 2 ^ 42 ≤ 24 * 2 ^ 42 := Nat.mul_le_mul_right _ h0
          _ ≤ 2 ^ 53 := by norm_num)).2
    unfold hoursValue
    have hp := two_zpow_pos (-((42 : Nat) : Int))
    have h2 : ((D / 3600000000000 : Nat) : ℚ) + 1 ≤ 24 := by exact_mod_cast h0
    linarith

theorem ratio_split (D U : Nat) (hU : 0 < U) :
    ((D / U : Nat) : ℚ) + ((D % U : Nat) : ℚ) / (U : ℚ) = (D : ℚ) / (U : ℚ) := by
  have hUq : (0 : ℚ) < (U : ℚ) := by exact_mod_cast hU
  have hdm : (D : ℚ) = (U : ℚ) * ((D / U : Nat) : ℚ) + ((D % U : Nat) : ℚ) := by
    exact_mod_cast (Nat.div_add_mod D U).symm
  field_simp
  linarith

/-- Under one hour the float minutes round to the same integer as the exact
minutes. -/
theorem minutesValue_nearest (D : Nat) (hD : D < 3600000000000) :
    nearestEven (minutesValue D) = nearestEven ((D : ℚ) / 60000000000) := by
  have h := floatSum_nearest (D / 60000000000) (D % 60000000000) 30000000000 35
    (by norm_num) (by omega) (by norm_num) (by
      have h0 : D / 60000000000 + 1 ≤ 60 := by omega
      calc (D / 60000000000 + 1) * 2 ^ (35 + 1) ≤ 60 * 2 ^ (35 + 1) :=
            Nat.mul_le_mul_right _ h0
        _ ≤ 2 ^ 53 := by norm_num)
  have e : (2 * 30000000000 : Nat) = 60000000000 := by norm_num
  rw [e] at h
  unfold minutesValue
  rw [h, ratio_split D 60000000000 (by norm_num)]
  norm_num

/-- Under 24 hours the float hours round to the same integer as the exact
hours. -/
theorem hoursValue_nearest (D : Nat) (hD : D < 86400000000000) :
    nearestEven (hoursValue D) = nearestEven ((D : ℚ) / 3600000000000) := by
  have h := floatSum_nearest (D / 3600000000000) (D % 3600000000000) 1800000000000 41
    (by norm_num) (by omega) (by norm_num) (by
      have h0 : D / 3600000000000 + 1 ≤ 24 := by omega
      calc (D / 3600000000000 + 1) * 2 ^ (41 + 1) ≤ 24 * 2 ^ (41 + 1) :=
            Nat.mul_le_mul_right _ h0
        _ ≤ 2 ^ 53 := by norm_num)
  have e : (2 * 1800000000000 : Nat) = 3600000000000 := by norm_num
  rw [e] at h
  unfold hoursValue
  rw [h, ratio_split D 3600000000000 (by norm_num)]
  norm_num

theorem hoursValue_mono (D1 D2 : Nat) (h : D1 ≤ D2) : hoursValue D1 ≤ hoursValue D2 :=
  floatSum_mono 3600000000000 D1 D2 (by norm_num) h

theorem hoursValue_nonneg (D : Nat) : 0 ≤ hoursValue D := by
  unfold hoursValue
  apply round53_nonneg
  have : (0 : ℚ) ≤ round53 (((D % 3600000000000 : Nat) : ℚ) / ((3600000000000 : Nat) : ℚ)) :=
    round53_nonneg (by positivity)
  positivity

theorem daysValue_mono (D1 D2 : Nat) (h : D1 ≤ D2) : daysValue D1 ≤ daysValue D2 := by
  unfold daysValue
  apply round53_mono (div_nonneg (hoursValue_nonneg D1) (by norm_num))
  exact div_le_div_of_nonneg_right (hoursValue_mono D1 D2 h) (by norm_num)

/-- The float days lie between the whole days and the next whole number. -/
theorem daysValue_bounds (D : Nat) (hD : D < 2 ^ 63) :
    ((D / 86400000000000 : Nat) : ℚ) ≤ daysValue D ∧
    daysValue D ≤ ((D / 86400000000000 : Nat) : ℚ) + 1 := by
  have hg : (0 : ℚ) ≤ round53 (((D % 3600000000000 : Nat) : ℚ) / ((3600000000000 : Nat) : ℚ)) :=
    round53_nonneg (by positivity)
  have hlo := floatSum_lower (D / 3600000000000) _ (by omega) hg
  have hhi := floatSum_upper (D / 3600000000000) (D % 3600000000000) 3600000000000
    (by omega) (by norm_num) (by omega)
  have k1 : 24 * (D / 86400000000000) ≤ D / 3600000000000 := by omega
  have k2 : D / 3600000000000 + 1 ≤ 24 * (D / 86400000000000) + 24 := by omega
  have k1q : 24 * ((D / 86400000000000 : Nat) : ℚ) ≤ ((D / 3600000000000 : Nat) : ℚ) := by
    exact_mod_cast k1
  have k2q : ((D / 3600000000000 : Nat) : ℚ) + 1 ≤
      24 * ((D / 86400000000000 : Nat) : ℚ) + 24 := by exact_mod_cast k2
  have hH1 : ((D / 86400000000000 : Nat) : ℚ) ≤ hoursValue D / 24 := by
    rw [le_div_iff₀ (by norm_num)]
    unfold hoursValue
    linarith
  have hH2 : hoursValue D / 24 ≤ ((D / 86400000000000 + 1 : Nat) : ℚ) := by
    rw [div_le_iff₀ (by norm_num)]
    unfold hoursValue
    push_cast
    linarith
  constructor
  · have := le_round53_of_le (x := hoursValue D / 24) (D / 86400000000000) 0 (by omega)
      (by simpa using hH1)
    simpa [daysValue] using this
  · have := round53_le_of_le (x := hoursValue D / 24) (D / 86400000000000 + 1) 0 (by omega)
      (div_nonneg (hoursValue_nonneg D) (by norm_num)) (by simpa using hH2)
    simpa [daysValue] using this


theorem hoursTest_one (D : Nat) (hD : D < 2 ^ 63) :
    F64.lt (durationHours (D : Int)) (F64.ofInt 1) = true ↔ D < 3600000000000 := by
  rw [F64.lt_iff, (durationHours_toRat D hD).1]
  have : (F64.ofInt 1).toRat = 1 := by
    have := F64.ofNat_toRat 1 (by norm_num)
    simpa using this
  rw [this]
  exact hoursValue_lt_one_iff D hD

theorem hoursTest_24 (D : Nat) (hD : D < 2 ^ 63) :
    F64.lt (durationHours (D : Int)) (F64.ofInt 24) = true ↔ D < 86400000000000 := by
  rw [F64.lt_iff, (durationHours_toRat D hD).1]
  have : (F64.ofInt 24).toRat = 24 := by
    have := F64.ofNat_toRat 24 (by norm_num)
    simpa using this
  rw [this]
  exact hoursValue_lt_24_iff D hD

theorem daysFloat_toRat (D : Nat) (hD : D < 2 ^ 63) :
    (F64.div (durationHours (D : Int)) (F64.ofInt 24)).toRat = daysValue D ∧
    0 ≤ (F64.div (durationHours (D : Int)) (F64.ofInt 24)).man := by
  obtain ⟨h1, h2⟩ := durationHours_toRat D hD
  have h24 : (F64.ofInt 24).toRat = 24 := by
    have := F64.ofNat_toRat 24 (by norm_num)
    simpa using this
  have hpos : 0 < (F64.ofInt 24).num := by
    apply F64.num_pos_of_toRat_pos
    rw [h24]
    norm_num
  refine ⟨?_, F64.div_man_nonneg _ _ h2 hpos⟩
  rw [F64.div_toRat _ _ h2 hpos, h1, h24]
  rfl

theorem renderAge_minutes (D : Nat) (hD : D < 3600000000000) :
    renderAge (D : Int) =
      toString (nearestEven ((D : ℚ) / 60000000000)).toNat ++ "m" := by
  have hD63 : D < 2 ^ 63 := by omega
  have ht := (hoursTest_one D hD63).mpr hD
  obtain ⟨h1, h2⟩ := durationMinutes_toRat D hD63
  unfold renderAge
  rw [if_pos ht, F64.format0_eq _ h2, h1, minutesValue_nearest D hD]

theorem renderAge_hours (D : Nat) (hlo : 3600000000000 ≤ D) (hD : D < 86400000000000) :
    renderAge (D : Int) =
      toString (nearestEven ((D : ℚ) / 3600000000000)).toNat ++ "h" := by
  have hD63 : D < 2 ^ 63 := by omega
  have ht1 : ¬ F64.lt (durationHours (D : Int)) (F64.ofInt 1) = true := by
    rw [hoursTest_one D hD63]
    omega
  have ht2 := (hoursTest_24 D hD63).mpr hD
  obtain ⟨h1, h2⟩ := durationHours_toRat D hD63
  unfold renderAge
  rw [if_neg ht1, if_pos ht2, F64.format0_eq _ h2, h1, hoursValue_nearest D hD]

theorem renderAge_days (D : Nat) (hlo : 86400000000000 ≤ D) (hD : D < 2 ^ 63) :
    renderAge (D : Int) = toString (nearestEven (daysValue D)).toNat ++ "d" := by
  have ht1 : ¬ F64.lt (durationHours (D : Int)) (F64.ofInt 1) = true := by
    rw [hoursTest_one D hD]
    omega
  have ht2 : ¬ F64.lt (durationHours (D : Int)) (F64.ofInt 24) = true := by
    rw [hoursTest_24 D hD]
    omega
  obtain ⟨h1, h2⟩ := daysFloat_toRat D hD
  unfold renderAge
  rw [if_neg ht1, if_neg ht2, F64.format0_eq _ h2, h1]

/-- The number of days rendered is the whole number of days or the next
whole number. -/
theorem nearestEven_daysValue_bounds (D : Nat) (hD : D < 2 ^ 63) :
    D / 86400000000000 ≤ (nearestEven (daysValue D)).toNat ∧
    (nearestEven (daysValue D)).toNat ≤ D / 86400000000000 + 1 := by
  obtain ⟨h1, h2⟩ := daysValue_bounds D hD
  have a1 : ((D / 86400000000000 : Nat) : Int) ≤ nearestEven (daysValue D) :=
    le_nearestEven_of_le (by exact_mod_cast h1)
  have a2 : nearestEven (daysValue D) ≤ ((D / 86400000000000 + 1 : Nat) : Int) :=
    nearestEven_le_of_le (by push_cast; exact h2)
  omega

theorem timeSince_of_nonneg (now t : Int) (h : 0 ≤ now - t) :
    timeSince now t = (((now - t).toNat ⊓ (2 ^ 63 - 1) : Nat) : Int) := by
  unfold timeSince maxDuration minDuration
  split_ifs with h1 h2
  · have : (now - t).toNat ⊓ (2 ^ 63 - 1) = 2 ^ 63 - 1 := by
      apply min_eq_right
      omega
    rw [this]
    norm_num
  · omega
  · have : (now - t).toNat ⊓ (2 ^ 63 - 1) = (now - t).toNat := by
      apply min_eq_left
      omega
    rw [this]
    omega


theorem digitValue_digitChar (k : Nat) (hk : k < 10) :
    digitValue (Nat.digitChar k) = some k := by
  interval_cases k <;> decide

theorem readDigits_toDigitsCore (fuel n : Nat) (ds : List Char) (h : n < fuel) :
    readDigits (Nat.toDigitsCore 10 fuel n ds) 0 = readDigits ds n := by
  induction fuel generalizing n ds with
  | zero => omega
  | succ f ih =>
    unfold Nat.toDigitsCore
    by_cases h0 : n / 10 = 0
    · simp only [h0, if_true]
      have hn : n < 10 := by omega
      have : n % 10 = n := Nat.mod_eq_of_lt hn
      rw [this, readDigits, digitValue_digitChar n hn]
      simp
    · simp only [h0, if_false]
      rw [ih (n / 10) _ (by omega), readDigits,
        digitValue_digitChar (n % 10) (Nat.mod_lt n (by norm_num))]
      simp only
      congr 1
      omega

theorem readDigits_toString (n : Nat) : readDigits (toString n).data 0 = some n := by
  have : (toString n).data = Nat.toDigitsCore 10 (n + 1) n [] := rfl
  rw [this, readDigits_toDigitsCore (n + 1) n [] (by omega)]
  rfl

theorem ageNumber_render (n : Nat) (u : Char) :
    ageNumber (toString n ++ String.singleton u) = n := by
  unfold ageNumber
  have : (toString n ++ String.singleton u).data = (toString n).data ++ [u] := by
    rw [String.data_append]
    rfl
  rw [this, List.dropLast_concat, readDigits_toString]
  rfl

theorem ageUnitRank_render (s : String) (u : Char) :
    (s ++ String.singleton u).data.getLast? = some u := by
  have : (s ++ String.singleton u).data = s.data ++ [u] := by
    rw [String.data_append]
    rfl
  rw [this, List.getLast?_concat]


theorem Minute_eq : Minute = 60000000000 := by unfold Minute; norm_num

theorem Hour_eq : Hour = 3600000000000 := by unfold Hour Minute; norm_num

theorem calculateAge_of_nonneg (now t : Int) (h : 0 ≤ now - t) :
    calculateAge now t = renderAge (((now - t).toNat ⊓ (2 ^ 63 - 1) : Nat) : Int) := by
  unfold calculateAge
  rw [timeSince_of_nonneg now t h]

theorem calculateAge_of_fits (now t : Int) (h : 0 ≤ now - t) (hmax : now - t < 2 ^ 63) :
    calculateAge now t = renderAge (((now - t).toNat : Nat) : Int) := by
  rw [calculateAge_of_nonneg now t h]
  have : (now - t).toNat ⊓ (2 ^ 63 - 1) = (now - t).toNat := by
    apply min_eq_left
    omega
  rw [this]

theorem toNat_cast_rat (d : Int) (h : 0 ≤ d) : ((d.toNat : Nat) : ℚ) = (d : ℚ) := by
  have : ((d.toNat : Nat) : Int) = d := Int.toNat_of_nonneg h
  calc ((d.toNat : Nat) : ℚ) = (((d.toNat : Nat) : Int) : ℚ) := (Int.cast_natCast _).symm
    _ = (d : ℚ) := by rw [this]

/-- What `calculateAge` renders for an elapsed time `d = now - creationTime`
that is a non-negative `time.Duration`. -/
theorem calculateAge_rendering (now t : Int) (hd : 0 ≤ now - t) (hmax : now - t < 2 ^ 63) :
    (now - t < Hour →
      calculateAge now t =
        toString (nearestEven (((now - t : Int) : ℚ) / ((Minute : Int) : ℚ))).toNat ++ "m") ∧
    (Hour ≤ now - t → now - t < 24 * Hour →
      calculateAge now t =
        toString (nearestEven (((now - t : Int) : ℚ) / ((Hour : Int) : ℚ))).toNat ++ "h") ∧
    (24 * Hour ≤ now - t →
      ∃ n : Nat, calculateAge now t = toString n ++ "d" ∧
        (now - t) / (24 * Hour) ≤ (n : Int) ∧ (n : Int) ≤ (now - t) / (24 * Hour) + 1) := by
  rw [calculateAge_of_fits now t hd hmax]
  have hc := toNat_cast_rat (now - t) hd
  have hn : (((now - t).toNat : Nat) : Int) = now - t := Int.toNat_of_nonneg hd
  have hM : ((Minute : Int) : ℚ) = 60000000000 := by rw [Minute_eq]; norm_num
  have hH : ((Hour : Int) : ℚ) = 3600000000000 := by rw [Hour_eq]; norm_num
  have hHe := Hour_eq
  refine ⟨?_, ?_, ?_⟩
  · intro h
    rw [renderAge_minutes _ (by omega), hc, hM]
  · intro h1 h2
    rw [renderAge_hours _ (by omega) (by omega), hc, hH]
  · intro h
    have hD : (now - t).toNat < 2 ^ 63 := by omega
    refine ⟨(nearestEven (daysValue (now - t).toNat)).toNat,
      renderAge_days _ (by omega) hD, ?_, ?_⟩
    · have := (nearestEven_daysValue_bounds _ hD).1
      rw [hHe]
      omega
    · have := (nearestEven_daysValue_bounds _ hD).2
      rw [hHe]
      omega

/-- The unit that `renderAge` chooses for a non-negative duration. -/
theorem renderAge_last (D : Nat) (hD : D < 2 ^ 63) :
    (renderAge (D : Int)).data.getLast? =
      some (if D < 3600000000000 then 'm' else if D < 86400000000000 then 'h' else 'd') := by
  by_cases h1 : D < 3600000000000
  · rw [if_pos h1, renderAge_minutes D h1]
    exact ageUnitRank_render _ 'm'
  · by_cases h2 : D < 86400000000000
    · rw [if_neg h1, if_pos h2, renderAge_hours D (by omega) h2]
      exact ageUnitRank_render _ 'h'
    · rw [if_neg h1, if_neg h2, renderAge_days D (by omega) hD]
      exact ageUnitRank_render _ 'd'

theorem calculateAge_unit (now t : Int) (hd : 0 ≤ now - t) :
    ((calculateAge now t).data.getLast? = some 'm' ↔ now - t < Hour) ∧
    ((calculateAge now t).data.getLast? = some 'h' ↔ Hour ≤ now - t ∧ now - t < 24 * Hour) ∧
    ((calculateAge now t).data.getLast? = some 'd' ↔ 24 * Hour ≤ now - t) := by
  rw [calculateAge_of_nonneg now t hd, renderAge_last _ (by omega), Hour_eq]
  by_cases h1 : (now - t).toNat ⊓ (2 ^ 63 - 1) < 3600000000000
  · rw [if_pos h1]
    have : now - t < 3600000000000 := by omega
    refine ⟨?_, ?_, ?_⟩
    · simp [this]
    · constructor
      · intro h; exact absurd h (by decide)
      · intro h; omega
    · constructor
      · intro h; exact absurd h (by decide)
      · intro h; omega
  · rw [if_neg h1]
    by_cases h2 : (now - t).toNat ⊓ (2 ^ 63 - 1) < 86400000000000
    · rw [if_pos h2]
      have a1 : 3600000000000 ≤ now - t := by omega
      have a2 : now - t < 86400000000000 := by omega
      refine ⟨?_, ?_, ?_⟩
      · constructor
        · intro h; exact absurd h (by decide)
        · intro h; omega
      · constructor
        · intro _; constructor <;> omega
        · intro _; rfl
      · constructor
        · intro h; exact absurd h (by decide)
        · intro h; omega
    · rw [if_neg h2]
      have a1 : 86400000000000 ≤ now - t := by omega
      refine ⟨?_, ?_, ?_⟩
      · constructor
        · intro h; exact absurd h (by decide)
        · intro h; omega
      · constructor
        · intro h; exact absurd h (by decide)
        · intro h; omega
      · constructor
        · intro _; omega
        · intro _; rfl


theorem rank_append (s : String) (u : Char) (k : Nat)
    (hk : ageUnitRank (String.singleton u) = k) :
    ageUnitRank (s ++ String.singleton u) = k := by
  unfold ageUnitRank at hk ⊢
  rw [ageUnitRank_render s u]
  exact hk

/-- The number that `renderAge` prints for a non-negative duration. -/
theorem renderAge_split (D : Nat) (hD : D < 2 ^ 63) :
    ageUnitRank (renderAge (D : Int)) =
      (if D < 3600000000000 then 0 else if D < 86400000000000 then 1 else 2) ∧
    ageNumber (renderAge (D : Int)) =
      (if D < 3600000000000 then (nearestEven ((D : ℚ) / 60000000000)).toNat
       else if D < 86400000000000 then (nearestEven ((D : ℚ) / 3600000000000)).toNat
       else (nearestEven (daysValue D)).toNat) := by
  by_cases h1 : D < 3600000000000
  · rw [if_pos h1, if_pos h1, renderAge_minutes D h1]
    constructor
    · exact rank_append _ 'm' 0 rfl
    · exact ageNumber_render _ 'm'
  · by_cases h2 : D < 86400000000000
    · rw [if_neg h1, if_pos h2, if_neg h1, if_pos h2, renderAge_hours D (by omega) h2]
      constructor
      · exact rank_append _ 'h' 1 rfl
      · exact ageNumber_render _ 'h'
    · rw [if_neg h1, if_neg h2, if_neg h1, if_neg h2, renderAge_days D (by omega) hD]
      constructor
      · exact rank_append _ 'd' 2 rfl
      · exact ageNumber_render _ 'd'

theorem nearestEven_toNat_mono {x y : ℚ} (h : x ≤ y) :
    (nearestEven x).toNat ≤ (nearestEven y).toNat :=
  Int.toNat_le_toNat (nearestEven_mono h)

theorem renderAge_mono (D1 D2 : Nat) (h : D1 ≤ D2) (hD : D2 < 2 ^ 63) :
    ageLe (renderAge (D1 : Int)) (renderAge (D2 : Int)) = true := by
  obtain ⟨r1, n1⟩ := renderAge_split D1 (by omega)
  obtain ⟨r2, n2⟩ := renderAge_split D2 hD
  unfold ageLe
  rw [decide_eq_true_iff, r1, r2, n1, n2]
  have hq : (D1 : ℚ) ≤ (D2 : ℚ) := by exact_mod_cast h
  by_cases a1 : D1 < 3600000000000
  · by_cases b1 : D2 < 3600000000000
    · right
      rw [if_pos a1, if_pos b1, if_pos a1, if_pos b1]
      exact ⟨rfl, nearestEven_toNat_mono (div_le_div_of_nonneg_right hq (by norm_num))⟩
    · left
      rw [if_pos a1, if_neg b1]
      split_ifs <;> decide
  · have b1 : ¬ D2 < 3600000000000 := by omega
    by_cases a2 : D1 < 86400000000000
    · by_cases b2 : D2 < 86400000000000
      · right
        rw [if_neg a1, if_pos a2, if_neg b1, if_pos b2, if_neg a1, if_pos a2, if_neg b1,
          if_pos b2]
        exact ⟨rfl, nearestEven_toNat_mono (div_le_div_of_nonneg_right hq (by norm_num))⟩
      · left
        rw [if_neg a1, if_pos a2, if_neg b1, if_neg b2]
        decide
    · have b2 : ¬ D2 < 86400000000000 := by omega
      right
      rw [if_neg a1, if_neg a2, if_neg b1, if_neg b2, if_neg a1, if_neg a2, if_neg b1,
        if_neg b2]
      exact ⟨rfl, nearestEven_toNat_mono (daysValue_mono D1 D2 h)⟩

theorem calculateAge_mono (now1 t1 now2 t2 : Int) (h0 : 0 ≤ now1 - t1)
    (h : now1 - t1 ≤ now2 - t2) :
    ageLe (calculateAge now1 t1) (calculateAge now2 t2) = true := by
  rw [calculateAge_of_nonneg now1 t1 h0, calculateAge_of_nonneg now2 t2 (by omega)]
  apply renderAge_mono
  · have : (now1 - t1).toNat ≤ (now2 - t2).toNat := Int.toNat_le_toNat h
    exact min_le_min this (le_refl _)
  · have : (now2 - t2).toNat ⊓ (2 ^ 63 - 1) ≤ 2 ^ 63 - 1 := min_le_right _ _
    omega


/-- Relative error of one rounding: at most `2 ^ (-53)` of the value. -/
theorem round53_err {x : ℚ} (hx : 0 ≤ x) : |round53 x - x| ≤ x * (2 : ℚ) ^ (-53 : Int) := by
  rcases eq_or_lt_of_le hx with h0 | hpos
  · rw [← h0, round53_zero]
    simp
  · rw [round53_of_pos hpos]
    set e := Int.log 2 x with he
    have hM := nearestEven_sub_le (x * (2 : ℚ) ^ (52 - e))
    have hp := two_zpow_pos (e - 52)
    have hone : (2 : ℚ) ^ (52 - e) * (2 : ℚ) ^ (e - 52) = 1 := by
      rw [← zpow_add₀ (by norm_num : (2 : ℚ) ≠ 0)]
      have : 52 - e + (e - 52) = 0 := by ring
      rw [this, zpow_zero]
    have e1 : (nearestEven (x * (2 : ℚ) ^ (52 - e)) : ℚ) * (2 : ℚ) ^ (e - 52) - x =
        ((nearestEven (x * (2 : ℚ) ^ (52 - e)) : ℚ) - x * (2 : ℚ) ^ (52 - e)) *
          (2 : ℚ) ^ (e - 52) := by
      rw [sub_mul, mul_assoc, hone, mul_one]
    rw [e1, abs_mul, abs_of_pos hp]
    have h2 : (1 : ℚ) / 2 * (2 : ℚ) ^ (e - 52) = (2 : ℚ) ^ e * (2 : ℚ) ^ (-53 : Int) := by
      rw [← zpow_add₀ (by norm_num : (2 : ℚ) ≠ 0)]
      have : e + -53 = (e - 52) + (-1) := by ring
      rw [this, zpow_add₀ (by norm_num : (2 : ℚ) ≠ 0), zpow_neg_one]
      ring
    calc |(nearestEven (x * (2 : ℚ) ^ (52 - e)) : ℚ) - x * (2 : ℚ) ^ (52 - e)| *
          (2 : ℚ) ^ (e - 52)
        ≤ 1 / 2 * (2 : ℚ) ^ (e - 52) := mul_le_mul_of_nonneg_right hM (le_of_lt hp)
      _ = (2 : ℚ) ^ e * (2 : ℚ) ^ (-53 : Int) := h2
      _ ≤ x * (2 : ℚ) ^ (-53 : Int) :=
          mul_le_mul_of_nonneg_right (two_zpow_log_le hpos) (le_of_lt (two_zpow_pos _))

theorem err_chain (h f g H Q : ℚ) (hhb : h ≤ 2562048) (hf1 : f ≤ 1)
    (e1 : |g - f| ≤ f * (1 / 9007199254740992))
    (e2 : |H - (h + g)| ≤ (h + g) * (1 / 9007199254740992))
    (e3 : |Q - H / 24| ≤ H / 24 * (1 / 9007199254740992)) :
    |Q - (h + f) / 24| ≤ 524288 * (1 / 9007199254740992) := by
  rw [abs_le] at e1 e2 e3 ⊢
  constructor <;> linarith [e1.1, e1.2, e2.1, e2.2, e3.1, e3.2]

/-- The float days differ from the exact days by at most `2 ^ (-34)`. -/
theorem daysValue_err (D : Nat) (hD : D < 2 ^ 63) :
    |daysValue D - (D : ℚ) / 86400000000000| ≤ (2 : ℚ) ^ (-34 : Int) := by
  have hsplit := ratio_split D 3600000000000 (by norm_num)
  have hf0 : (0 : ℚ) ≤ ((D % 3600000000000 : Nat) : ℚ) / ((3600000000000 : Nat) : ℚ) := by
    positivity
  have hf1 : ((D % 3600000000000 : Nat) : ℚ) / ((3600000000000 : Nat) : ℚ) ≤ 1 := by
    rw [div_le_iff₀ (by norm_num)]
    have : D % 3600000000000 ≤ 3600000000000 := le_of_lt (Nat.mod_lt D (by norm_num))
    have : ((D % 3600000000000 : Nat) : ℚ) ≤ ((3600000000000 : Nat) : ℚ) := by
      exact_mod_cast this
    linarith
  have hhb : ((D / 3600000000000 : Nat) : ℚ) ≤ 2562048 := by
    have : D / 3600000000000 ≤ 2562048 := by omega
    exact_mod_cast this
  have hεval : (2 : ℚ) ^ (-53 : Int) = 1 / 9007199254740992 := by
    rw [zpow_neg]
    norm_num
  have h34 : (2 : ℚ) ^ (-34 : Int) = 524288 * (1 / 9007199254740992) := by
    rw [zpow_neg]
    norm_num
  have e1 := round53_err hf0
  have hg0 := round53_nonneg hf0
  have e2 := round53_err
    (x := ((D / 3600000000000 : Nat) : ℚ) +
      round53 (((D % 3600000000000 : Nat) : ℚ) / ((3600000000000 : Nat) : ℚ)))
    (by positivity)
  have e3 := round53_err (x := hoursValue D / 24)
    (div_nonneg (hoursValue_nonneg D) (by norm_num))
  rw [hεval] at e1 e2 e3
  have hx : (D : ℚ) / 86400000000000 =
      (((D / 3600000000000 : Nat) : ℚ) +
        ((D % 3600000000000 : Nat) : ℚ) / ((3600000000000 : Nat) : ℚ)) / 24 := by
    rw [hsplit]
    field_simp
    norm_num
  rw [hx, h34]
  exact err_chain _ _ _ _ _ hhb hf1 e1 e2 e3

/-- The number of days rendered is a nearest integer to the exact number of
days, up to the rounding error of the float computation. -/
theorem nearestEven_daysValue_near (D : Nat) (hD : D < 2 ^ 63) :
    |((nearestEven (daysValue D)).toNat : ℚ) - (D : ℚ) / 86400000000000| ≤
      1 / 2 + (2 : ℚ) ^ (-34 : Int) := by
  have h1 := nearestEven_sub_le (daysValue D)
  have h2 := daysValue_err D hD
  have h0 : 0 ≤ nearestEven (daysValue D) := by
    apply nearestEven_nonneg
    unfold daysValue
    exact round53_nonneg (div_nonneg (hoursValue_nonneg D) (by norm_num))
  have hc : (((nearestEven (daysValue D)).toNat : Nat) : ℚ) = (nearestEven (daysValue D) : ℚ) := by
    have : (((nearestEven (daysValue D)).toNat : Nat) : Int) = nearestEven (daysValue D) :=
      Int.toNat_of_nonneg h0
    calc (((nearestEven (daysValue D)).toNat : Nat) : ℚ)
        = ((((nearestEven (daysValue D)).toNat : Nat) : Int) : ℚ) := (Int.cast_natCast _).symm
      _ = (nearestEven (daysValue D) : ℚ) := by rw [this]
  rw [hc]
  calc |(nearestEven (daysValue D) : ℚ) - (D : ℚ) / 86400000000000|
      = |((nearestEven (daysValue D) : ℚ) - daysValue D) +
          (daysValue D - (D : ℚ) / 86400000000000)| := by ring_nf
    _ ≤ |(nearestEven (daysValue D) : ℚ) - daysValue D| +
          |daysValue D - (D : ℚ) / 86400000000000| := abs_add _ _
    _ ≤ 1 / 2 + (2 : ℚ) ^ (-34 : Int) := add_le_add h1 h2


/-! ## `calculateAge`: the claims -/

set_option maxRecDepth 100000 in
/-- C4 fails as stated: an elapsed time of 23 hours 59 minutes has 23 whole
hours, yet `calculateAge` renders `24h`, not `23h`; and 90 seconds, one whole
minute, is rendered `2m`. -/
theorem C4_counterexample :
    (23 * Hour + 59 * Minute - 0) / Hour = 23 ∧
    calculateAge (23 * Hour + 59 * Minute) 0 = "24h" ∧
    calculateAge (23 * Hour + 59 * Minute) 0 ≠ "23h" ∧
    calculateAge 90000000000 0 = "2m" := by
  decide

set_option maxRecDepth 100000 in
/-- C4, amended: for an elapsed time `d = now - creationTime` that is a
non-negative `time.Duration`, `calculateAge` renders `d` in minutes rounded to
the nearest integer (a tie to the even one) followed by `m` when `d` is under
one hour, `d` in hours rounded in the same way followed by `h` when `d` is
under 24 hours, and otherwise a number `n` followed by `d`, where `n` is the
whole number of days or the next one and lies within `1/2 + 2 ^ (-34)` of `d`
in days; 59 minutes render `59m`, 60 minutes `1h`, 23 hours 59 minutes `24h`,
and 24 hours `1d`. -/
theorem C4_age_rounds_to_nearest (now creationTime : Int) (hd : 0 ≤ now - creationTime)
    (hmax : now - creationTime < 2 ^ 63) :
    (now - creationTime < Hour →
      calculateAge now creationTime =
        toString (nearestEven (((now - creationTime : Int) : ℚ) /
          ((Minute : Int) : ℚ))).toNat ++ "m") ∧
    (Hour ≤ now - creationTime → now - creationTime < 24 * Hour →
      calculateAge now creationTime =
        toString (nearestEven (((now - creationTime : Int) : ℚ) /
          ((Hour : Int) : ℚ))).toNat ++ "h") ∧
    (24 * Hour ≤ now - creationTime →
      ∃ n : Nat, calculateAge now creationTime = toString n ++ "d" ∧
        (now - creationTime) / (24 * Hour) ≤ (n : Int) ∧
        (n : Int) ≤ (now - creationTime) / (24 * Hour) + 1 ∧
        |(n : ℚ) - ((now - creationTime : Int) : ℚ) / ((24 * Hour : Int) : ℚ)| ≤
          1 / 2 + (2 : ℚ) ^ (-34 : Int)) ∧
    (∀ x : ℚ, |(nearestEven x : ℚ) - x| ≤ 1 / 2) ∧
    calculateAge (59 * Minute) 0 = "59m" ∧
    calculateAge (60 * Minute) 0 = "1h" ∧
    calculateAge (23 * Hour + 59 * Minute) 0 = "24h" ∧
    calculateAge (24 * Hour) 0 = "1d" := by
  obtain ⟨h1, h2, _⟩ := calculateAge_rendering now creationTime hd hmax
  refine ⟨h1, h2, ?_, nearestEven_sub_le, by decide, by decide, by decide, by decide⟩
  intro h
  have hHe := Hour_eq
  have hD : (now - creationTime).toNat < 2 ^ 63 := by omega
  have hlo : 86400000000000 ≤ (now - creationTime).toNat := by omega
  have hb := nearestEven_daysValue_bounds _ hD
  have hnear := nearestEven_daysValue_near _ hD
  rw [toNat_cast_rat _ hd] at hnear
  refine ⟨(nearestEven (daysValue (now - creationTime).toNat)).toNat, ?_, ?_, ?_, ?_⟩
  · rw [calculateAge_of_fits now creationTime hd hmax]
    exact renderAge_days _ hlo hD
  · rw [hHe]
    omega
  · rw [hHe]
    omega
  · have : ((24 * Hour : Int) : ℚ) = 86400000000000 := by rw [hHe]; norm_num
    rw [this]
    exact hnear

/-- C4, amended, at an elapsed time of 90 seconds: rendered in minutes,
rounded to the nearest integer. -/
theorem C4_age_rounds_to_nearest_witness :
    calculateAge 90000000000 0 =
      toString (nearestEven (((90000000000 - 0 : Int) : ℚ) / ((Minute : Int) : ℚ))).toNat
        ++ "m" :=
  (C4_age_rounds_to_nearest 90000000000 0 (by decide) (by decide)).1 (by decide)

/-- C5: for every elapsed time `d = now - creationTime` with `d ≥ 0`, the
text returned by `calculateAge` ends in `m` exactly when `d` is under one
hour, in `h` exactly when `d` is at least one hour and under 24 hours, and in
`d` exactly when `d` is at least 24 hours. -/
theorem C5_age_unit (now creationTime : Int) (hd : 0 ≤ now - creationTime) :
    ((calculateAge now creationTime).data.getLast? = some 'm' ↔
      now - creationTime < Hour) ∧
    ((calculateAge now creationTime).data.getLast? = some 'h' ↔
      Hour ≤ now - creationTime ∧ now - creationTime < 24 * Hour) ∧
    ((calculateAge now creationTime).data.getLast? = some 'd' ↔
      24 * Hour ≤ now - creationTime) :=
  calculateAge_unit now creationTime hd

/-- C5 one nanosecond before a full hour: the text ends in `m`. -/
theorem C5_age_unit_witness :
    (calculateAge 3599999999999 0).data.getLast? = some 'm' :=
  (C5_age_unit 3599999999999 0 (by decide)).1.mpr (by decide)

/-- C6: age rendering is monotonic: for elapsed times `0 ≤ d1 ≤ d2` the age
rendered for `d1` is not greater than the age rendered for `d2`, ages being
compared first by unit (`m` before `h` before `d`) and then by their numeric
part. -/
theorem C6_age_monotone (now1 creation1 now2 creation2 : Int)
    (h0 : 0 ≤ now1 - creation1) (h : now1 - creation1 ≤ now2 - creation2) :
    ageLe (calculateAge now1 creation1) (calculateAge now2 creation2) = true :=
  calculateAge_mono now1 creation1 now2 creation2 h0 h

/-- C6 at 59 minutes 40 seconds and one hour: `60m` comes before `1h`. -/
theorem C6_age_monotone_witness :
    ageLe (calculateAge 3580000000000 0) (calculateAge 3600000000000 0) = true :=
  C6_age_monotone 3580000000000 0 3600000000000 0 (by decide) (by decide)


/-! ## `parseResources` -/

theorem parseResourceParts_step (v : String → Bool) (part : String) (rest : List String)
    (req : ResourceRequirements) :
    parseResourceParts v (part :: rest) req =
      if isCpuToken (stringsTrimSpace part) then
        if v (cpuQuantityOf (stringsTrimSpace part)).text then
          parseResourceParts v rest
            ⟨req.Limits,
              ResourceList.set req.Requests "cpu" (cpuQuantityOf (stringsTrimSpace part))⟩
        else Outcome.panic ("resource.MustParse: cannot parse " ++
          (cpuQuantityOf (stringsTrimSpace part)).text)
      else if isMemoryToken (stringsTrimSpace part) then
        if v (memoryQuantityOf (stringsTrimSpace part)).text then
          parseResourceParts v rest
            ⟨req.Limits,
              ResourceList.set req.Requests "memory" (memoryQuantityOf (stringsTrimSpace part))⟩
        else Outcome.panic ("resource.MustParse: cannot parse " ++
          (memoryQuantityOf (stringsTrimSpace part)).text)
      else parseResourceParts v rest req := by
  by_cases hc : stringsContains (stringsTrimSpace part) "cpu:" = true
  · by_cases hv : v (stringsTrimSpace (stringsTrimPrefix (stringsTrimSpace part) "cpu:")) = true
    · simp [parseResourceParts, isCpuToken, cpuQuantityOf, hc, hv, MustParse]
    · simp [parseResourceParts, isCpuToken, cpuQuantityOf, hc, hv, MustParse]
  · by_cases hm : stringsContains (stringsTrimSpace part) "memory:" = true
    · by_cases hv :
        v (stringsTrimSpace (stringsTrimPrefix (stringsTrimSpace part) "memory:")) = true
      · simp [parseResourceParts, isCpuToken, isMemoryToken, memoryQuantityOf, hc, hm, hv,
          MustParse]
      · simp [parseResourceParts, isCpuToken, isMemoryToken, memoryQuantityOf, hc, hm, hv,
          MustParse]
    · simp [parseResourceParts, isCpuToken, isMemoryToken, hc, hm]

/-- A token that contains neither `cpu:` nor `memory:` leaves the
requirements as they were. -/
theorem parseResourceParts_skip (v : String → Bool) (part : String) (rest : List String)
    (req : ResourceRequirements)
    (hc : stringsContains (stringsTrimSpace part) "cpu:" = false)
    (hm : stringsContains (stringsTrimSpace part) "memory:" = false) :
    parseResourceParts v (part :: rest) req = parseResourceParts v rest req := by
  rw [parseResourceParts_step]
  simp [isCpuToken, isMemoryToken, hc, hm]

theorem ResourceList.get?_after_set (m : ResourceList) (k : String) (q : Quantity) (k' : String) :
    (ResourceList.set m k q).get? k' = if k = k' then some q else m.get? k' := by
  induction m with
  | nil => simp [ResourceList.set, ResourceList.get?]
  | cons kv rest ih =>
    obtain ⟨a, b⟩ := kv
    by_cases h : a = k
    · subst h
      by_cases h2 : a = k'
      · simp [ResourceList.set, ResourceList.get?, h2]
      · simp [ResourceList.set, ResourceList.get?, h2]
    · by_cases h2 : a = k'
      · subst h2
        have h3 : ¬ k = a := fun e => h e.symm
        simp [ResourceList.set, ResourceList.get?, h, h3]
      · simp [ResourceList.set, ResourceList.get?, h, h2, ih]

theorem getLast?_cons_map_or {α β : Type} (f : α → β) (a : α) (l : List α) (y : Option β) :
    (((a :: l).getLast?.map f).or y) = ((l.getLast?.map f).or (some (f a))) := by
  cases l with
  | nil => simp
  | cons b t =>
    rw [List.getLast?_cons_cons]
    cases h : (b :: t).getLast? with
    | none => simp at h
    | some c => simp

/-- What a successful run of the loop of `parseResources` records. -/
theorem parseResourceParts_ok (v : String → Bool) (parts : List String)
    (req r : ResourceRequirements) (h : parseResourceParts v parts req = Outcome.ok r) :
    r.Limits = req.Limits ∧
    r.Requests.get? "cpu" =
      ((((parts.map stringsTrimSpace).filter isCpuToken).getLast?.map cpuQuantityOf).or
        (req.Requests.get? "cpu")) ∧
    r.Requests.get? "memory" =
      ((((parts.map stringsTrimSpace).filter isMemoryToken).getLast?.map memoryQuantityOf).or
        (req.Requests.get? "memory")) := by
  induction parts generalizing req with
  | nil =>
    simp only [parseResourceParts, Outcome.ok.injEq] at h
    subst h
    simp
  | cons part rest ih =>
    rw [parseResourceParts_step] at h
    by_cases hc : isCpuToken (stringsTrimSpace part) = true
    · have hm : isMemoryToken (stringsTrimSpace part) = false := by
        unfold isMemoryToken
        unfold isCpuToken at hc
        simp [hc]
      rw [if_pos hc] at h
      by_cases hv : v (cpuQuantityOf (stringsTrimSpace part)).text = true
      · rw [if_pos hv] at h
        obtain ⟨h1, h2, h3⟩ := ih _ h
        dsimp only at h1 h2 h3
        rw [ResourceList.get?_after_set] at h2 h3
        refine ⟨h1, ?_, ?_⟩
        · rw [h2, List.map_cons, List.filter_cons, if_pos hc, getLast?_cons_map_or]
          simp
        · rw [h3, List.map_cons, List.filter_cons]
          simp [hm]
      · rw [if_neg hv] at h
        exact absurd h (by simp)
    · rw [if_neg hc] at h
      by_cases hm : isMemoryToken (stringsTrimSpace part) = true
      · rw [if_pos hm] at h
        by_cases hv : v (memoryQuantityOf (stringsTrimSpace part)).text = true
        · rw [if_pos hv] at h
          obtain ⟨h1, h2, h3⟩ := ih _ h
          dsimp only at h1 h2 h3
          rw [ResourceList.get?_after_set] at h2 h3
          refine ⟨h1, ?_, ?_⟩
          · rw [h2, List.map_cons, List.filter_cons]
            simp [hc]
          · rw [h3, List.map_cons, List.filter_cons, if_pos hm, getLast?_cons_map_or]
            simp
        · rw [if_neg hv] at h
          exact absurd h (by simp)
      · rw [if_neg hm] at h
        obtain ⟨h1, h2, h3⟩ := ih _ h
        refine ⟨h1, ?_, ?_⟩
        · rw [h2, List.map_cons, List.filter_cons]
          simp [hc]
        · rw [h3, List.map_cons, List.filter_cons]
          simp [hm]


theorem containsChars_of_isPrefixOf (sub s : List Char) (h : sub.isPrefixOf s = true) :
    containsChars sub s = true := by
  cases s with
  | nil =>
    cases sub with
    | nil => rfl
    | cons a t => simp [List.isPrefixOf] at h
  | cons c cs => simp [containsChars, h]

theorem parseResources_ok (v : String → Bool) (resourcesStr : String)
    (r : ResourceRequirements) (h : parseResources v resourcesStr = Outcome.ok r) :
    r.Limits = [] ∧
    r.Requests.get? "cpu" =
      (((resourceTokens resourcesStr).filter isCpuToken).getLast?.map cpuQuantityOf) ∧
    r.Requests.get? "memory" =
      (((resourceTokens resourcesStr).filter isMemoryToken).getLast?.map memoryQuantityOf) := by
  obtain ⟨h1, h2, h3⟩ := parseResourceParts_ok v _ _ r h
  refine ⟨h1, ?_, ?_⟩
  · rw [h2]
    simp [resourceTokens, ResourceList.get?]
  · rw [h3]
    simp [resourceTokens, ResourceList.get?]

/-- C11, what the code does at a token that contains `cpu:` without beginning
with it: `xcpu:1` begins with neither `cpu:` nor `memory:`, yet
`parseResources` hands the whole token to `resource.MustParse`; it panics
when `xcpu:1` is not a quantity and records it as the CPU request when it is,
so the token is not ignored. A token that contains neither `cpu:` nor
`memory:` is ignored, and `gpu:1` parses to an empty resource map. -/
theorem C11_token_containing_cpu :
    beginsWith (stringsTrimSpace "xcpu:1") "cpu:" = false ∧
    beginsWith (stringsTrimSpace "xcpu:1") "memory:" = false ∧
    (∀ v : String → Bool, v "xcpu:1" = false →
      parseResources v "xcpu:1" =
        Outcome.panic "resource.MustParse: cannot parse xcpu:1") ∧
    (∀ v : String → Bool, v "xcpu:1" = true →
      parseResources v "xcpu:1" = Outcome.ok ⟨[], [("cpu", ⟨"xcpu:1"⟩)]⟩) ∧
    parseResources sampleValidQuantity "xcpu:1" =
      Outcome.panic "resource.MustParse: cannot parse xcpu:1" ∧
    (∀ (v : String → Bool) (part : String) (rest : List String) (req : ResourceRequirements),
      stringsContains (stringsTrimSpace part) "cpu:" = false →
      stringsContains (stringsTrimSpace part) "memory:" = false →
      parseResourceParts v (part :: rest) req = parseResourceParts v rest req) ∧
    (∀ v : String → Bool, parseResources v "gpu:1" = Outcome.ok ⟨[], []⟩) := by
  have h1 : stringsSplit "xcpu:1" ',' = ["xcpu:1"] := by decide
  have h2 : isCpuToken (stringsTrimSpace "xcpu:1") = true := by decide
  have h3 : cpuQuantityOf (stringsTrimSpace "xcpu:1") = ⟨"xcpu:1"⟩ := by decide
  refine ⟨by decide, by decide, ?_, ?_, by decide, ?_, ?_⟩
  · intro v hv
    unfold parseResources
    rw [h1, parseResourceParts_step, h2, h3]
    simp [hv]
  · intro v hv
    unfold parseResources
    rw [h1, parseResourceParts_step, h2, h3]
    simp [hv, ResourceList.set, parseResourceParts]
  · intro v part rest req hc hm
    exact parseResourceParts_skip v part rest req hc hm
  · intro v
    have g1 : stringsSplit "gpu:1" ',' = ["gpu:1"] := by decide
    have g2 : stringsContains (stringsTrimSpace "gpu:1") "cpu:" = false := by decide
    have g3 : stringsContains (stringsTrimSpace "gpu:1") "memory:" = false := by decide
    unfold parseResources
    rw [g1, parseResourceParts_skip v "gpu:1" [] _ g2 g3]
    rfl

/-- C12 fails as stated: in the text `cpu:1,cpu:2` both tokens begin with
`cpu:` and carry valid quantities, the first of them asks for `1`, and
`parseResources` records `2`. -/
theorem C12_counterexample :
    ((resourceTokens "cpu:1,cpu:2").filter (fun t => beginsWith t "cpu:")).head? =
      some "cpu:1" ∧
    cpuQuantityOf "cpu:1" = ⟨"1"⟩ ∧
    sampleValidQuantity "1" = true ∧ sampleValidQuantity "2" = true ∧
    parseResources sampleValidQuantity "cpu:1,cpu:2" =
      Outcome.ok ⟨[], [("cpu", ⟨"2"⟩)]⟩ := by
  decide

/-- C12, amended: for every resources text that `parseResources` accepts, the
request quantity recorded for a resource is the one of the last token for
that resource (last match wins): for `cpu` the last token that contains
`cpu:`, for `memory` the last token that contains `memory:` and not `cpu:`;
no limit is recorded. A token that begins with `cpu:` is a token for `cpu`,
and one that begins with `memory:` and does not contain `cpu:` is a token for
`memory`. -/
theorem C12_last_match_wins (v : String → Bool) (resourcesStr : String)
    (r : ResourceRequirements) (h : parseResources v resourcesStr = Outcome.ok r) :
    r.Requests.get? "cpu" =
      (((resourceTokens resourcesStr).filter isCpuToken).getLast?.map cpuQuantityOf) ∧
    r.Requests.get? "memory" =
      (((resourceTokens resourcesStr).filter isMemoryToken).getLast?.map memoryQuantityOf) ∧
    r.Limits = [] ∧
    (∀ token, beginsWith token "cpu:" = true → isCpuToken token = true) ∧
    (∀ token, beginsWith token "memory:" = true → stringsContains token "cpu:" = false →
      isMemoryToken token = true) := by
  obtain ⟨h1, h2, h3⟩ := parseResources_ok v resourcesStr r h
  refine ⟨h2, h3, h1, ?_, ?_⟩
  · intro token hb
    exact containsChars_of_isPrefixOf _ _ hb
  · intro token hb hc
    unfold isMemoryToken
    rw [hc]
    simpa using containsChars_of_isPrefixOf _ _ hb

/-- C12, amended, on the text `cpu:1,cpu:2`: the CPU request recorded is
`2`. -/
theorem C12_last_match_wins_witness :
    ResourceList.get? [("cpu", ⟨"2"⟩)] "cpu" =
      (((resourceTokens "cpu:1,cpu:2").filter isCpuToken).getLast?.map cpuQuantityOf) :=
  (C12_last_match_wins sampleValidQuantity "cpu:1,cpu:2" ⟨[], [("cpu", ⟨"2"⟩)]⟩
    (by decide)).1

/-! ## `CreateContainer` -/

theorem CreateContainer_of_resources (v : String → Bool) (range : MapRange) (s : K8sService)
    (client : Clientset) (req : CreateContainerRequest) (r : ResourceRequirements)
    (hs : s.clientSet = some client) (hr : requestResources v req = Outcome.ok r) :
    CreateContainer v range s req =
      match client.createPod req.Namespace
          (podOfRequest req (requestEnvVars range req) (requestPorts req) r) with
      | Except.error err =>
        (Outcome.error (GoError.wrap "failed to create pod: " err),
          [ApiCall.createPod req.Namespace
            (podOfRequest req (requestEnvVars range req) (requestPorts req) r)])
      | Except.ok _ =>
        (Outcome.ok (),
          [ApiCall.createPod req.Namespace
            (podOfRequest req (requestEnvVars range req) (requestPorts req) r)]) := by
  unfold requestResources at hr
  unfold CreateContainer
  simp only [hs]
  rw [hr]
  rfl

/-- C13 fails as stated: for the request `web` with the resources text
`cpu:bogus`, `CreateContainer` on a connected service submits no pod. -/
theorem C13_counterexample :
    (CreateContainer sampleValidQuantity insertionOrder (sampleService [])
      ⟨"web", "default", "nginx", "", "", "", "cpu:bogus"⟩).2 = [] := by
  decide

/-- C13, amended: for every creation request on a connected service whose
resources text is empty or is parsed without a panic, `CreateContainer`
submits exactly one pod, in the namespace of the request and named
`<name>-pod`, that declares exactly one container whose name and image are
those of the request, has the restart policy `Always`, and carries the labels
`app=<name>` and `managed=container-platform`. -/
theorem C13_submitted_pod (v : String → Bool) (range : MapRange) (s : K8sService)
    (client : Clientset)
    (req : CreateContainerRequest) (r : ResourceRequirements)
    (hs : s.clientSet = some client) (hr : requestResources v req = Outcome.ok r) :
    ∃ pod : Pod,
      (CreateContainer v range s req).2 = [ApiCall.createPod req.Namespace pod] ∧
      pod.ObjectMeta.Name = req.Name ++ "-pod" ∧
      pod.ObjectMeta.Namespace = req.Namespace ∧
      pod.ObjectMeta.Labels = [("app", req.Name), ("managed", "container-platform")] ∧
      pod.Spec.RestartPolicy = "Always" ∧
      ∃ container : Container,
        pod.Spec.Containers = [container] ∧
        container.Name = req.Name ∧ container.Image = req.Image := by
  refine ⟨podOfRequest req (requestEnvVars range req) (requestPorts req) r, ?_, rfl, rfl, rfl, rfl,
    ⟨_, rfl, rfl, rfl⟩⟩
  rw [CreateContainer_of_resources v range s client req r hs hr]
  cases client.createPod req.Namespace
      (podOfRequest req (requestEnvVars range req) (requestPorts req) r) with
  | error e => rfl
  | ok u => rfl

/-- C13, amended, on the request `web` with image `nginx`: one pod `web-pod`
is submitted in the namespace `default`. -/
theorem C13_submitted_pod_witness :
    ∃ pod : Pod,
      (CreateContainer sampleValidQuantity insertionOrder (sampleService []) sampleRequest).2 =
        [ApiCall.createPod "default" pod] ∧
      pod.ObjectMeta.Name = "web" ++ "-pod" ∧
      pod.ObjectMeta.Namespace = "default" ∧
      pod.ObjectMeta.Labels = [("app", "web"), ("managed", "container-platform")] ∧
      pod.Spec.RestartPolicy = "Always" ∧
      ∃ container : Container,
        pod.Spec.Containers = [container] ∧
        container.Name = "web" ∧ container.Image = "nginx" :=
  C13_submitted_pod sampleValidQuantity insertionOrder (sampleService []) (sampleClientset []) sampleRequest
    ⟨[], [("cpu", ⟨"1"⟩), ("memory", ⟨"2Gi"⟩)]⟩ rfl (by decide)

/-! ## Connection and lifecycle operations -/

/-- C14, what the code does: on a service whose client is unset, a freshly
constructed one included, each of the six lifecycle operations returns the
error `kubernetes client not initialized` and issues no call. The client is
however set by a `ConnectToCluster` call that fails at its probe: after such
a call on a fresh service, which returned an error, `ListContainers` and
`StopContainer` issue their request to the cluster and return its failure,
not the error `kubernetes client not initialized`. -/
theorem C14_client_set_by_failed_connect :
    NewK8sService.clientSet = none ∧
    (∀ (v : String → Bool) (range : MapRange) (config : Option RestConfig) (now : Int)
        (ns podName : String) (req : CreateContainerRequest),
      ListContainers ⟨none, config⟩ now ns =
        (Outcome.error (GoError.msg "kubernetes client not initialized"), []) ∧
      CreateContainer v range ⟨none, config⟩ req =
        (Outcome.error (GoError.msg "kubernetes client not initialized"), []) ∧
      StartContainer ⟨none, config⟩ ns podName =
        (Outcome.error (GoError.msg "kubernetes client not initialized"), []) ∧
      StopContainer ⟨none, config⟩ ns podName =
        (Outcome.error (GoError.msg "kubernetes client not initialized"), []) ∧
      RestartContainer ⟨none, config⟩ ns podName =
        (Outcome.error (GoError.msg "kubernetes client not initialized"), []) ∧
      DeleteContainer ⟨none, config⟩ ns podName =
        (Outcome.error (GoError.msg "kubernetes client not initialized"), [])) ∧
    (ConnectToCluster unreachableEnv NewK8sService sampleTokenConnection).result =
      Outcome.error
        (GoError.wrap "failed to connect to cluster: " (GoError.msg "connection refused")) ∧
    (∀ (now : Int) (ns : String),
      ListContainers (ConnectToCluster unreachableEnv NewK8sService sampleTokenConnection).service
          now ns =
        (Outcome.error (GoError.wrap "failed to list pods: " (GoError.msg "connection refused")),
          [ApiCall.listPods ns])) ∧
    (∀ ns podName : String,
      StopContainer (ConnectToCluster unreachableEnv NewK8sService sampleTokenConnection).service
          ns podName =
        (Outcome.error (GoError.wrap "failed to delete pod: " (GoError.msg "connection refused")),
          [ApiCall.deletePod ns podName ⟨some "Foreground"⟩])) := by
  refine ⟨rfl, ?_, rfl, ?_, ?_⟩
  · intro v range config now ns podName req
    exact ⟨rfl, rfl, rfl, rfl, rfl, rfl⟩
  · intro now ns
    rfl
  · intro ns podName
    rfl

/-- C15, what the code does: `ConnectToCluster` stores the new client and
configuration in the service before it probes the cluster, so when the
server-version query fails with `e` the call returns the error
`failed to connect to cluster` wrapping `e` and the service holds the new
client and the new configuration, whatever it held before; the version query
is the last thing the call did. -/
theorem C15_probe_failure_keeps_client (env : ConnectEnv) (s : K8sService)
    (connection : K8sConnection) (built : RestConfig) (effects : List ConnectEffect)
    (clientSet : Clientset) (e : GoError)
    (hb : buildRestConfig env connection = (Except.ok built, effects))
    (hn : env.newForConfig (withImpersonation connection built) = Except.ok clientSet)
    (hp : clientSet.serverVersion = Except.error e) :
    (ConnectToCluster env s connection).result =
      Outcome.error (GoError.wrap "failed to connect to cluster: " e) ∧
    (ConnectToCluster env s connection).service.clientSet = some clientSet ∧
    (ConnectToCluster env s connection).service.config =
      some (withImpersonation connection built) ∧
    (ConnectToCluster env s connection).effects =
      effects ++ [ConnectEffect.serverVersion (withImpersonation connection built)] := by
  unfold ConnectToCluster
  rw [hb]
  simp [hn, hp]

/-- C15, on a fresh service and a token connection to a cluster that refuses
the version query: the call returns an error, and the configuration of the
service, unset before the call, is set after it. -/
theorem C15_probe_failure_keeps_client_witness :
    NewK8sService.config = none ∧
    (ConnectToCluster unreachableEnv NewK8sService sampleTokenConnection).result =
      Outcome.error
        (GoError.wrap "failed to connect to cluster: " (GoError.msg "connection refused")) ∧
    (ConnectToCluster unreachableEnv NewK8sService sampleTokenConnection).service.config =
      some ⟨"https://10.0.0.1:6443", "secret", true, "system:serviceaccount:team-a:default"⟩ :=
  have h := C15_probe_failure_keeps_client unreachableEnv NewK8sService sampleTokenConnection
    ⟨"https://10.0.0.1:6443", "secret", true, ""⟩ [] unreachableClientset
    (GoError.msg "connection refused") rfl rfl rfl
  ⟨rfl, h.1, h.2.2.1⟩

/-- C16: for every connection of the kind `kubeconfig` whose document the
deserializer rejects with `e`, `ConnectToCluster` returns the error
`failed to parse kubeconfig` wrapping `e`, has no effect on the outside (no
file written or read, no request to a cluster), and leaves the service as it
was. -/
theorem C16_kubeconfig_parse_failure (env : ConnectEnv) (s : K8sService)
    (connection : K8sConnection) (e : GoError)
    (hk : connection.ConfigType = "kubeconfig")
    (hu : env.unmarshalConfig connection.Config = Except.error e) :
    (ConnectToCluster env s connection).result =
      Outcome.error (GoError.wrap "failed to parse kubeconfig: " e) ∧
    (GoError.wrap "failed to parse kubeconfig: " e).Unwrap = some e ∧
    (ConnectToCluster env s connection).effects = [] ∧
    (ConnectToCluster env s connection).service = s := by
  have hb : buildRestConfig env connection =
      (Except.error (GoError.wrap "failed to parse kubeconfig: " e), []) := by
    unfold buildRestConfig
    rw [if_pos hk, hu]
  unfold ConnectToCluster
  rw [hb]
  exact ⟨rfl, rfl, rfl, rfl⟩

/-- C16, on a connection of the kind `kubeconfig` with an empty document and
a connected service: the call fails with the parser error wrapped, without
any effect, and the service still holds its client. -/
theorem C16_kubeconfig_parse_failure_witness :
    (ConnectToCluster unreachableEnv (sampleService []) sampleBrokenConnection).result =
      Outcome.error
        (GoError.wrap "failed to parse kubeconfig: "
          (GoError.msg "unexpected end of JSON input")) ∧
    (GoError.wrap "failed to parse kubeconfig: "
      (GoError.msg "unexpected end of JSON input")).Unwrap =
        some (GoError.msg "unexpected end of JSON input") ∧
    (ConnectToCluster unreachableEnv (sampleService []) sampleBrokenConnection).effects = [] ∧
    (ConnectToCluster unreachableEnv (sampleService []) sampleBrokenConnection).service =
      sampleService [] :=
  C16_kubeconfig_parse_failure unreachableEnv (sampleService []) sampleBrokenConnection
    (GoError.msg "unexpected end of JSON input") rfl rfl

/-- C17: for every service, namespace and pod name, `StartContainer` returns
the result and issues the requests of `RestartContainer`, and
`DeleteContainer` returns the result and issues the requests of
`StopContainer`. -/
theorem C17_start_is_restart_delete_is_stop (s : K8sService) (ns podName : String) :
    (StartContainer s ns podName).1 = (RestartContainer s ns podName).1 ∧
    (StartContainer s ns podName).2 = (RestartContainer s ns podName).2 ∧
    (DeleteContainer s ns podName).1 = (StopContainer s ns podName).1 ∧
    (DeleteContainer s ns podName).2 = (StopContainer s ns podName).2 :=
  ⟨rfl, rfl, rfl, rfl⟩

theorem StopContainer_calls (s : K8sService) (client : Clientset) (ns podName : String)
    (hs : s.clientSet = some client) :
    (StopContainer s ns podName).2 = [ApiCall.deletePod ns podName ⟨some "Foreground"⟩] := by
  unfold StopContainer
  simp only [hs]
  cases client.deletePod ns podName ⟨some "Foreground"⟩ with
  | error e => rfl
  | ok u => rfl

theorem RestartContainer_calls (s : K8sService) (client : Clientset) (ns podName : String)
    (hs : s.clientSet = some client) :
    (RestartContainer s ns podName).2 = [ApiCall.deletePod ns podName ⟨none⟩] := by
  unfold RestartContainer
  simp only [hs]
  cases client.deletePod ns podName ⟨none⟩ with
  | error e => rfl
  | ok u => rfl

/-- C18: on a connected service, for every namespace and pod name,
`StopContainer` issues exactly one request, a pod delete with the propagation
policy `Foreground`, and `RestartContainer` issues exactly one request, a pod
delete with no propagation policy; neither issues a pod creation. -/
theorem C18_delete_requests (s : K8sService) (client : Clientset) (ns podName : String)
    (hs : s.clientSet = some client) :
    (StopContainer s ns podName).2 = [ApiCall.deletePod ns podName ⟨some "Foreground"⟩] ∧
    (RestartContainer s ns podName).2 = [ApiCall.deletePod ns podName ⟨none⟩] ∧
    (∀ (target : String) (pod : Pod),
      ApiCall.createPod target pod ∉ (StopContainer s ns podName).2) ∧
    (∀ (target : String) (pod : Pod),
      ApiCall.createPod target pod ∉ (RestartContainer s ns podName).2) := by
  refine ⟨StopContainer_calls s client ns podName hs,
    RestartContainer_calls s client ns podName hs, ?_, ?_⟩
  · intro target pod
    rw [StopContainer_calls s client ns podName hs]
    simp
  · intro target pod
    rw [RestartContainer_calls s client ns podName hs]
    simp

/-- C18, on the pod `web-pod` of the namespace `default`. -/
theorem C18_delete_requests_witness :
    (StopContainer (sampleService []) "default" "web-pod").2 =
      [ApiCall.deletePod "default" "web-pod" ⟨some "Foreground"⟩] ∧
    (RestartContainer (sampleService []) "default" "web-pod").2 =
      [ApiCall.deletePod "default" "web-pod" ⟨none⟩] :=
  have h := C18_delete_requests (sampleService []) (sampleClientset []) "default" "web-pod" rfl
  ⟨h.1, h.2.1⟩

/-- C19 fails as stated: when the delete request fails, the error that
`StopContainer` returns is the same for the pod `web-pod` of the namespace
`team-a` and for the pod `db-pod` of the namespace `team-b`; its text is
`failed to delete pod: connection refused`, which names neither the namespace
nor the pod. -/
theorem C19_counterexample :
    (StopContainer unreachableService "team-a" "web-pod").1 =
      (StopContainer unreachableService "team-b" "db-pod").1 ∧
    (StopContainer unreachableService "team-a" "web-pod").1 =
      Outcome.error (GoError.wrap "failed to delete pod: " (GoError.msg "connection refused")) ∧
    (GoError.wrap "failed to delete pod: " (GoError.msg "connection refused")).Error =
      "failed to delete pod: connection refused" ∧
    stringsContains "failed to delete pod: connection refused" "team-a" = false ∧
    stringsContains "failed to delete pod: connection refused" "web-pod" = false := by
  decide

/-- C19, amended: on a connected service, when the request to the cluster of
a lifecycle operation fails with `e`, the operation has issued that one
request and no other, and returns `e` wrapped, unmodified, in a context that
names the verb only: `failed to list pods: ` for `ListContainers`, which
returns no record, `failed to create pod: ` for `CreateContainer`,
`failed to delete pod: ` for `StopContainer` and
`failed to delete pod for restart: ` for `RestartContainer`; the text of the
error is the context followed by the text of `e`. -/
theorem C19_errors_wrapped_once (v : String → Bool) (range : MapRange) (s : K8sService)
    (client : Clientset)
    (now : Int) (ns podName : String) (req : CreateContainerRequest)
    (r : ResourceRequirements) (e : GoError) (hs : s.clientSet = some client) :
    (client.listPods ns = Except.error e →
      ListContainers s now ns =
        (Outcome.error (GoError.wrap "failed to list pods: " e), [ApiCall.listPods ns])) ∧
    (requestResources v req = Outcome.ok r →
      client.createPod req.Namespace
          (podOfRequest req (requestEnvVars range req) (requestPorts req) r) = Except.error e →
      CreateContainer v range s req =
        (Outcome.error (GoError.wrap "failed to create pod: " e),
          [ApiCall.createPod req.Namespace
            (podOfRequest req (requestEnvVars range req) (requestPorts req) r)])) ∧
    (client.deletePod ns podName ⟨some "Foreground"⟩ = Except.error e →
      StopContainer s ns podName =
        (Outcome.error (GoError.wrap "failed to delete pod: " e),
          [ApiCall.deletePod ns podName ⟨some "Foreground"⟩])) ∧
    (client.deletePod ns podName ⟨none⟩ = Except.error e →
      RestartContainer s ns podName =
        (Outcome.error (GoError.wrap "failed to delete pod for restart: " e),
          [ApiCall.deletePod ns podName ⟨none⟩])) ∧
    (∀ context : String,
      (GoError.wrap context e).Unwrap = some e ∧
      (GoError.wrap context e).Error = context ++ e.Error) := by
  refine ⟨?_, ?_, ?_, ?_, fun context => ⟨rfl, rfl⟩⟩
  · intro h
    unfold ListContainers
    simp only [hs, h]
  · intro hr h
    rw [CreateContainer_of_resources v range s client req r hs hr, h]
  · intro h
    unfold StopContainer
    simp only [hs, h]
  · intro h
    unfold RestartContainer
    simp only [hs, h]

/-- C19, amended, on a cluster that refuses every request. -/
theorem C19_errors_wrapped_once_witness :
    ListContainers unreachableService 0 "default" =
      (Outcome.error (GoError.wrap "failed to list pods: " (GoError.msg "connection refused")),
        [ApiCall.listPods "default"]) ∧
    (CreateContainer sampleValidQuantity insertionOrder unreachableService sampleRequest).1 =
      Outcome.error (GoError.wrap "failed to create pod: " (GoError.msg "connection refused")) ∧
    StopContainer unreachableService "default" "web-pod" =
      (Outcome.error (GoError.wrap "failed to delete pod: " (GoError.msg "connection refused")),
        [ApiCall.deletePod "default" "web-pod" ⟨some "Foreground"⟩]) ∧
    RestartContainer unreachableService "default" "web-pod" =
      (Outcome.error
        (GoError.wrap "failed to delete pod for restart: " (GoError.msg "connection refused")),
        [ApiCall.deletePod "default" "web-pod" ⟨none⟩]) :=
  have h := C19_errors_wrapped_once sampleValidQuantity insertionOrder unreachableService unreachableClientset
    0 "default" "web-pod" sampleRequest ⟨[], [("cpu", ⟨"1"⟩), ("memory", ⟨"2Gi"⟩)]⟩
    (GoError.msg "connection refused") rfl
  ⟨h.1 rfl, congrArg Prod.fst (h.2.1 (by decide) rfl), h.2.2.1 rfl, h.2.2.2.1 rfl⟩

/-! ## `WaitForPodReady` -/

theorem allStatusesReady_iff (statuses : List ContainerStatus) :
    allStatusesReady statuses = true ↔ ∀ cs ∈ statuses, cs.Ready = true := by
  induction statuses with
  | nil => simp [allStatusesReady]
  | cons cs rest ih =>
    cases h : cs.Ready with
    | false => simp [allStatusesReady, h]
    | true => simp [allStatusesReady, h, ih]

/-- C20, what the code does: a poll of `WaitForPodReady` whose fetch succeeds
returns success exactly when the phase of the pod is `Running` and every
record of `pod.Status.ContainerStatuses` reports ready; the containers
declared in the spec are not consulted. For the running pod `p`, which
declares the container `web` and has no status record, so that no declared
container reports ready, the poll returns success and `WaitForPodReady`
returns success at its first request. -/
theorem C20_ready_over_status_records :
    (∀ pod : Pod,
      pollOutcome (Except.ok pod) = some (Outcome.ok ()) ↔
        (pod.Status.Phase = "Running" ∧
          ∀ cs ∈ pod.Status.ContainerStatuses, cs.Ready = true)) ∧
    (∀ pod : Pod, pollOutcome (Except.ok pod) = some (Outcome.ok ()) ∨
      pollOutcome (Except.ok pod) = none) ∧
    sampleBarePod.Status.Phase = "Running" ∧
    sampleBarePod.Spec.Containers = [sampleContainer] ∧
    sampleBarePod.Status.ContainerStatuses = [] ∧
    declaredContainersReady sampleBarePod = false ∧
    pollOutcome (Except.ok sampleBarePod) = some (Outcome.ok ()) ∧
    (∀ race : DeadlineRace,
      WaitForPodReady (sampleClient sampleBarePod) race "p" 10000000000 =
        some ⟨Outcome.ok (), 0, 1⟩) := by
  refine ⟨?_, ?_, by decide, by decide, by decide, by decide, by decide, fun race => rfl⟩
  · intro pod
    simp only [pollOutcome]
    by_cases hp : pod.Status.Phase = "Running"
    · by_cases hr : allStatusesReady pod.Status.ContainerStatuses = true
      · rw [if_pos hp, if_pos hr]
        exact ⟨fun _ => ⟨hp, (allStatusesReady_iff _).mp hr⟩, fun _ => rfl⟩
      · rw [if_pos hp, if_neg hr]
        exact ⟨fun h => Option.noConfusion h,
          fun h => absurd ((allStatusesReady_iff _).mpr h.2) hr⟩
    · rw [if_neg hp]
      exact ⟨fun h => Option.noConfusion h, fun h => absurd h.1 hp⟩
  · intro pod
    simp only [pollOutcome]
    by_cases hp : pod.Status.Phase = "Running"
    · by_cases hr : allStatusesReady pod.Status.ContainerStatuses = true
      · rw [if_pos hp, if_pos hr]
        exact Or.inl rfl
      · rw [if_pos hp, if_neg hr]
        exact Or.inr rfl
    · rw [if_neg hp]
      exact Or.inr rfl

/-! ## The loop of `WaitForPodReady` -/

theorem pollOutcome_ok (pod : Pod) :
    pollOutcome (Except.ok pod) = if podReady pod = true then some (Outcome.ok ()) else none := by
  unfold pollOutcome podReady
  by_cases hp : pod.Status.Phase = "Running"
  · by_cases hr : allStatusesReady pod.Status.ContainerStatuses = true
    · simp [hp, hr]
    · simp [hp, hr]
  · simp [hp]

theorem contextDone_false (race : DeadlineRace) (timeout : Int) (t : Nat)
    (h : contextDone race timeout t = false) : (t : Int) ≤ timeout := by
  unfold contextDone at h
  simp only [Bool.or_eq_false_iff, decide_eq_false_iff_not, not_lt] at h
  exact h.1

theorem contextDone_true (race : DeadlineRace) (timeout : Int) (t : Nat)
    (h : contextDone race timeout t = true) : timeout ≤ (t : Int) := by
  unfold contextDone at h
  simp only [Bool.or_eq_true, Bool.and_eq_true, decide_eq_true_eq] at h
  cases h with
  | inl h => exact le_of_lt h
  | inr h => exact le_of_eq h.1

theorem contextDone_of_lt (race : DeadlineRace) (timeout : Int) (t : Nat)
    (h : timeout < (t : Int)) : contextDone race timeout t = true := by
  unfold contextDone
  simp [h]

theorem GetPod_time (c : Client) (race : DeadlineRace) (i t : Nat) (deadline : Int)
    (name : String) (h : (t : Int) ≤ deadline) :
    t ≤ (c.GetPod race i t deadline name).2 ∧
    ((c.GetPod race i t deadline name).2 : Int) ≤ deadline := by
  unfold Client.GetPod
  simp only
  by_cases hl : (decide (((t + (c.getPod i c.ns name).latency : Nat) : Int) < deadline) ||
      (decide (((t + (c.getPod i c.ns name).latency : Nat) : Int) = deadline) &&
        !race.requestCut)) = true
  · rw [if_pos hl]
    have hle : ((t + (c.getPod i c.ns name).latency : Nat) : Int) ≤ deadline := by
      simp only [Bool.or_eq_true, Bool.and_eq_true, decide_eq_true_eq] at hl
      cases hl with
      | inl h1 => exact le_of_lt h1
      | inr h1 => exact le_of_eq h1.1
    cases (c.getPod i c.ns name).answer with
    | error e =>
      simp only
      exact ⟨Nat.le_add_right _ _, hle⟩
    | ok pod =>
      simp only
      exact ⟨Nat.le_add_right _ _, hle⟩
  · rw [if_neg hl]
    simp only
    have h0 : (0 : Int) ≤ deadline := by
      have : (0 : Int) ≤ (t : Int) := Int.natCast_nonneg t
      linarith
    have h1 : ((deadline.toNat : Nat) : Int) = deadline := Int.toNat_of_nonneg h0
    constructor
    · have : (t : Int) ≤ ((deadline.toNat : Nat) : Int) := by rw [h1]; exact h
      exact_mod_cast this
    · rw [h1]

theorem GetPod_late (c : Client) (race : DeadlineRace) (i t : Nat) (deadline : Int)
    (name : String) (h : deadline ≤ (t : Int)) :
    deadline ≤ ((c.GetPod race i t deadline name).2 : Int) := by
  unfold Client.GetPod
  simp only
  by_cases hl : (decide (((t + (c.getPod i c.ns name).latency : Nat) : Int) < deadline) ||
      (decide (((t + (c.getPod i c.ns name).latency : Nat) : Int) = deadline) &&
        !race.requestCut)) = true
  · rw [if_pos hl]
    have hge : deadline ≤ ((t + (c.getPod i c.ns name).latency : Nat) : Int) := by
      push_cast
      have : (0 : Int) ≤ ((c.getPod i c.ns name).latency : Int) := Int.natCast_nonneg _
      linarith
    cases (c.getPod i c.ns name).answer with
    | error e => exact hge
    | ok pod => exact hge
  · rw [if_neg hl]
    exact Int.self_le_toNat deadline

theorem pollStart_succ (c : Client) (race : DeadlineRace) (podName : String) (timeout : Int)
    (i : Nat) :
    pollStart c race podName timeout (i + 1) =
      (c.GetPod race i (pollStart c race podName timeout i) timeout podName).2 +
        2000000000 := rfl

theorem pollStart_late (c : Client) (race : DeadlineRace) (podName : String) (timeout : Int)
    (i : Nat) (h : timeout ≤ (pollStart c race podName timeout i : Int)) (k : Nat) :
    timeout < (pollStart c race podName timeout (i + k + 1) : Int) := by
  induction k with
  | zero =>
    rw [Nat.add_zero, pollStart_succ]
    have := GetPod_late c race i _ timeout podName h
    push_cast
    linarith
  | succ k ih =>
    have e : i + (k + 1) + 1 = (i + k + 1) + 1 := by omega
    rw [e, pollStart_succ]
    have := GetPod_late c race (i + k + 1) _ timeout podName (le_of_lt ih)
    push_cast
    linarith

theorem polls_early (c : Client) (race : DeadlineRace) (podName : String) (timeout : Int)
    (i k : Nat) (hik : i ≤ k) (h : polls c race podName timeout k = true) :
    polls c race podName timeout i = true := by
  unfold polls at h ⊢
  cases hd : contextDone race timeout (pollStart c race podName timeout i) with
  | false => rfl
  | true =>
    have hle := contextDone_true race timeout _ hd
    by_cases e : i = k
    · rw [e] at hd
      rw [hd] at h
      exact h
    · have hlt := pollStart_late c race podName timeout i hle (k - i - 1)
      have hk : i + (k - i - 1) + 1 = k := by omega
      rw [hk] at hlt
      rw [contextDone_of_lt race timeout _ hlt] at h
      exact h

theorem waitLoop_returns (c : Client) (race : DeadlineRace) (podName : String)
    (timeout : Int) :
    ∀ (fuel i t : Nat), timeout < (t : Int) + 2000000000 * (fuel : Int) →
      ∃ w, waitLoop c race podName timeout (fuel + 1) i t = some w := by
  intro fuel
  induction fuel with
  | zero =>
    intro i t h
    have ht : timeout < (t : Int) := by simpa using h
    exact ⟨_, by rw [waitLoop, if_pos (contextDone_of_lt race timeout t ht)]⟩
  | succ fuel ih =>
    intro i t h
    rw [waitLoop]
    cases hd : contextDone race timeout t with
    | true => exact ⟨_, by rw [if_pos rfl]⟩
    | false =>
      rw [if_neg (by simp)]
      cases hp : pollOutcome (c.GetPod race i t timeout podName).1 with
      | some result => exact ⟨_, rfl⟩
      | none =>
        simp only
        apply ih
        have hge := (GetPod_time c race i t timeout podName
          (contextDone_false race timeout t hd)).1
        have hge2 : (t : Int) ≤ ((c.GetPod race i t timeout podName).2 : Int) := by
          exact_mod_cast hge
        push_cast at h ⊢
        linarith

theorem WaitForPodReady_returns (c : Client) (race : DeadlineRace) (podName : String)
    (timeout : Int) : ∃ w, WaitForPodReady c race podName timeout = some w := by
  unfold WaitForPodReady
  have hf : (timeout / 2000000000).toNat + 2 = ((timeout / 2000000000).toNat + 1) + 1 := rfl
  rw [hf]
  apply waitLoop_returns
  push_cast
  have h1 := Int.self_le_toNat (timeout / 2000000000)
  have h2 := Int.emod_add_ediv timeout 2000000000
  have h3 : timeout % 2000000000 < 2000000000 := Int.emod_lt_of_pos _ (by norm_num)
  linarith

theorem waitLoop_success (c : Client) (race : DeadlineRace) (podName : String)
    (timeout : Int) (k : Nat)
    (hfetch : ∀ i, polls c race podName timeout i = true →
      ∃ pod, pollFetch c race podName timeout i = Except.ok pod)
    (hk : polls c race podName timeout k = true)
    (hready : pollOutcome (pollFetch c race podName timeout k) = some (Outcome.ok ())) :
    ∀ (fuel i : Nat), i ≤ k → ∀ w,
      waitLoop c race podName timeout fuel i (pollStart c race podName timeout i) = some w →
      w.result = Outcome.ok () := by
  intro fuel
  induction fuel with
  | zero =>
    intro i _ w h
    rw [waitLoop] at h
    exact Option.noConfusion h
  | succ fuel ih =>
    intro i hik w h
    have hpolls := polls_early c race podName timeout i k hik hk
    have hnd : contextDone race timeout (pollStart c race podName timeout i) = false := by
      unfold polls at hpolls
      simpa using hpolls
    rw [waitLoop, hnd] at h
    rw [if_neg (by simp)] at h
    obtain ⟨pod, hpod⟩ := hfetch i hpolls
    have hpod2 : (c.GetPod race i (pollStart c race podName timeout i) timeout podName).1 =
        Except.ok pod := hpod
    rw [hpod2, pollOutcome_ok] at h
    by_cases hr : podReady pod = true
    · rw [if_pos hr] at h
      simp only [Option.some.injEq] at h
      rw [← h]
    · rw [if_neg hr] at h
      simp only at h
      have hne : i ≠ k := by
        intro e
        rw [← e, hpod, pollOutcome_ok, if_neg hr] at hready
        exact Option.noConfusion hready
      exact ih (i + 1) (by omega) w h

theorem waitLoop_deadline (c : Client) (race : DeadlineRace) (podName : String)
    (timeout : Int)
    (hnever : ∀ i, polls c race podName timeout i = true →
      pollOutcome (pollFetch c race podName timeout i) = none) :
    ∀ (fuel i : Nat),
      (pollStart c race podName timeout i : Int) ≤ max 0 timeout + 2000000000 →
      ∀ w, waitLoop c race podName timeout fuel i (pollStart c race podName timeout i) =
          some w →
      w.result = Outcome.error (readinessTimeout podName) ∧
      (w.returnedAt : Int) ≤ max 0 timeout + 2000000000 ∧
      timeout ≤ (w.returnedAt : Int) := by
  intro fuel
  induction fuel with
  | zero =>
    intro i _ w h
    rw [waitLoop] at h
    exact Option.noConfusion h
  | succ fuel ih =>
    intro i hb w h
    rw [waitLoop] at h
    cases hd : contextDone race timeout (pollStart c race podName timeout i) with
    | true =>
      rw [hd, if_pos rfl] at h
      simp only [Option.some.injEq] at h
      rw [← h]
      exact ⟨rfl, hb, contextDone_true race timeout _ hd⟩
    | false =>
      rw [hd, if_neg (by simp)] at h
      have hpolls : polls c race podName timeout i = true := by
        unfold polls
        rw [hd]
        rfl
      have hn := hnever i hpolls
      unfold pollFetch at hn
      rw [hn] at h
      simp only at h
      apply ih (i + 1) _ w h
      rw [pollStart_succ]
      have hle := (GetPod_time c race i _ timeout podName
        (contextDone_false race timeout _ hd)).2
      push_cast
      have := le_max_right (0 : Int) timeout
      linarith

theorem scriptedClient_fetch (pods : Nat → Pod) (race : DeadlineRace) (podName : String)
    (timeout : Int) (i : Nat) (hr : race.requestCut = false)
    (h : polls (scriptedClient pods) race podName timeout i = true) :
    pollFetch (scriptedClient pods) race podName timeout i = Except.ok (pods i) := by
  have hl : (scriptedClient pods).getPod i (scriptedClient pods).ns podName =
      ⟨0, Except.ok (pods i)⟩ := rfl
  have hle : (pollStart (scriptedClient pods) race podName timeout i : Int) ≤ timeout := by
    apply contextDone_false race
    unfold polls at h
    simpa using h
  unfold pollFetch Client.GetPod
  simp only [hl, Nat.add_zero]
  have hc : (decide ((pollStart (scriptedClient pods) race podName timeout i : Int) < timeout) ||
      (decide ((pollStart (scriptedClient pods) race podName timeout i : Int) = timeout) &&
        !race.requestCut)) = true := by
    rw [hr]
    simp only [Bool.not_false, Bool.and_true, Bool.or_eq_true, decide_eq_true_eq]
    exact lt_or_eq_of_le hle
  rw [if_pos hc]

theorem podReady_eq_declared (pod : Pod)
    (hnames : pod.Status.ContainerStatuses.map (fun cs => cs.Name) =
      pod.Spec.Containers.map (fun container => container.Name))
    (hdistinct : (pod.Spec.Containers.map (fun container => container.Name)).Nodup) :
    podReady pod = (decide (pod.Status.Phase = "Running") && declaredContainersReady pod) := by
  have hiff : allStatusesReady pod.Status.ContainerStatuses = true ↔
      declaredContainersReady pod = true := by
    rw [allStatusesReady_iff]
    unfold declaredContainersReady
    simp only [List.all_eq_true, List.any_eq_true, Bool.and_eq_true, decide_eq_true_eq]
    constructor
    · intro hall container hc
      have hmem : container.Name ∈ pod.Status.ContainerStatuses.map (fun cs => cs.Name) := by
        rw [hnames]
        exact List.mem_map_of_mem _ hc
      obtain ⟨cs, hcs, hname⟩ := List.mem_map.mp hmem
      exact ⟨cs, hcs, hname, hall cs hcs⟩
    · intro hall cs hcs
      have hmem : cs.Name ∈ pod.Spec.Containers.map (fun container => container.Name) := by
        rw [← hnames]
        exact List.mem_map_of_mem (fun cs => cs.Name) hcs
      obtain ⟨container, hc, hname⟩ := List.mem_map.mp hmem
      obtain ⟨other, hother, hsame, hready⟩ := hall container hc
      have hnodup : (pod.Status.ContainerStatuses.map (fun cs => cs.Name)).Nodup := by
        rw [hnames]
        exact hdistinct
      have heq : other = cs :=
        List.inj_on_of_nodup_map hnodup hother hcs (by rw [hsame, hname])
      rw [← heq]
      exact hready
  unfold podReady
  cases h1 : allStatusesReady pod.Status.ContainerStatuses with
  | true => rw [hiff.mp h1]
  | false =>
    cases h2 : declaredContainersReady pod with
    | false => rfl
    | true => rw [hiff.mpr h2] at h1; exact Bool.noConfusion h1

/-- C21, what the code does: take a run of `WaitForPodReady` in which every
`GetPod` request that a turn of the loop makes succeeds. The call returns. If
at some turn the fetched pod passes the test of the loop (phase `Running`,
every status record ready), the call returns success. If at no turn the
fetched pod passes the test, the call returns the error
`等待Pod <name> 就绪超时`, not before the timeout and no later than the timeout
(taken as 0 when negative) plus two seconds after the call began, however the
races at the deadline end. The test of the loop is the readiness of every
declared container only for a pod whose status records are those of its
declared containers, one each. For the running pod `p`, which declares `web`
and has no status record, on a cluster that answers every request at once
with this pod, no declared container ever reports ready and the one request
made succeeds, yet the call returns success at once and not the timeout
error. Time is counted in nanoseconds; a request lasts as long as the
cluster takes, the sleep two seconds, all else no time. -/
theorem C21_wait_by_status_records (c : Client) (race : DeadlineRace) (podName : String)
    (timeout : Int)
    (hfetch : ∀ i, polls c race podName timeout i = true →
      ∃ pod, pollFetch c race podName timeout i = Except.ok pod) :
    (∃ w, WaitForPodReady c race podName timeout = some w) ∧
    ((∃ (k : Nat) (pod : Pod), polls c race podName timeout k = true ∧
        pollFetch c race podName timeout k = Except.ok pod ∧ podReady pod = true) →
      ∃ w, WaitForPodReady c race podName timeout = some w ∧ w.result = Outcome.ok ()) ∧
    ((∀ (i : Nat) (pod : Pod), polls c race podName timeout i = true →
        pollFetch c race podName timeout i = Except.ok pod → podReady pod = false) →
      ∃ w, WaitForPodReady c race podName timeout = some w ∧
        w.result = Outcome.error (readinessTimeout podName) ∧
        timeout ≤ (w.returnedAt : Int) ∧
        (w.returnedAt : Int) ≤ max 0 timeout + 2000000000) ∧
    (∀ pod : Pod,
      pod.Status.ContainerStatuses.map (fun cs => cs.Name) =
        pod.Spec.Containers.map (fun container => container.Name) →
      (pod.Spec.Containers.map (fun container => container.Name)).Nodup →
      podReady pod =
        (decide (pod.Status.Phase = "Running") && declaredContainersReady pod)) ∧
    (sampleBarePod.Spec.Containers = [sampleContainer] ∧
      declaredContainersReady sampleBarePod = false ∧ podReady sampleBarePod = true) ∧
    (∀ (i : Nat) (ns name : String),
      (scriptedClient (fun _ => sampleBarePod)).getPod i ns name =
        ⟨0, Except.ok sampleBarePod⟩) ∧
    (∀ anyRace : DeadlineRace,
      WaitForPodReady (scriptedClient (fun _ => sampleBarePod)) anyRace "p" 10000000000 =
        some ⟨Outcome.ok (), 0, 1⟩) := by
  obtain ⟨w, hw⟩ := WaitForPodReady_returns c race podName timeout
  refine ⟨⟨w, hw⟩, ?_, ?_, podReady_eq_declared, ⟨rfl, by decide, by decide⟩,
    fun i ns name => rfl, fun anyRace => rfl⟩
  · rintro ⟨k, pod, hk, hpod, hready⟩
    refine ⟨w, hw, ?_⟩
    have hr : pollOutcome (pollFetch c race podName timeout k) = some (Outcome.ok ()) := by
      rw [hpod, pollOutcome_ok, if_pos hready]
    exact waitLoop_success c race podName timeout k hfetch hk hr _ 0 (Nat.zero_le k) w hw
  · intro hnot
    refine ⟨w, hw, ?_⟩
    have hnever : ∀ i, polls c race podName timeout i = true →
        pollOutcome (pollFetch c race podName timeout i) = none := by
      intro i hi
      obtain ⟨pod, hpod⟩ := hfetch i hi
      have hf := hnot i pod hi hpod
      rw [hpod, pollOutcome_ok, hf]
      rfl
    have h0 : ((pollStart c race podName timeout 0 : Nat) : Int) ≤
        max 0 timeout + 2000000000 := by
      have := le_max_left (0 : Int) timeout
      show ((0 : Nat) : Int) ≤ max 0 timeout + 2000000000
      push_cast
      linarith
    obtain ⟨h1, h2, h3⟩ := waitLoop_deadline c race podName timeout hnever _ 0 h0 w hw
    exact ⟨h1, h3, h2⟩

/-- C21, on a cluster that answers at once, the races at the deadline going
to the loop: with a pod that stays pending and a timeout of four seconds the
third turn starts exactly at the deadline and still polls, and the call
returns the timeout error six seconds after it began; with a pod that is
ready from the third request on and a timeout of ten seconds the call returns
success. -/
theorem C21_wait_by_status_records_witness :
    (∃ w, WaitForPodReady (scriptedClient (fun _ => samplePendingPod)) ⟨false, false⟩ "q"
        4000000000 = some w ∧
      w.result = Outcome.error (readinessTimeout "q") ∧
      (4000000000 : Int) ≤ (w.returnedAt : Int) ∧
      (w.returnedAt : Int) ≤ max 0 4000000000 + 2000000000) ∧
    WaitForPodReady (scriptedClient (fun _ => samplePendingPod)) ⟨false, false⟩ "q"
        4000000000 = some ⟨Outcome.error (readinessTimeout "q"), 6000000000, 3⟩ ∧
    (∃ w, WaitForPodReady
        (scriptedClient (fun i => if i < 2 then samplePendingPod else samplePod))
        ⟨false, false⟩ "p" 10000000000 = some w ∧
      w.result = Outcome.ok ()) :=
  ⟨(C21_wait_by_status_records (scriptedClient (fun _ => samplePendingPod)) ⟨false, false⟩
      "q" 4000000000
      (fun i h => ⟨samplePendingPod, scriptedClient_fetch _ _ "q" 4000000000 i rfl h⟩)).2.2.1
      (fun i pod h hp => by
        rw [scriptedClient_fetch _ _ "q" 4000000000 i rfl h] at hp
        rw [← Except.ok.inj hp]
        decide),
    by decide,
    (C21_wait_by_status_records
      (scriptedClient (fun i => if i < 2 then samplePendingPod else samplePod))
      ⟨false, false⟩ "p" 10000000000
      (fun i h => ⟨_, scriptedClient_fetch _ _ "p" 10000000000 i rfl h⟩)).2.1
      ⟨2, samplePod, by decide, rfl, by decide⟩⟩
/-! ## `ConvertToContainerModel` -/

theorem quantityField_empty (lib : QuantityLib) (list : ResourceList) (name : String) :
    quantityField lib (ResourceList.Name list name) "" = shownQuantity lib list name := by
  unfold quantityField shownQuantity ResourceList.Name
  cases ResourceList.get? list name with
  | none => rfl
  | some q => cases h : lib.IsZero q <;> simp [h]

theorem shownQuantity_nil (lib : QuantityLib) (name : String) :
    shownQuantity lib [] name = "" := rfl

theorem ConvertToContainerModel_resources (lib : QuantityLib) (objectMeta : ObjectMeta)
    (c : Container) (rest : List Container) (policy node : String) (status : PodStatus) :
    ConvertToContainerModel lib ⟨objectMeta, ⟨c :: rest, policy, node⟩, status⟩ =
      { Name := objectMeta.Name
        K8sName := objectMeta.Name
        PodName := objectMeta.Name
        Status := status.Phase
        Phase := status.Phase
        CPURequest := shownQuantity lib c.Resources.Requests "cpu"
        CPULimit := shownQuantity lib c.Resources.Limits "cpu"
        MemoryRequest := shownQuantity lib c.Resources.Requests "memory"
        MemoryLimit := shownQuantity lib c.Resources.Limits "memory"
        RestartCount := 0
        PodIP := status.PodIP
        NodeName := node
        StartedAt := status.StartTime } := by
  have hr : ∀ container : model.Container, container.CPURequest = "" →
      container.MemoryRequest = "" →
      setRequests lib c container =
        { container with
          CPURequest := shownQuantity lib c.Resources.Requests "cpu"
          MemoryRequest := shownQuantity lib c.Resources.Requests "memory" } := by
    intro container h1 h2
    unfold setRequests
    by_cases hn : c.Resources.Requests = []
    · rw [if_neg (not_not.mpr hn), hn]
      cases container
      simp only at h1 h2
      subst h1 h2
      rfl
    · rw [if_pos hn]
      simp only [h1, h2, quantityField_empty]
  have hl : ∀ container : model.Container, container.CPULimit = "" →
      container.MemoryLimit = "" →
      setLimits lib c container =
        { container with
          CPULimit := shownQuantity lib c.Resources.Limits "cpu"
          MemoryLimit := shownQuantity lib c.Resources.Limits "memory" } := by
    intro container h1 h2
    unfold setLimits
    by_cases hn : c.Resources.Limits = []
    · rw [if_neg (not_not.mpr hn), hn]
      cases container
      simp only at h1 h2
      subst h1 h2
      rfl
    · rw [if_pos hn]
      simp only [h1, h2, quantityField_empty]
  unfold ConvertToContainerModel
  simp only
  rw [hr _ rfl rfl, hl _ rfl rfl]
  cases status.StartTime with
  | none => rfl
  | some t => rfl

/-- C22: `ConvertToContainerModel` reads requests and limits from the first
declared container only. Two pods that differ only in the containers after
the first are converted to the same record; each of the four resource fields
is the text of the quantity that the first container holds for it when that
quantity is not zero, and empty otherwise (also when the container holds
none); for a pod that declares no container the four fields are empty. On the
pod whose first container `app` requests `500m` of CPU and a zero memory, and
limits memory to `256Mi`, the fields are `500m`, empty, empty and `256Mi`,
whatever the second container `side` holds. -/
theorem C22_resources_of_first_container (lib : QuantityLib) (objectMeta : ObjectMeta)
    (policy node : String) (status : PodStatus) :
    (∀ (c : Container) (rest others : List Container),
      ConvertToContainerModel lib ⟨objectMeta, ⟨c :: rest, policy, node⟩, status⟩ =
        ConvertToContainerModel lib ⟨objectMeta, ⟨c :: others, policy, node⟩, status⟩) ∧
    (∀ (c : Container) (rest : List Container),
      (ConvertToContainerModel lib ⟨objectMeta, ⟨c :: rest, policy, node⟩, status⟩).CPURequest =
        shownQuantity lib c.Resources.Requests "cpu" ∧
      (ConvertToContainerModel lib ⟨objectMeta, ⟨c :: rest, policy, node⟩, status⟩).MemoryRequest =
        shownQuantity lib c.Resources.Requests "memory" ∧
      (ConvertToContainerModel lib ⟨objectMeta, ⟨c :: rest, policy, node⟩, status⟩).CPULimit =
        shownQuantity lib c.Resources.Limits "cpu" ∧
      (ConvertToContainerModel lib ⟨objectMeta, ⟨c :: rest, policy, node⟩, status⟩).MemoryLimit =
        shownQuantity lib c.Resources.Limits "memory") ∧
    ((ConvertToContainerModel lib ⟨objectMeta, ⟨[], policy, node⟩, status⟩).CPURequest = "" ∧
      (ConvertToContainerModel lib ⟨objectMeta, ⟨[], policy, node⟩, status⟩).MemoryRequest = "" ∧
      (ConvertToContainerModel lib ⟨objectMeta, ⟨[], policy, node⟩, status⟩).CPULimit = "" ∧
      (ConvertToContainerModel lib ⟨objectMeta, ⟨[], policy, node⟩, status⟩).MemoryLimit = "") ∧
    (∀ (list : ResourceList) (name : String),
      shownQuantity lib list name =
        match ResourceList.get? list name with
        | some q => if lib.IsZero q then "" else lib.String q
        | none => "") ∧
    ((ConvertToContainerModel sampleQuantityLib
        ⟨objectMeta, ⟨[sampleAppContainer, sampleSidecar], policy, node⟩, status⟩).CPURequest,
      (ConvertToContainerModel sampleQuantityLib
        ⟨objectMeta, ⟨[sampleAppContainer, sampleSidecar], policy, node⟩, status⟩).MemoryRequest,
      (ConvertToContainerModel sampleQuantityLib
        ⟨objectMeta, ⟨[sampleAppContainer, sampleSidecar], policy, node⟩, status⟩).CPULimit,
      (ConvertToContainerModel sampleQuantityLib
        ⟨objectMeta, ⟨[sampleAppContainer, sampleSidecar], policy, node⟩, status⟩).MemoryLimit) =
      ("500m", "", "", "256Mi") := by
  refine ⟨?_, ?_, ?_, fun list name => rfl, ?_⟩
  · intro c rest others
    rw [ConvertToContainerModel_resources, ConvertToContainerModel_resources]
  · intro c rest
    rw [ConvertToContainerModel_resources]
    exact ⟨rfl, rfl, rfl, rfl⟩
  · unfold ConvertToContainerModel
    cases status.StartTime with
    | none => exact ⟨rfl, rfl, rfl, rfl⟩
    | some t => exact ⟨rfl, rfl, rfl, rfl⟩
  · have h1 : shownQuantity sampleQuantityLib sampleAppContainer.Resources.Requests "cpu" =
        "500m" := by decide
    have h2 : shownQuantity sampleQuantityLib sampleAppContainer.Resources.Requests "memory" =
        "" := by decide
    have h3 : shownQuantity sampleQuantityLib sampleAppContainer.Resources.Limits "cpu" =
        "" := by decide
    have h4 : shownQuantity sampleQuantityLib sampleAppContainer.Resources.Limits "memory" =
        "256Mi" := by decide
    rw [ConvertToContainerModel_resources, h1, h2, h3, h4]

/-! ## The client configuration of `ConnectToCluster` -/

theorem ConnectToCluster_config (env : ConnectEnv) (s : K8sService)
    (connection : K8sConnection) (built : RestConfig) (effects : List ConnectEffect)
    (clientSet : Clientset)
    (hb : buildRestConfig env connection = (Except.ok built, effects))
    (hn : env.newForConfig (withImpersonation connection built) = Except.ok clientSet) :
    (ConnectToCluster env s connection).service.config =
      some (withImpersonation connection built) := by
  unfold ConnectToCluster
  rw [hb]
  simp only [hn]
  cases clientSet.serverVersion with
  | error e => rfl
  | ok version => rfl

theorem buildRestConfig_token (env : ConnectEnv) (connection : K8sConnection)
    (hk : connection.ConfigType ≠ "kubeconfig") :
    buildRestConfig env connection =
      (Except.ok ⟨connection.Endpoint, connection.Token, true, ""⟩, []) := by
  unfold buildRestConfig
  rw [if_neg hk]

set_option maxRecDepth 100000 in
/-- C23 fails as stated: the connection `gamma` is of the kind `kubeconfig`
and has an empty namespace; the user of its document acts as `system:admin`,
and the configuration that the service holds after the call impersonates
`system:admin`. -/
theorem C23_counterexample :
    sampleGammaConnection.ConfigType = "kubeconfig" ∧
    sampleGammaConnection.Namespace = "" ∧
    sampleGammaConnection.Config = sampleGammaDocument ∧
    (ConnectToCluster unreachableEnv NewK8sService sampleGammaConnection).service.config =
      some ⟨"https://gamma.example:6443", "gamma-token", false, "system:admin"⟩ :=
  ⟨rfl, rfl, rfl, rfl⟩

/-- C23, amended: when `ConnectToCluster` has built a configuration and a
client for it, the configuration that the service holds impersonates the user
`system:serviceaccount:<namespace>:default` if the namespace of the
connection is not empty, whatever the credentials said; if the namespace is
empty the call adds no impersonation: the configuration is the one built from
the credentials, unchanged, which on the bearer-token path has no
impersonation at all and on the kubeconfig path has the one of the document.
On the bearer-token path the configuration therefore impersonates that user
exactly when the namespace is not empty. -/
theorem C23_impersonation (env : ConnectEnv) (s : K8sService) (connection : K8sConnection)
    (built : RestConfig) (effects : List ConnectEffect) (clientSet : Clientset)
    (hb : buildRestConfig env connection = (Except.ok built, effects))
    (hn : env.newForConfig (withImpersonation connection built) = Except.ok clientSet) :
    ∃ config : RestConfig,
      (ConnectToCluster env s connection).service.config = some config ∧
      (connection.Namespace ≠ "" →
        config.ImpersonateUserName =
          "system:serviceaccount:" ++ connection.Namespace ++ ":default") ∧
      (connection.Namespace = "" → config = built) ∧
      (connection.ConfigType ≠ "kubeconfig" → connection.Namespace = "" →
        config.ImpersonateUserName = "") ∧
      (connection.ConfigType ≠ "kubeconfig" →
        (config.ImpersonateUserName =
            "system:serviceaccount:" ++ connection.Namespace ++ ":default" ↔
          connection.Namespace ≠ "")) := by
  have htoken : connection.ConfigType ≠ "kubeconfig" → connection.Namespace = "" →
      (withImpersonation connection built).ImpersonateUserName = "" := by
    intro hk he
    rw [buildRestConfig_token env connection hk] at hb
    have hbuilt : built = ⟨connection.Endpoint, connection.Token, true, ""⟩ := by
      have h1 := congrArg Prod.fst hb
      simp only [Except.ok.injEq] at h1
      exact h1.symm
    unfold withImpersonation
    rw [if_neg (not_not.mpr he), hbuilt]
  have hset : connection.Namespace ≠ "" →
      (withImpersonation connection built).ImpersonateUserName =
        "system:serviceaccount:" ++ connection.Namespace ++ ":default" := by
    intro hne
    unfold withImpersonation
    rw [if_pos hne]
  refine ⟨withImpersonation connection built,
    ConnectToCluster_config env s connection built effects clientSet hb hn, hset, ?_, htoken, ?_⟩
  · intro he
    unfold withImpersonation
    rw [if_neg (not_not.mpr he)]
  · intro hk
    constructor
    · intro h hempty
      rw [htoken hk hempty, hempty] at h
      exact absurd h (by decide)
    · exact hset

/-- C23, on a token connection with the namespace `team-a`. -/
theorem C23_impersonation_witness :
    ∃ config : RestConfig,
      (ConnectToCluster unreachableEnv NewK8sService sampleTokenConnection).service.config =
        some config ∧
      config.ImpersonateUserName = "system:serviceaccount:" ++ "team-a" ++ ":default" :=
  have h := C23_impersonation unreachableEnv NewK8sService sampleTokenConnection
    ⟨"https://10.0.0.1:6443", "secret", true, ""⟩ [] unreachableClientset rfl rfl
  h.elim fun config hc => ⟨config, hc.1, hc.2.1 (by decide)⟩

theorem writtenPaths_append (l r : List ConnectEffect) :
    writtenPaths (l ++ r) = writtenPaths l ++ writtenPaths r := by
  induction l with
  | nil => rfl
  | cons e rest ih =>
    cases e with
    | writeFile path config => simp [writtenPaths, ih]
    | readFile path => simp [writtenPaths, ih]
    | serverVersion config => simp [writtenPaths, ih]

theorem buildRestConfig_paths (env : ConnectEnv) (connection : K8sConnection) :
    ∀ path ∈ writtenPaths (buildRestConfig env connection).2,
      path = "/tmp/kubeconfig-" ++ toString connection.ID := by
  intro path hp
  unfold buildRestConfig at hp
  by_cases hk : connection.ConfigType = "kubeconfig"
  · rw [if_pos hk] at hp
    cases hu : env.unmarshalConfig connection.Config with
    | error e =>
      rw [hu] at hp
      simp [writtenPaths] at hp
    | ok clusterConfig =>
      rw [hu] at hp
      simp only at hp
      cases hw : env.writeToFile clusterConfig ("/tmp/kubeconfig-" ++ toString connection.ID) with
      | error e =>
        rw [hw] at hp
        simpa [writtenPaths] using hp
      | ok u =>
        rw [hw] at hp
        simp only at hp
        cases hf : env.buildConfigFromFlags ("/tmp/kubeconfig-" ++ toString connection.ID)
            clusterConfig with
        | error e =>
          rw [hf] at hp
          simpa [writtenPaths] using hp
        | ok config =>
          rw [hf] at hp
          simpa [writtenPaths] using hp
  · rw [if_neg hk] at hp
    simp [writtenPaths] at hp

theorem ConnectToCluster_paths (env : ConnectEnv) (s : K8sService)
    (connection : K8sConnection) :
    writtenPaths (ConnectToCluster env s connection).effects =
      writtenPaths (buildRestConfig env connection).2 := by
  unfold ConnectToCluster
  cases hb : buildRestConfig env connection with
  | mk built effects =>
    cases built with
    | error e => rfl
    | ok config =>
      simp only
      cases env.newForConfig (withImpersonation connection config) with
      | error e => rfl
      | ok clientSet =>
        simp only
        cases clientSet.serverVersion with
        | error e => simp [writtenPaths_append, writtenPaths]
        | ok version => simp [writtenPaths_append, writtenPaths]

theorem toString_nat_injective (a b : Nat) (h : toString a = toString b) : a = b := by
  have ha := readDigits_toString a
  rw [h, readDigits_toString b] at ha
  exact (Option.some.inj ha).symm

theorem ConnectToCluster_parse_failure (env : ConnectEnv) (s : K8sService)
    (connection : K8sConnection) (e : GoError)
    (hk : connection.ConfigType = "kubeconfig")
    (hu : env.unmarshalConfig connection.Config = Except.error e) :
    (ConnectToCluster env s connection).effects = [] := by
  have hb : buildRestConfig env connection =
      (Except.error (GoError.wrap "failed to parse kubeconfig: " e), []) := by
    unfold buildRestConfig
    rw [if_pos hk, hu]
  unfold ConnectToCluster
  rw [hb]

set_option maxRecDepth 100000 in
/-- C24, what the code does: every file that `ConnectToCluster` writes has
the path `/tmp/kubeconfig-<ID>`, where `ID` is the identifier of the
connection and nothing else of the descriptor enters; two connections write
to the same path as soon as they have the same identifier, and to different
paths only if their identifiers differ. The connections that the handlers of
the controller build have the identifier 0 and an empty document, so the
deserializer refuses them and they write no file. The connections `alpha` and
`beta`, which differ in name, endpoint and payload, carry no identifier and
hold each a kubeconfig document in JSON, both write to `/tmp/kubeconfig-0`,
each its own credentials. -/
theorem C24_path_keyed_by_id :
    (∀ (env : ConnectEnv) (s : K8sService) (connection : K8sConnection),
      ∀ path ∈ writtenPaths (ConnectToCluster env s connection).effects,
        path = "/tmp/kubeconfig-" ++ toString connection.ID) ∧
    (∀ a b : Nat,
      "/tmp/kubeconfig-" ++ toString a = "/tmp/kubeconfig-" ++ toString b ↔ a = b) ∧
    (∀ ns : String, (controllerConnection ns).ID = 0 ∧ (controllerConnection ns).Config = "") ∧
    (∀ (env : ConnectEnv) (s : K8sService) (ns : String) (e : GoError),
      env.unmarshalConfig "" = Except.error e →
      (ConnectToCluster env s (controllerConnection ns)).effects = []) ∧
    (sampleAlphaConnection.ID = 0 ∧ sampleBetaConnection.ID = 0 ∧
      sampleAlphaConnection.Name ≠ sampleBetaConnection.Name ∧
      sampleAlphaConnection.Endpoint ≠ sampleBetaConnection.Endpoint ∧
      sampleAlphaConnection.Config ≠ sampleBetaConnection.Config) ∧
    (ConnectToCluster unreachableEnv NewK8sService sampleAlphaConnection).effects.head? =
      some (ConnectEffect.writeFile "/tmp/kubeconfig-0" ⟨sampleAlphaDocument⟩) ∧
    (ConnectToCluster unreachableEnv NewK8sService sampleBetaConnection).effects.head? =
      some (ConnectEffect.writeFile "/tmp/kubeconfig-0" ⟨sampleBetaDocument⟩) ∧
    writtenPaths (ConnectToCluster unreachableEnv NewK8sService sampleAlphaConnection).effects =
      ["/tmp/kubeconfig-0"] ∧
    writtenPaths (ConnectToCluster unreachableEnv NewK8sService sampleBetaConnection).effects =
      ["/tmp/kubeconfig-0"] := by
  refine ⟨?_, ?_, fun ns => ⟨rfl, rfl⟩, ?_, ⟨rfl, rfl, by decide, by decide, by decide⟩,
    by decide, by decide, by decide, by decide⟩
  · intro env s connection path hp
    rw [ConnectToCluster_paths] at hp
    exact buildRestConfig_paths env connection path hp
  · intro a b
    constructor
    · intro h
      have hd := congrArg String.data h
      rw [String.data_append, String.data_append] at hd
      have hs : (toString a).data = (toString b).data := List.append_cancel_left hd
      exact toString_nat_injective a b (String.ext hs)
    · intro h
      rw [h]
  · intro env s ns e hu
    exact ConnectToCluster_parse_failure env s (controllerConnection ns) e rfl hu

/-- C25: for every connection whose `ConfigType` is not exactly `kubeconfig`,
`ConnectToCluster` builds its configuration from endpoint and token without
any file and without an error: no kind is rejected. The configuration has
the endpoint as host, the token as bearer token and TLS verification
disabled, also after the impersonation step, and it is the configuration
that the service holds once a client is built for it. -/
theorem C25_token_path (env : ConnectEnv) (s : K8sService) (connection : K8sConnection)
    (hk : connection.ConfigType ≠ "kubeconfig") :
    buildRestConfig env connection =
      (Except.ok ⟨connection.Endpoint, connection.Token, true, ""⟩, []) ∧
    (withImpersonation connection ⟨connection.Endpoint, connection.Token, true, ""⟩).Host =
      connection.Endpoint ∧
    (withImpersonation connection
      ⟨connection.Endpoint, connection.Token, true, ""⟩).BearerToken = connection.Token ∧
    (withImpersonation connection
      ⟨connection.Endpoint, connection.Token, true, ""⟩).Insecure = true ∧
    (∀ clientSet : Clientset,
      env.newForConfig
          (withImpersonation connection ⟨connection.Endpoint, connection.Token, true, ""⟩) =
        Except.ok clientSet →
      ∃ config : RestConfig,
        (ConnectToCluster env s connection).service.config = some config ∧
        config.Host = connection.Endpoint ∧ config.BearerToken = connection.Token ∧
        config.Insecure = true) ∧
    (∀ err : GoError,
      env.newForConfig
          (withImpersonation connection ⟨connection.Endpoint, connection.Token, true, ""⟩) =
        Except.error err →
      (ConnectToCluster env s connection).result =
        Outcome.error (GoError.wrap "failed to create kubernetes client: " err)) := by
  have hfields : ∀ built : RestConfig,
      (withImpersonation connection built).Host = built.Host ∧
      (withImpersonation connection built).BearerToken = built.BearerToken ∧
      (withImpersonation connection built).Insecure = built.Insecure := by
    intro built
    unfold withImpersonation
    by_cases hne : connection.Namespace ≠ ""
    · rw [if_pos hne]
      exact ⟨rfl, rfl, rfl⟩
    · rw [if_neg hne]
      exact ⟨rfl, rfl, rfl⟩
  have hb := buildRestConfig_token env connection hk
  refine ⟨hb, (hfields _).1, (hfields _).2.1, (hfields _).2.2, ?_, ?_⟩
  · intro clientSet hn
    exact ⟨_, ConnectToCluster_config env s connection _ [] clientSet hb hn,
      (hfields _).1, (hfields _).2.1, (hfields _).2.2⟩
  · intro err hn
    unfold ConnectToCluster
    rw [hb]
    simp only [hn]

/-- C25, on a connection whose `ConfigType` is the text `certificate`. -/
theorem C25_token_path_witness :
    buildRestConfig unreachableEnv
        ⟨3, "odd", "https://10.0.0.2:6443", "certificate", "", "secret", ""⟩ =
      (Except.ok ⟨"https://10.0.0.2:6443", "secret", true, ""⟩, []) :=
  (C25_token_path unreachableEnv NewK8sService
    ⟨3, "odd", "https://10.0.0.2:6443", "certificate", "", "secret", ""⟩ (by decide)).1

/-! ## Tokens and roles -/

/-- C26, what the code does: `RefreshTokenMiddleware` builds the user of the
new access token from the user ID and the username of the refresh token and
leaves the roles empty, so `getUserRole` gives the default; for every
refresh token that is valid with claims `claims`, and whose new token is
signed, the answer is 200 with a token whose claims have the user ID and the
username of `claims` and the role `operator`, whatever the role of `claims`
is. -/
theorem C26_refresh_resets_role (lib : JWTLib) (j : JWTAuth) (now : Nat → Int)
    (body refreshToken newToken : String) (claims : JWTClaims)
    (hb : lib.bindRefreshToken body = Except.ok refreshToken)
    (hv : j.ValidateToken lib refreshToken = Except.ok claims)
    (hs : lib.SignedString (accessClaims j now (refreshUser claims)) j.config.SecretKey =
      Except.ok newToken) :
    j.RefreshTokenMiddleware lib now body =
      ⟨200, "", some newToken, some (accessClaims j now (refreshUser claims))⟩ ∧
    (accessClaims j now (refreshUser claims)).UserID = claims.UserID ∧
    (accessClaims j now (refreshUser claims)).Username = claims.Username ∧
    (accessClaims j now (refreshUser claims)).Role = "operator" := by
  refine ⟨?_, rfl, rfl, rfl⟩
  unfold JWTAuth.RefreshTokenMiddleware
  rw [hb]
  simp only [hv]
  unfold JWTAuth.GenerateToken
  rw [hs]

/-- C26, on the refresh token of the user `root`, whose role is `admin`: the
claims of the refresh token carry the role `admin`, and the new access token
is the one of the role `operator`. -/
theorem C26_refresh_resets_role_witness :
    (refreshClaims sampleJWTAuth (fun _ => 0) sampleAdmin).Role = "admin" ∧
    sampleJWTAuth.RefreshTokenMiddleware
        (sampleJWTLib [refreshClaims sampleJWTAuth (fun _ => 0) sampleAdmin]) (fun _ => 0)
        "refresh-token/1/root/admin" =
      ⟨200, "", some "user-auth/1/root/operator",
        some (accessClaims sampleJWTAuth (fun _ => 0)
          (refreshUser (refreshClaims sampleJWTAuth (fun _ => 0) sampleAdmin)))⟩ ∧
    (accessClaims sampleJWTAuth (fun _ => 0)
      (refreshUser (refreshClaims sampleJWTAuth (fun _ => 0) sampleAdmin))).Role = "operator" :=
  have h := C26_refresh_resets_role
    (sampleJWTLib [refreshClaims sampleJWTAuth (fun _ => 0) sampleAdmin]) sampleJWTAuth
    (fun _ => 0) "refresh-token/1/root/admin" "refresh-token/1/root/admin"
    "user-auth/1/root/operator" (refreshClaims sampleJWTAuth (fun _ => 0) sampleAdmin)
    rfl rfl rfl
  ⟨rfl, h.1, h.2.2.2⟩

/-- C27, what the code does: for a user with at least one role,
`getUserRole` and the field `Role` of `toUserResponse` are both the name of
the first role; for a user with no role, `getUserRole` is `operator` and the
field `Role` of `toUserResponse` is `viewer`, so the two differ. For the user
`guest`, who has no role, the access token carries `operator` and the
response shows `viewer`. -/
theorem C27_default_roles_differ :
    (∀ (user : model.User) (first : model.Role) (rest : List model.Role),
      user.Roles = first :: rest →
        getUserRole user = first.Name ∧ (toUserResponse user).Role = first.Name) ∧
    (∀ user : model.User, user.Roles = [] →
      getUserRole user = "operator" ∧ (toUserResponse user).Role = "viewer" ∧
      getUserRole user ≠ (toUserResponse user).Role) ∧
    sampleGuest.Roles = [] ∧
    (accessClaims sampleJWTAuth (fun _ => 0) sampleGuest).Role = "operator" ∧
    (toUserResponse sampleGuest).Role = "viewer" := by
  refine ⟨?_, ?_, rfl, rfl, rfl⟩
  · intro user first rest h
    unfold getUserRole toUserResponse
    rw [h]
    exact ⟨rfl, rfl⟩
  · intro user h
    have h1 : getUserRole user = "operator" := by
      unfold getUserRole
      rw [h]
    have h2 : (toUserResponse user).Role = "viewer" := by
      unfold toUserResponse
      rw [h]
    refine ⟨h1, h2, ?_⟩
    rw [h1, h2]
    decide

theorem hasRolePermission_cases (userRole requiredRole : String) :
    hasRolePermission userRole requiredRole =
      if userRole = "admin" then
        decide (requiredRole = "admin" ∨ requiredRole = "operator" ∨ requiredRole = "viewer")
      else if userRole = "operator" then
        decide (requiredRole = "operator" ∨ requiredRole = "viewer")
      else if userRole = "viewer" then decide (requiredRole = "viewer")
      else false := by
  unfold hasRolePermission
  by_cases h1 : userRole = "admin"
  · subst h1
    simp [List.lookup, eq_comm]
  · by_cases h2 : userRole = "operator"
    · subst h2
      simp [List.lookup, eq_comm]
    · by_cases h3 : userRole = "viewer"
      · subst h3
        simp [List.lookup, eq_comm]
      · have e1 : (userRole == "admin") = false := by simpa using h1
        have e2 : (userRole == "operator") = false := by simpa using h2
        have e3 : (userRole == "viewer") = false := by simpa using h3
        simp [List.lookup, e1, e2, e3, h1, h2, h3]

theorem hasRolePermission_iff (userRole requiredRole : String) :
    hasRolePermission userRole requiredRole = true ↔
      ∃ a b : Nat, roleRank userRole = some a ∧ roleRank requiredRole = some b ∧ b ≤ a := by
  rw [hasRolePermission_cases]
  unfold roleRank
  by_cases h1 : userRole = "admin"
  · subst h1
    by_cases r1 : requiredRole = "admin"
    · subst r1
      simp
    · by_cases r2 : requiredRole = "operator"
      · subst r2
        simp
      · by_cases r3 : requiredRole = "viewer"
        · subst r3
          simp
        · simp [r1, r2, r3]
  · by_cases h2 : userRole = "operator"
    · subst h2
      by_cases r1 : requiredRole = "admin"
      · subst r1
        simp
      · by_cases r2 : requiredRole = "operator"
        · subst r2
          simp
        · by_cases r3 : requiredRole = "viewer"
          · subst r3
            simp
          · simp [r1, r2, r3]
    · by_cases h3 : userRole = "viewer"
      · subst h3
        by_cases r1 : requiredRole = "admin"
        · subst r1
          simp
        · by_cases r2 : requiredRole = "operator"
          · subst r2
            simp
          · by_cases r3 : requiredRole = "viewer"
            · subst r3
              simp
            · simp [r1, r2, r3]
      · simp [h1, h2, h3]

theorem roleRank_isSome_iff (role : String) :
    (∃ a, roleRank role = some a) ↔ role = "admin" ∨ role = "operator" ∨ role = "viewer" := by
  unfold roleRank
  by_cases r1 : role = "admin"
  · simp [r1]
  · by_cases r2 : role = "operator"
    · simp [r2]
    · by_cases r3 : role = "viewer"
      · simp [r3]
      · simp [r1, r2, r3]

/-- C28: `hasRolePermission(userRole, requiredRole)` is true exactly when
both roles are among `admin`, `operator` and `viewer` and the user role ranks
at least as high as the required role in the order admin, operator, viewer.
The relation is reflexive on the three roles and transitive, false when
either role is another text, and true for `admin` with each of the three
required roles; the ranks are 3, 2 and 1. -/
theorem C28_hasRolePermission_order :
    (∀ userRole requiredRole : String,
      hasRolePermission userRole requiredRole = true ↔
        ∃ a b : Nat, roleRank userRole = some a ∧ roleRank requiredRole = some b ∧ b ≤ a) ∧
    (∀ role : String,
      (∃ a, roleRank role = some a) ↔ role = "admin" ∨ role = "operator" ∨ role = "viewer") ∧
    (roleRank "admin" = some 3 ∧ roleRank "operator" = some 2 ∧ roleRank "viewer" = some 1) ∧
    (∀ role : String, role = "admin" ∨ role = "operator" ∨ role = "viewer" →
      hasRolePermission role role = true) ∧
    (∀ r s t : String, hasRolePermission r s = true → hasRolePermission s t = true →
      hasRolePermission r t = true) ∧
    (∀ userRole requiredRole : String,
      ¬ (userRole = "admin" ∨ userRole = "operator" ∨ userRole = "viewer") ∨
        ¬ (requiredRole = "admin" ∨ requiredRole = "operator" ∨ requiredRole = "viewer") →
      hasRolePermission userRole requiredRole = false) ∧
    (hasRolePermission "admin" "admin" = true ∧ hasRolePermission "admin" "operator" = true ∧
      hasRolePermission "admin" "viewer" = true) ∧
    (hasRolePermission "operator" "admin" = false ∧
      hasRolePermission "viewer" "operator" = false ∧
      hasRolePermission "viewer" "admin" = false) := by
  refine ⟨hasRolePermission_iff, roleRank_isSome_iff, by decide, ?_, ?_, ?_, by decide,
    by decide⟩
  · intro role h
    obtain ⟨a, ha⟩ := (roleRank_isSome_iff role).mpr h
    exact (hasRolePermission_iff role role).mpr ⟨a, a, ha, ha, le_refl a⟩
  · intro r s t h1 h2
    obtain ⟨a, b, ha, hb, hab⟩ := (hasRolePermission_iff r s).mp h1
    obtain ⟨b2, c, hb2, hc, hbc⟩ := (hasRolePermission_iff s t).mp h2
    rw [hb] at hb2
    have hbb : b = b2 := Option.some.inj hb2
    exact (hasRolePermission_iff r t).mpr ⟨a, c, ha, hc, by omega⟩
  · intro userRole requiredRole h
    cases hv : hasRolePermission userRole requiredRole with
    | false => rfl
    | true =>
      obtain ⟨a, b, ha, hb, _⟩ := (hasRolePermission_iff userRole requiredRole).mp hv
      cases h with
      | inl hu => exact absurd ((roleRank_isSome_iff userRole).mp ⟨a, ha⟩) hu
      | inr hr => exact absurd ((roleRank_isSome_iff requiredRole).mp ⟨b, hb⟩) hr

/-! ## Ports out of range and the command of a request -/

theorem toInt32_range (v : Int) :
    -(2 : Int) ^ 31 ≤ toInt32 v ∧ toInt32 v < (2 : Int) ^ 31 ∧
    (toInt32 v - v) % (2 : Int) ^ 32 = 0 := by
  unfold toInt32
  have h1 : (0 : Int) ≤ (v + 2 ^ 31) % 2 ^ 32 := Int.emod_nonneg _ (by norm_num)
  have h2 : (v + 2 ^ 31) % 2 ^ 32 < (2 : Int) ^ 32 := Int.emod_lt_of_pos _ (by norm_num)
  refine ⟨by linarith, ?_, ?_⟩
  · have : (2 : Int) ^ 32 = 2 ^ 31 + 2 ^ 31 := by norm_num
    linarith
  · have h3 : (v + 2 ^ 31) % (2 : Int) ^ 32 =
        v + 2 ^ 31 - 2 ^ 32 * ((v + 2 ^ 31) / 2 ^ 32) := by
      have := Int.emod_add_ediv (v + 2 ^ 31) (2 ^ 32)
      linarith
    rw [h3]
    have : v + 2 ^ 31 - 2 ^ 32 * ((v + 2 ^ 31) / 2 ^ 32) - 2 ^ 31 - v =
        (2 : Int) ^ 32 * (-((v + 2 ^ 31) / 2 ^ 32)) := by ring
    rw [this]
    exact Int.mul_emod_right _ _

theorem digit_of_digitValue (c : Char) (n : Nat) (h : digitValue c = some n) :
    48 ≤ c.toNat ∧ c.toNat ≤ 57 := by
  unfold digitValue at h
  by_cases hc : '0' ≤ c ∧ c ≤ '9'
  · have h1 : '0'.toNat ≤ c.toNat := hc.1
    have h2 : c.toNat ≤ '9'.toNat := hc.2
    exact ⟨h1, h2⟩
  · rw [if_neg hc] at h
    exact Option.noConfusion h

theorem toDigitsCore_digits (fuel n : Nat) (ds : List Char)
    (hds : ∀ c ∈ ds, 48 ≤ c.toNat ∧ c.toNat ≤ 57) :
    ∀ c ∈ Nat.toDigitsCore 10 fuel n ds, 48 ≤ c.toNat ∧ c.toNat ≤ 57 := by
  induction fuel generalizing n ds with
  | zero => simpa [Nat.toDigitsCore] using hds
  | succ f ih =>
    have hd : ∀ c ∈ Nat.digitChar (n % 10) :: ds, 48 ≤ c.toNat ∧ c.toNat ≤ 57 := by
      intro c hc
      cases List.mem_cons.mp hc with
      | inl h =>
        rw [h]
        exact digit_of_digitValue _ _ (digitValue_digitChar (n % 10) (Nat.mod_lt n (by norm_num)))
      | inr h => exact hds c h
    unfold Nat.toDigitsCore
    by_cases h0 : n / 10 = 0
    · simp only [h0, if_true]
      exact hd
    · simp only [h0, if_false]
      exact ih (n / 10) _ hd

theorem toDigitsCore_ne_nil (fuel n : Nat) (ds : List Char) (h : ds ≠ [] ∨ 0 < fuel) :
    Nat.toDigitsCore 10 fuel n ds ≠ [] := by
  induction fuel generalizing n ds with
  | zero =>
    cases h with
    | inl h => simpa [Nat.toDigitsCore] using h
    | inr h => omega
  | succ f ih =>
    unfold Nat.toDigitsCore
    by_cases h0 : n / 10 = 0
    · simp only [h0, if_true]
      exact List.cons_ne_nil _ _
    · simp only [h0, if_false]
      exact ih (n / 10) _ (Or.inl (List.cons_ne_nil _ _))

theorem toString_nat_data (n : Nat) :
    (toString n).data ≠ [] ∧ ∀ c ∈ (toString n).data, 48 ≤ c.toNat ∧ c.toNat ≤ 57 := by
  have : (toString n).data = Nat.toDigitsCore 10 (n + 1) n [] := rfl
  rw [this]
  exact ⟨toDigitsCore_ne_nil _ _ _ (Or.inr (Nat.succ_pos n)),
    toDigitsCore_digits _ _ _ (by simp)⟩

theorem isSpace_of_digit (c : Char) (h : 48 ≤ c.toNat ∧ c.toNat ≤ 57) : isSpace c = false := by
  have e : ∀ d : Char, d.toNat < 48 → (decide (c = d)) = false := by
    intro d hd
    simp only [decide_eq_false_iff_not]
    intro hcd
    rw [hcd] at h
    omega
  unfold isSpace
  rw [e '\t' (by decide), e '\n' (by decide), e '\x0b' (by decide), e '\x0c' (by decide),
    e '\r' (by decide), e ' ' (by decide)]
  simp only [Bool.false_or, Bool.or_eq_false_iff, Bool.and_eq_false_iff,
    decide_eq_false_iff_not]
  omega

theorem splitChars_of_not_mem (sep : Char) (l : List Char) (h : sep ∉ l) :
    splitChars sep l = [l] := by
  induction l with
  | nil => rfl
  | cons c cs ih =>
    have hc : c ≠ sep := fun e => h (by rw [e]; exact List.mem_cons_self _ _)
    have hcs : sep ∉ cs := fun e => h (List.mem_cons_of_mem _ e)
    rw [splitChars, if_neg hc, ih hcs]

theorem dropWhile_of_all_false (p : Char → Bool) (l : List Char) (h : ∀ c ∈ l, p c = false) :
    l.dropWhile p = l := by
  cases l with
  | nil => rfl
  | cons c cs => simp [List.dropWhile, h c (List.mem_cons_self _ _)]

theorem stringsTrimSpace_of_no_space (l : List Char) (h : ∀ c ∈ l, isSpace c = false) :
    stringsTrimSpace (String.mk l) = String.mk l := by
  unfold stringsTrimSpace trimRightChars
  simp only
  rw [dropWhile_of_all_false isSpace l h,
    dropWhile_of_all_false isSpace l.reverse (fun c hc => h c (List.mem_reverse.mp hc)),
    List.reverse_reverse]

theorem strconvAtoi_digits (l : List Char) (n : Nat) (hne : l ≠ [])
    (hd : ∀ c ∈ l, 48 ≤ c.toNat ∧ c.toNat ≤ 57) (hr : readDigits l 0 = some n)
    (hn : (n : Int) < 2 ^ 63) : strconvAtoi (String.mk l) = some (n : Int) := by
  cases l with
  | nil => exact absurd rfl hne
  | cons c cs =>
    have hc := hd c (List.mem_cons_self _ _)
    have h1 : c ≠ '-' := by
      intro e
      rw [e] at hc
      have : ('-' : Char).toNat = 45 := rfl
      omega
    have h2 : c ≠ '+' := by
      intro e
      rw [e] at hc
      have : ('+' : Char).toNat = 43 := rfl
      omega
    have hlo : -(2 : Int) ^ 63 ≤ (n : Int) := by
      have : (0 : Int) ≤ (n : Int) := Int.natCast_nonneg n
      have : (0 : Int) < 2 ^ 63 := by norm_num
      linarith
    unfold strconvAtoi
    simp only [h1, h2, or_self, if_false, List.isEmpty_cons, decide_False, Bool.false_eq_true]
    rw [hr]
    simp only [if_false]
    rw [if_pos ⟨hlo, hn⟩]

theorem strconvAtoi_minus (l : List Char) (n : Nat) (hne : l ≠ [])
    (hr : readDigits l 0 = some n) (hn : (n : Int) ≤ 2 ^ 63) :
    strconvAtoi (String.mk ('-' :: l)) = some (-(n : Int)) := by
  have hlo : -(2 : Int) ^ 63 ≤ -(n : Int) := by linarith
  have hhi : -(n : Int) < 2 ^ 63 := by
    have : (0 : Int) ≤ (n : Int) := Int.natCast_nonneg n
    have : (0 : Int) < 2 ^ 63 := by norm_num
    linarith
  have he : l.isEmpty = false := by
    cases l with
    | nil => exact absurd rfl hne
    | cons c cs => rfl
  unfold strconvAtoi
  simp only [true_or, if_true, he, Bool.false_eq_true, if_false, decide_True]
  rw [hr]
  simp only [if_true]
  rw [if_pos ⟨hlo, hhi⟩]

theorem parsePortMappings_token (l : List Char) (v : Int)
    (hcomma : ',' ∉ l) (hspace : ∀ c ∈ l, isSpace c = false) (hne : l ≠ [])
    (hv : strconvAtoi (String.mk l) = some v) :
    parsePortMappings (String.mk l) = [toInt32 v] := by
  have hne2 : String.mk l ≠ "" := by
    intro e
    exact hne (congrArg String.data e)
  unfold parsePortMappings stringsSplit
  rw [splitChars_of_not_mem ',' l hcomma]
  simp only [List.map_cons, List.map_nil]
  rw [parsePortParts, stringsTrimSpace_of_no_space l hspace]
  simp only [hne2, ne_eq, not_false_eq_true, if_true, hv]
  rfl

theorem parsePortMappings_nat (n : Nat) (hn : (n : Int) < 2 ^ 63) :
    parsePortMappings (toString n) = [toInt32 (n : Int)] := by
  obtain ⟨hne, hd⟩ := toString_nat_data n
  have hs : toString n = String.mk (toString n).data := rfl
  rw [hs]
  apply parsePortMappings_token _ _ _ _ hne
  · exact strconvAtoi_digits _ n hne hd (readDigits_toString n) hn
  · intro hm
    have := hd ',' hm
    have h44 : (',' : Char).toNat = 44 := rfl
    omega
  · intro c hc
    exact isSpace_of_digit c (hd c hc)

theorem parsePortMappings_int (v : Int) (hlo : -(2 : Int) ^ 63 ≤ v) (hhi : v < (2 : Int) ^ 63) :
    parsePortMappings (toString v) = [toInt32 v] := by
  cases v with
  | ofNat n => exact parsePortMappings_nat n hhi
  | negSucc m =>
    obtain ⟨hne, hd⟩ := toString_nat_data (m + 1)
    have hs : toString (Int.negSucc m) = String.mk ('-' :: (toString (m + 1)).data) := rfl
    have hval : Int.negSucc m = -((m + 1 : Nat) : Int) := rfl
    rw [hs]
    apply parsePortMappings_token
    · intro hm
      cases List.mem_cons.mp hm with
      | inl h => exact absurd h (by decide)
      | inr h =>
        have := hd ',' h
        have h44 : (',' : Char).toNat = 44 := rfl
        omega
    · intro c hc
      cases List.mem_cons.mp hc with
      | inl h =>
        rw [h]
        decide
      | inr h => exact isSpace_of_digit c (hd c h)
    · exact List.cons_ne_nil _ _
    · rw [hval]
      apply strconvAtoi_minus _ (m + 1) hne (readDigits_toString (m + 1))
      rw [hval] at hlo
      linarith

/-- C29: `parsePortMappings` checks no range. Every token on which
`strconv.Atoi` succeeds with the value `v`, that is, every integer that fits
in 64 bits, yields a port, which is `int32(v)`: the number in the signed
32-bit range that differs from `v` by a multiple of 2^32. A value outside
the 32-bit range is so reduced and not dropped (`4294967376` yields 80,
`2147483648` yields -2147483648, the largest 64-bit integer yields -1), and
zero, negative values and values above 65535 are returned as ports; only a
value that does not fit in 64 bits is dropped. The decimal text of every
integer `v` that fits in 64 bits parses to the one port `int32(v)`. -/
theorem C29_ports_unchecked :
    (∀ portsStr : String,
      parsePortMappings portsStr = (stringsSplit portsStr ',').filterMap portOfToken) ∧
    (∀ (token : String) (v : Int), strconvAtoi (stringsTrimSpace token) = some v →
      portOfToken token = some (toInt32 v) ∧
      -(2 : Int) ^ 31 ≤ toInt32 v ∧ toInt32 v < (2 : Int) ^ 31 ∧
      (toInt32 v - v) % (2 : Int) ^ 32 = 0) ∧
    (∀ v : Int, -(2 : Int) ^ 31 ≤ v → v < (2 : Int) ^ 31 → toInt32 v = v) ∧
    (∀ v : Int, -(2 : Int) ^ 63 ≤ v → v < (2 : Int) ^ 63 →
      parsePortMappings (toString v) = [toInt32 v]) ∧
    strconvAtoi "4294967376" = some 4294967376 ∧
    parsePortMappings "4294967376" = [80] ∧
    parsePortMappings "2147483648" = [-2147483648] ∧
    parsePortMappings "9223372036854775807" = [-1] ∧
    parsePortMappings "9223372036854775808" = [] ∧
    parsePortMappings "0, -1, 65536, 70000" = [0, -1, 65536, 70000] ∧
    requestPorts ⟨"web", "default", "nginx", "", "0,-1,4294967376", "", ""⟩ =
      [⟨0⟩, ⟨-1⟩, ⟨80⟩] := by
  refine ⟨?_, ?_, toInt32_of_fits, parsePortMappings_int, by decide, by decide, by decide,
    by decide, by decide, by decide, by decide⟩
  · intro portsStr
    simp [parsePortMappings, parsePortParts_eq]
  · intro token v hv
    exact ⟨by simp [portOfToken, hv], toInt32_range v⟩


theorem CreateContainer_calls (v : String → Bool) (range : MapRange) (s : K8sService)
    (req : CreateContainerRequest) :
    ((s.clientSet = none ∨ ∀ r, requestResources v req ≠ Outcome.ok r) ∧
      (CreateContainer v range s req).2 = []) ∨
    ∃ (client : Clientset) (r : ResourceRequirements),
      s.clientSet = some client ∧ requestResources v req = Outcome.ok r ∧
      (CreateContainer v range s req).2 =
        [ApiCall.createPod req.Namespace
          (podOfRequest req (requestEnvVars range req) (requestPorts req) r)] := by
  cases hs : s.clientSet with
  | none =>
    left
    refine ⟨Or.inl rfl, ?_⟩
    unfold CreateContainer
    simp only [hs]
  | some client =>
    cases hr : requestResources v req with
    | ok r =>
      right
      refine ⟨client, r, rfl, rfl, ?_⟩
      rw [CreateContainer_of_resources v range s client req r hs hr]
      cases client.createPod req.Namespace
          (podOfRequest req (requestEnvVars range req) (requestPorts req) r) with
      | error e => rfl
      | ok u => rfl
    | error e =>
      left
      refine ⟨Or.inr (fun r h => Outcome.noConfusion h), ?_⟩
      unfold requestResources at hr
      unfold CreateContainer
      simp only [hs]
      rw [hr]
    | panic reason =>
      left
      refine ⟨Or.inr (fun r h => Outcome.noConfusion h), ?_⟩
      unfold requestResources at hr
      unfold CreateContainer
      simp only [hs]
      rw [hr]

theorem requestEnvVars_perm (range other : MapRange) (req : CreateContainerRequest) :
    (requestEnvVars range req).Perm (requestEnvVars other req) := by
  unfold requestEnvVars
  by_cases h : req.Env ≠ ""
  · rw [if_pos h, if_pos h]
    exact ((range.perm _).trans (other.perm _).symm).map _
  · rw [if_neg h, if_neg h]

theorem order_of_short (range : MapRange) (m : GoMap) (h : m.length ≤ 1) :
    range.order m = m := by
  have hp := range.perm m
  cases m with
  | nil => exact List.perm_nil.mp hp
  | cons a rest =>
    cases rest with
    | nil => exact List.perm_singleton.mp hp
    | cons b more =>
      simp only [List.length_cons] at h
      omega

set_option maxRecDepth 100000 in
/-- C30 fails as stated: the requests `sampleQuietRequest` and
`sampleLoudRequest` differ in the command only and carry the variables `A`
and `B`; when the loop over the map of the one call yields `A` first and the
loop of the other yields `B` first, as the language allows, the submitted
pods differ: their containers list the variables in different orders. -/
theorem C30_counterexample :
    sampleLoudRequest = withCommand sampleQuietRequest "sleep 1" ∧
    requestEnvVars insertionOrder sampleQuietRequest = [⟨"A", "1"⟩, ⟨"B", "2"⟩] ∧
    requestEnvVars reverseOrder sampleLoudRequest = [⟨"B", "2"⟩, ⟨"A", "1"⟩] ∧
    (CreateContainer sampleValidQuantity insertionOrder (sampleService [])
        sampleQuietRequest).2 ≠
      (CreateContainer sampleValidQuantity reverseOrder (sampleService [])
        sampleLoudRequest).2 := by
  decide

/-- C30, amended: `CreateContainer` does not read the field `Command` of the
request. A request and the same request with any other command, handled with
the same order of the loop over the map of variables, give the same result
and the same requests to the cluster. Whatever the orders of the two loops,
either both calls submit no pod or both submit one, and the two pods agree in
everything but the order of the environment variables of their one
container, which list the same variables; with at most one variable the two
calls give the same result and submit the same pod. In every pod that
`CreateContainer` submits, no container has a command. -/
theorem C30_command_ignored (v : String → Bool) (range other : MapRange) (s : K8sService)
    (req : CreateContainerRequest) (command : String) :
    CreateContainer v range s (withCommand req command) = CreateContainer v range s req ∧
    ((CreateContainer v range s (withCommand req command)).2 = [] ↔
      (CreateContainer v other s req).2 = []) ∧
    (∀ (target : String) (pod : Pod) (target2 : String) (pod2 : Pod),
      ApiCall.createPod target pod ∈ (CreateContainer v range s (withCommand req command)).2 →
      ApiCall.createPod target2 pod2 ∈ (CreateContainer v other s req).2 →
      target = target2 ∧ pod.ObjectMeta = pod2.ObjectMeta ∧ pod.Status = pod2.Status ∧
      pod.Spec.RestartPolicy = pod2.Spec.RestartPolicy ∧
      pod.Spec.NodeName = pod2.Spec.NodeName ∧
      ∃ container container2 : Container,
        pod.Spec.Containers = [container] ∧ pod2.Spec.Containers = [container2] ∧
        container.Name = container2.Name ∧ container.Image = container2.Image ∧
        container.Ports = container2.Ports ∧ container.Resources = container2.Resources ∧
        container.Env.Perm container2.Env ∧
        container.Command = [] ∧ container2.Command = []) ∧
    ((parseEnvVars req.Env).length ≤ 1 →
      CreateContainer v range s (withCommand req command) = CreateContainer v other s req) ∧
    (∀ (target : String) (pod : Pod),
      ApiCall.createPod target pod ∈ (CreateContainer v range s req).2 →
        ∀ container ∈ pod.Spec.Containers, container.Command = []) := by
  have hsame : CreateContainer v range s (withCommand req command) =
      CreateContainer v range s req := rfl
  refine ⟨hsame, ?_, ?_, ?_, ?_⟩
  · rw [hsame]
    cases CreateContainer_calls v range s req with
    | inl h1 =>
      cases CreateContainer_calls v other s req with
      | inl h2 => rw [h1.2, h2.2]
      | inr h2 =>
        obtain ⟨client, r, hs, hr, _⟩ := h2
        cases h1.1 with
        | inl hn => rw [hn] at hs; exact Option.noConfusion hs
        | inr hn => exact absurd hr (hn r)
    | inr h1 =>
      obtain ⟨client, r, hs, hr, hc⟩ := h1
      cases CreateContainer_calls v other s req with
      | inl h2 =>
        cases h2.1 with
        | inl hn => rw [hn] at hs; exact Option.noConfusion hs
        | inr hn => exact absurd hr (hn r)
      | inr h2 =>
        obtain ⟨client2, r2, _, _, hc2⟩ := h2
        rw [hc, hc2]
        simp
  · intro target pod target2 pod2 hm hm2
    rw [hsame] at hm
    cases CreateContainer_calls v range s req with
    | inl h1 =>
      rw [h1.2] at hm
      simp at hm
    | inr h1 =>
      obtain ⟨client, r, hs, hr, hc⟩ := h1
      cases CreateContainer_calls v other s req with
      | inl h2 =>
        rw [h2.2] at hm2
        simp at hm2
      | inr h2 =>
        obtain ⟨client2, r2, _, hr2, hc2⟩ := h2
        rw [hr] at hr2
        have hrr : r = r2 := Outcome.ok.inj hr2
        rw [hc] at hm
        rw [hc2, ← hrr] at hm2
        simp only [List.mem_singleton, ApiCall.createPod.injEq] at hm hm2
        rw [hm.1, hm.2, hm2.1, hm2.2]
        exact ⟨rfl, rfl, rfl, rfl, rfl, _, _, rfl, rfl, rfl, rfl, rfl, rfl,
          requestEnvVars_perm range other req, rfl, rfl⟩
  · intro hlen
    rw [hsame]
    have h1 := order_of_short range (parseEnvVars req.Env) hlen
    have h2 := order_of_short other (parseEnvVars req.Env) hlen
    unfold CreateContainer
    rw [h1, h2]
  · intro target pod hmem container hc
    cases CreateContainer_calls v range s req with
    | inl h =>
      rw [h.2] at hmem
      simp at hmem
    | inr h =>
      obtain ⟨client, r, _, _, hr⟩ := h
      rw [hr] at hmem
      simp only [List.mem_singleton, ApiCall.createPod.injEq] at hmem
      rw [hmem.2] at hc
      simp only [podOfRequest, List.mem_singleton] at hc
      rw [hc]

end ContainerPlatform
